import Mathlib

/-! # ea-pak: the bitmap reader (`bmp2pak.c`, `load_bmp`) and writer (`pak2bmp.c`, `save_bmp`)

A shallow embedding of the two C functions and of the helpers they rely on.

* Bytes, 16-bit and 32-bit machine integers are natural numbers; every store into a
  fixed-width field reduces modulo the field width.
* A file is the list of its bytes.  `fread` and `fwrite` follow the C library: they return
  the number of complete items transferred, which is `0` when the item size is `0`.
* Allocation (`calloc`) always succeeds and yields zeroed memory, and the file system takes
  every byte written; the exits `-5` of `load_bmp` and `-3` of `save_bmp` are therefore
  never taken.
* Behaviour that C leaves undefined is not given a value: a load or store outside the object
  it addresses ends the run with `exec.out_of_bounds`, an overflowing `int` operation ends it
  with `exec.int_overflow`.
* `bmp.h` is not among the sources.  The sizes and the field order of its types are taken from
  the byte layout table of the specification; its two constants and the order of the colour
  channels in a palette entry are parameters (`bmp_h`).
* `load_bmp` is given in three consecutive parts, `load_bmp` (lines 171-210), `load_bmp_body`
  (lines 212-241) and `load_bmp_image` (lines 243-295), each calling the next.
-/

namespace EaPak

/-! ## Outcome of a run -/

/-- Outcome of running a C function: it returns, or it reaches undefined behaviour. -/
inductive exec (α : Type) where
  | done : α → exec α
  | out_of_bounds : exec α
  | int_overflow : exec α
deriving DecidableEq, Repr

/-! ## `bmp.h` -/

/-- Modelled from the spec: the constants `BMPFILESIG` and `BMP96DPI` of `bmp.h`, whose values
the sources do not show, and the byte order of the colour channels inside
`bmp_palette_entry_t` (`rgb_order = true`: red, green, blue, reserved as in the layout table;
`false`: blue, green, red, reserved as in the comment "BMP BGRA palette" of `save_bmp`). -/
structure bmp_h where
  BMPFILESIG : Nat
  BMP96DPI : Nat
  rgb_order : Bool
deriving DecidableEq, Repr

/-- Modelled from the spec: `sizeof(bmp_signature_t)`, the 2-byte magic signature. -/
def SIGSZ : Nat := 2

/-- Modelled from the spec: `sizeof(bmi_header_t)`, the info block (4+4+4+2+2+4+4+4+4+4+4). -/
def BMISZ : Nat := 40

/-- Modelled from the spec: `sizeof(bmp_header_t)`, file size, reserved, pixel offset (4 bytes
each) followed by the info block. -/
def HDRSZ : Nat := 12 + BMISZ

/-- Modelled from the spec: `sizeof(bmp_palette_entry_t)`, 3 colour bytes and 1 reserved. -/
def PALENTSZ : Nat := 4

/-- The macro `HDRBUFSZ` of `pak2bmp.c`. -/
def HDRBUFSZ : Nat := SIGSZ + HDRSZ

/-- Largest value of a C `int` (32 bits). -/
def INT_MAX : Nat := 2147483647

/-- Little-endian bytes of the low `n` bytes of `v`: a store into an `n`-byte field. -/
def le_bytes : Nat → Nat → List Nat
  | 0, _ => []
  | n + 1, v => (v % 256) :: le_bytes n (v / 256)

/-- Value of a little-endian byte sequence: a load from a field. -/
def le_val : List Nat → Nat
  | [] => 0
  | b :: bs => b + 256 * le_val bs

/-- A 32-bit pattern read as a two's complement `int32_t`. -/
def to_int32 (v : Nat) : Int :=
  if v % 4294967296 < 2147483648 then (v % 4294967296 : Nat) else (v % 4294967296 : Nat) - 4294967296

/-- The 32-bit pattern of an `int32_t`. -/
def of_int32 (i : Int) : Nat := (i % 4294967296).toNat

/-- Type `dib_header_t`: the file part of the header. -/
structure dib_header_t where
  file_size : Nat
  RES : Nat
  image_offset : Nat
deriving DecidableEq, Repr

/-- Type `bmi_header_t`: the info block. -/
structure bmi_header_t where
  header_size : Nat
  image_width : Int
  image_height : Int
  num_planes : Nat
  bits_per_pixel : Nat
  compression : Nat
  bitmap_size : Nat
  horiz_res : Nat
  vert_res : Nat
  num_colors : Nat
  important_colors : Nat
deriving DecidableEq, Repr

/-- Type `bmp_header_t`. -/
structure bmp_header_t where
  dib : dib_header_t
  bmi : bmi_header_t
deriving DecidableEq, Repr

/-- Modelled from the spec: the bytes of a `bmp_header_t` in memory and on disk, field by field
in the order and with the sizes of the layout table, little-endian. -/
def header_bytes (h : bmp_header_t) : List Nat :=
  le_bytes 4 h.dib.file_size ++ le_bytes 4 h.dib.RES ++ le_bytes 4 h.dib.image_offset ++
  le_bytes 4 h.bmi.header_size ++ le_bytes 4 (of_int32 h.bmi.image_width) ++
  le_bytes 4 (of_int32 h.bmi.image_height) ++ le_bytes 2 h.bmi.num_planes ++
  le_bytes 2 h.bmi.bits_per_pixel ++ le_bytes 4 h.bmi.compression ++
  le_bytes 4 h.bmi.bitmap_size ++ le_bytes 4 h.bmi.horiz_res ++ le_bytes 4 h.bmi.vert_res ++
  le_bytes 4 h.bmi.num_colors ++ le_bytes 4 h.bmi.important_colors

/-- The field of `n` bytes at offset `off` of a byte block. -/
def field (bs : List Nat) (off n : Nat) : Nat := le_val ((bs.drop off).take n)

/-- Modelled from the spec: a `bmp_header_t` read back from its `HDRSZ` bytes. -/
def header_of_bytes (bs : List Nat) : bmp_header_t :=
  { dib := { file_size := field bs 0 4, RES := field bs 4 4, image_offset := field bs 8 4 },
    bmi := { header_size := field bs 12 4,
             image_width := to_int32 (field bs 16 4),
             image_height := to_int32 (field bs 20 4),
             num_planes := field bs 24 2,
             bits_per_pixel := field bs 26 2,
             compression := field bs 28 4,
             bitmap_size := field bs 32 4,
             horiz_res := field bs 36 4,
             vert_res := field bs 40 4,
             num_colors := field bs 44 4,
             important_colors := field bs 48 4 } }

/-- Type `pal_entry_t` of both programs: an RGB triple. -/
structure pal_entry_t where
  r : Nat
  g : Nat
  b : Nat
deriving DecidableEq, Repr

/-- Modelled from the spec: type `bmp_palette_entry_t`, three colour channels and a fourth,
reserved byte. -/
structure bmp_palette_entry_t where
  r : Nat
  g : Nat
  b : Nat
  a : Nat
deriving DecidableEq, Repr

/-- Modelled from the spec: the 4 bytes of a `bmp_palette_entry_t`, the reserved byte last. -/
def pal_entry_bytes (K : bmp_h) (e : bmp_palette_entry_t) : List Nat :=
  if K.rgb_order then [e.r, e.g, e.b, e.a] else [e.b, e.g, e.r, e.a]

/-- Modelled from the spec: a `bmp_palette_entry_t` read from 4 bytes. -/
def pal_entry_of_bytes (K : bmp_h) (bs : List Nat) : bmp_palette_entry_t :=
  if K.rgb_order then { r := bs.getD 0 0, g := bs.getD 1 0, b := bs.getD 2 0, a := bs.getD 3 0 }
  else { r := bs.getD 2 0, g := bs.getD 1 0, b := bs.getD 0 0, a := bs.getD 3 0 }

/-- Type `memstream_buf_t`; `data = none` is the NULL pointer. -/
structure memstream_buf_t where
  len : Nat
  pos : Nat
  data : Option (List Nat)
deriving DecidableEq, Repr

/-! ## C library -/

/-- Library `fread(ptr, size, nmemb, fp)` on a file whose unread bytes are `fp`: the number of
complete items read, the bytes delivered, the bytes left unread. -/
def fread (size nmemb : Nat) (fp : List Nat) : Nat × List Nat × List Nat :=
  if size = 0 then (0, [], fp)
  else (min nmemb (fp.length / size), fp.take (size * nmemb), fp.drop (size * nmemb))

/-- Library `fwrite(ptr, size, nmemb, fp)` where `mem` is the memory from `ptr` on and `out`
the bytes written so far: the number of items written and the new file content. -/
def fwrite (mem : List Nat) (size nmemb : Nat) (out : List Nat) : Nat × List Nat :=
  if size = 0 then (0, out) else (nmemb, out ++ mem.take (size * nmemb))

/-- Library `memset(buf, c, n)` on the memory block `buf`: its first `n` bytes become `c`. -/
def memset (buf : List Nat) (c n : Nat) : List Nat :=
  List.replicate (min n buf.length) c ++ buf.drop n

/-- Storing the bytes `bs` into the memory block `mem` at offset `off`. -/
def poke (mem : List Nat) (off : Nat) (bs : List Nat) : List Nat :=
  mem.take off ++ bs ++ mem.drop (off + bs.length)

/-! ## Shared arithmetic and loops -/

/-- The stride expression `((width + 3) & (~0x0003))`, computed in `int` and stored in a
`uint32_t`; `~3` has the bit pattern `0xFFFFFFFC`. -/
def stride_of (width : Nat) : Nat := ((width + 3) &&& 0xFFFFFFFC) % 4294967296

/-- The byte loops `for(x = 0; x < n; x++) dst[d + x] = src[s + x]` of both programs
(`buf[x] = *px++` in `save_bmp`, `*px++ = buf[x]` in `load_bmp`), one byte per step; `s` and
`d` are offsets from the start of the objects `src` and `dst`. -/
def copy_bytes (src : List Nat) : Nat → Int → Int → List Nat → exec (List Nat)
  | 0, _, _, dst => exec.done dst
  | n + 1, s, d, dst =>
    if 0 ≤ s ∧ s.toNat < src.length ∧ 0 ≤ d ∧ d.toNat < dst.length then
      copy_bytes src n (s + 1) (d + 1) (dst.set d.toNat (src.getD s.toNat 0))
    else exec.out_of_bounds

/-! ## `pak2bmp.c`: `save_bmp` -/

/-- What `save_bmp` leaves behind: its return value and the bytes it wrote to the file. -/
structure save_result where
  rval : Int
  file : List Nat
deriving DecidableEq, Repr

/-- The header `save_bmp` sets up in its scratch buffer, each value as the field it is assigned
to holds it. `RES` is never assigned and keeps the zero `calloc` gave it. -/
def save_header (K : bmp_h) (width height : Nat) : bmp_header_t :=
  let stride := stride_of width
  let bmp_img_sz := (stride * height) % 4294967296
  let palsz := PALENTSZ * 256
  let image_offset := (HDRBUFSZ + palsz) % 4294967296
  { dib := { file_size := (image_offset + bmp_img_sz) % 4294967296, RES := 0,
             image_offset := image_offset },
    bmi := { header_size := BMISZ, image_width := width, image_height := height,
             num_planes := 1, bits_per_pixel := 8, compression := 0,
             bitmap_size := bmp_img_sz, horiz_res := K.BMP96DPI % 4294967296,
             vert_res := K.BMP96DPI % 4294967296,
             num_colors := 256, important_colors := 0 } }

/-- The loop `for(i = 0; i < 256; i++)` of `save_bmp` copying `xpal[i]` into the zeroed
`pal[i]`; `k` entries remain, `i` is the index. -/
def save_palette (xpal : List pal_entry_t) :
    Nat → Nat → List bmp_palette_entry_t → exec (List bmp_palette_entry_t)
  | 0, _, pal => exec.done pal
  | k + 1, i, pal =>
    match xpal[i]? with
    | none => exec.out_of_bounds
    | some e =>
      if i < pal.length then
        save_palette xpal k (i + 1) (pal.set i { r := e.r, g := e.g, b := e.b, a := (pal.getD i ⟨0, 0, 0, 0⟩).a })
      else exec.out_of_bounds

/-- The scanline loop `for(y = 0; y < height; y++)` of `save_bmp`; `n` lines remain, `px` is
the offset of the read pointer into `src->data`, `buf` the scratch buffer, `out` the file. -/
def save_rows (data : List Nat) (width stride : Nat) :
    Nat → Int → List Nat → List Nat → exec save_result
  | 0, _, _, out => exec.done ⟨0, out⟩
  | n + 1, px, buf, out =>
    match copy_bytes data width px 0 (memset buf 0 stride) with
    | exec.done buf1 =>
      let w := fwrite buf1 stride 1 out
      if 1 ≠ w.1 then exec.done ⟨-4, w.2⟩
      else save_rows data width stride n (px + width - width * 2) buf1 w.2
    | exec.out_of_bounds => exec.out_of_bounds
    | exec.int_overflow => exec.int_overflow

/-- Function `save_bmp(fn, src, width, height, xpal)`. `fn = none`, `src = none` and
`src.data = none` are NULL pointers; `fopen_wb` tells whether `fopen(fn, "wb")` succeeds.
`width` and `height` are `uint16_t` values. -/
def save_bmp (K : bmp_h) (fn : Option String) (fopen_wb : Bool) (src : Option memstream_buf_t)
    (width height : Nat) (xpal : List pal_entry_t) : exec save_result :=
  match fn, src with
  | none, _ => exec.done ⟨-1, []⟩
  | some _, none => exec.done ⟨-1, []⟩
  | some _, some s =>
    match s.data with
    | none => exec.done ⟨-1, []⟩
    | some data =>
      if !fopen_wb then exec.done ⟨-2, []⟩
      else
        let stride := stride_of width
        let buf0 := List.replicate (HDRBUFSZ + stride + 2) 0
        let buf := poke buf0 (stride + 2)
          (le_bytes SIGSZ K.BMPFILESIG ++ header_bytes (save_header K width height))
        let w1 := fwrite (buf.drop (stride + 2)) HDRBUFSZ 1 []
        if 1 ≠ w1.1 then exec.done ⟨-4, w1.2⟩
        else
          match save_palette xpal 256 0 (List.replicate 256 ⟨0, 0, 0, 0⟩) with
          | exec.done pal =>
            let w2 := fwrite (pal.flatMap (pal_entry_bytes K)) (PALENTSZ * 256) 1 w1.2
            if 1 ≠ w2.1 then exec.done ⟨-4, w2.2⟩
            else save_rows data width stride height ((s.len : Int) - width) buf w2.2
          | exec.out_of_bounds => exec.out_of_bounds
          | exec.int_overflow => exec.int_overflow

/-! ## `bmp2pak.c`: `load_bmp` -/

/-- What `load_bmp` leaves behind: its return value and the objects its pointer arguments
address (`none` for a NULL pointer). -/
structure load_result where
  rval : Int
  dst : Option memstream_buf_t
  width : Option Nat
  height : Option Nat
  xpal : List pal_entry_t
deriving DecidableEq, Repr

/-- The `n` entries of type `bmp_palette_entry_t` held by the bytes `fread` put into `pal`. -/
def pal_of_bytes (K : bmp_h) : Nat → List Nat → List bmp_palette_entry_t
  | 0, _ => []
  | n + 1, bs => pal_entry_of_bytes K (bs.take PALENTSZ) :: pal_of_bytes K n (bs.drop PALENTSZ)

/-- The loop `for(i = 0; i < num_colors; i++)` of `load_bmp` storing `pal[i]` into `xpal[i]`;
`k` entries remain, `i` is the index. -/
def load_palette (pal : List bmp_palette_entry_t) :
    Nat → Nat → List pal_entry_t → exec (List pal_entry_t)
  | 0, _, xpal => exec.done xpal
  | k + 1, i, xpal =>
    match pal[i]? with
    | none => exec.out_of_bounds
    | some e =>
      if i < xpal.length then
        load_palette pal k (i + 1) (xpal.set i { r := e.r, g := e.g, b := e.b })
      else exec.out_of_bounds

/-- The scanline loop `for(y = 0; y < lh; y++)` of `load_bmp`; `n` lines remain, `fp` is the
unread part of the file, `px` the offset of the write pointer into `dst->data`. The result is
the return value so far (`0` or `-3`) and the content of `dst->data`. -/
def load_rows (lw stride : Nat) (flip : Bool) :
    Nat → List Nat → Int → List Nat → exec (Int × List Nat)
  | 0, _, _, data => exec.done (0, data)
  | n + 1, fp, px, data =>
    let rd := fread stride 1 fp
    if 1 ≠ rd.1 then exec.done (-3, data)
    else
      match copy_bytes rd.2.1 lw 0 px data with
      | exec.done data1 =>
        load_rows lw stride flip n rd.2.2 (if !flip then px + lw - lw * 2 else px + lw) data1
      | exec.out_of_bounds => exec.out_of_bounds
      | exec.int_overflow => exec.int_overflow

/-- Lines 243-295 of `load_bmp`: the destination buffer is released and allocated anew, the
scanlines are read from `fp`, the unread part of the file, and the dimensions are reported.
`bmp` is the header read before, `xpal1` the palette destination as the palette loop left it.
Both `calloc` calls succeed here; `load_bmp_image_heap` has the exits -5 of lines 261-264 and
268-271. -/
def load_bmp_image (bmp : bmp_header_t) (fp : List Nat) (width height : Option Nat)
    (xpal1 : List pal_entry_t) : exec load_result :=
  let flip := decide (bmp.bmi.image_height < 0)
  if bmp.bmi.image_height = -2147483648 then exec.int_overflow
  else
    let image_height := bmp.bmi.image_height.natAbs
    let lw := (bmp.bmi.image_width % 65536).toNat
    let lh := image_height % 65536
    let stride := stride_of lw
    if INT_MAX < lw * lh then exec.int_overflow
    else
      let len := lw * lh
      let px : Int := if flip then 0 else (len : Int) - lw
      match load_rows lw stride flip lh fp px (List.replicate len 0) with
      | exec.done (rv, data) =>
        if rv ≠ 0 then exec.done ⟨rv, some ⟨len, 0, some data⟩, width, height, xpal1⟩
        else exec.done ⟨0, some ⟨len, 0, some data⟩, some lw, some lh, xpal1⟩
      | exec.out_of_bounds => exec.out_of_bounds
      | exec.int_overflow => exec.int_overflow

/-- Lines 212-241 of `load_bmp`, followed by the rest of the function: the header `bmp` is
checked, the palette is read from `fp`, the unread part of the file, and stored into `xpal`.
The `calloc` of line 226 succeeds here; `load_bmp_body_heap` has its exit -5. -/
def load_bmp_body (K : bmp_h) (bmp : bmp_header_t) (fp : List Nat) (dst : Option memstream_buf_t)
    (width height : Option Nat) (xpal : List pal_entry_t) : exec load_result :=
  if 1 ≠ bmp.bmi.num_planes ∨ BMISZ ≠ bmp.bmi.header_size ∨ 0 ≠ bmp.dib.RES then
    exec.done ⟨-6, dst, width, height, xpal⟩
  else if 8 ≠ bmp.bmi.bits_per_pixel ∨ 0 ≠ bmp.bmi.compression then
    exec.done ⟨-7, dst, width, height, xpal⟩
  else
    let r3 := fread PALENTSZ bmp.bmi.num_colors fp
    if bmp.bmi.num_colors ≠ r3.1 then exec.done ⟨-3, dst, width, height, xpal⟩
    else
      match load_palette (pal_of_bytes K bmp.bmi.num_colors r3.2.1) bmp.bmi.num_colors 0 xpal with
      | exec.done xpal1 => load_bmp_image bmp r3.2.2 width height xpal1
      | exec.out_of_bounds => exec.out_of_bounds
      | exec.int_overflow => exec.int_overflow

/-- Function `load_bmp(dst, fn, width, height, xpal)`, lines 171-210 and, through
`load_bmp_body` and `load_bmp_image`, the rest. `dst`, `fn`, `width`, `height` equal to `none`
are NULL pointers; `fopen_rb` is what `fopen(fn, "rb")` yields: `none` when the file cannot be
opened, else the bytes of the file. The `calloc` of line 202 succeeds here; `load_bmp_heap` is
the function with the outcome of the four `calloc` calls as a parameter. -/
def load_bmp (K : bmp_h) (dst : Option memstream_buf_t) (fn : Option String)
    (fopen_rb : Option (List Nat)) (width height : Option Nat) (xpal : List pal_entry_t) :
    exec load_result :=
  match fn, dst, width, height with
  | some _, some _, some _, some _ =>
    match fopen_rb with
    | none => exec.done ⟨-2, dst, width, height, xpal⟩
    | some fp0 =>
      let r1 := fread SIGSZ 1 fp0
      if 1 ≠ r1.1 then exec.done ⟨-3, dst, width, height, xpal⟩
      else if K.BMPFILESIG ≠ le_val r1.2.1 then exec.done ⟨-4, dst, width, height, xpal⟩
      else
        let r2 := fread HDRSZ 1 r1.2.2
        if 1 ≠ r2.1 then exec.done ⟨-3, dst, width, height, xpal⟩
        else load_bmp_body K (header_of_bytes r2.2.1) r2.2.2 dst width height xpal
  | _, _, _, _ => exec.done ⟨-1, dst, width, height, xpal⟩

/-! ## Notions used in the statements -/

/-- The `bmp_palette_entry_t` that `save_bmp` makes of an RGB triple: reserved byte zero. -/
def bmp_of_rgb (e : pal_entry_t) : bmp_palette_entry_t := { r := e.r, g := e.g, b := e.b, a := 0 }

/-- The RGB triple that `load_bmp` makes of a `bmp_palette_entry_t`. -/
def rgb_of_bmp (e : bmp_palette_entry_t) : pal_entry_t := { r := e.r, g := e.g, b := e.b }

/-- Every field of the header fits the width of its slot. -/
def header_fits (h : bmp_header_t) : Prop :=
  h.dib.file_size < 4294967296 ∧ h.dib.RES < 4294967296 ∧ h.dib.image_offset < 4294967296 ∧
  h.bmi.header_size < 4294967296 ∧
  -2147483648 ≤ h.bmi.image_width ∧ h.bmi.image_width < 2147483648 ∧
  -2147483648 ≤ h.bmi.image_height ∧ h.bmi.image_height < 2147483648 ∧
  h.bmi.num_planes < 65536 ∧ h.bmi.bits_per_pixel < 65536 ∧ h.bmi.compression < 4294967296 ∧
  h.bmi.bitmap_size < 4294967296 ∧ h.bmi.horiz_res < 4294967296 ∧ h.bmi.vert_res < 4294967296 ∧
  h.bmi.num_colors < 4294967296 ∧ h.bmi.important_colors < 4294967296

instance (h : bmp_header_t) : Decidable (header_fits h) := by
  unfold header_fits; infer_instance

/-- A scanline of `W` bytes starting at offset `off` of a pixel buffer. -/
def mem_row (data : List Nat) (W off : Nat) : List Nat := (data.drop off).take W

/-- A scanline followed by zero bytes up to `S` bytes. -/
def pad_row (S : Nat) (row : List Nat) : List Nat := row ++ List.replicate (S - row.length) 0

/-- The `n` scanlines at offsets `c + (n-1)*W`, ..., `c + W`, `c`, in this order, each padded. -/
def disk_rows (data : List Nat) (W S c n : Nat) : List (List Nat) :=
  (List.range n).reverse.map (fun r => pad_row S (mem_row data W (c + r * W)))

/-- The file `save_bmp` writes for a buffer whose last `H * W` bytes start at offset `c`. -/
def bmp_file (K : bmp_h) (data : List Nat) (W H c : Nat) (xpal : List pal_entry_t) : List Nat :=
  le_bytes SIGSZ K.BMPFILESIG ++ header_bytes (save_header K W H) ++
    (xpal.map bmp_of_rgb).flatMap (pal_entry_bytes K) ++
    (disk_rows data W (stride_of W) c H).flatten

/-- The first `W` bytes of each of the first `n` blocks of `S` bytes of a pixel stream. -/
def file_rows (fp : List Nat) (W S n : Nat) : List (List Nat) :=
  (List.range n).map (fun k => mem_row fp W (k * S))

/-- The pixel buffer `load_bmp` builds from the rows of a pixel stream. -/
def image_of_rows (fp : List Nat) (lw S lh : Nat) (flip : Bool) : List Nat :=
  if flip then (file_rows fp lw S lh).flatten else ((file_rows fp lw S lh).reverse).flatten

/-- The header `load_bmp` reads from a file. -/
def file_header (s : List Nat) : bmp_header_t := header_of_bytes ((s.drop SIGSZ).take HDRSZ)

/-- The width `lw` that `load_bmp` derives from a header: the declared width as `uint16_t`. -/
def hdr_lw (bmp : bmp_header_t) : Nat := (bmp.bmi.image_width % 65536).toNat

/-- The height `lh` that `load_bmp` derives from a header: the absolute value of the declared
height as `uint16_t`. -/
def hdr_lh (bmp : bmp_header_t) : Nat := bmp.bmi.image_height.natAbs % 65536

/-- The orientation flag `flip` that `load_bmp` derives from a header. -/
def hdr_flip (bmp : bmp_header_t) : Bool := decide (bmp.bmi.image_height < 0)

/-- The palette bytes of a file: what follows signature and header. -/
def file_pal (s : List Nat) : List Nat :=
  (s.drop HDRBUFSZ).take (PALENTSZ * (file_header s).bmi.num_colors)

/-- The pixel stream of a file: what follows the palette. -/
def file_pixels (s : List Nat) : List Nat :=
  s.drop (HDRBUFSZ + PALENTSZ * (file_header s).bmi.num_colors)

/-- The checks of `load_bmp` on a header all pass. -/
def hdr_valid (bmp : bmp_header_t) : Prop :=
  bmp.bmi.num_planes = 1 ∧ bmp.bmi.header_size = BMISZ ∧ bmp.dib.RES = 0 ∧
  bmp.bmi.bits_per_pixel = 8 ∧ bmp.bmi.compression = 0

instance (bmp : bmp_header_t) : Decidable (hdr_valid bmp) := by
  unfold hdr_valid; infer_instance

/-! ## Concrete inputs for the closed examples -/

/-- An instance of the constants of `bmp.h` for the closed examples: the signature "BM",
3780 pixels per metre, channel order blue, green, red. -/
def bmp_h_bm : bmp_h := ⟨0x4D42, 3780, false⟩

/-- A zero-initialised 256-entry palette destination, as `calloc(256, sizeof(pal_entry_t))`
of the `bmp2pak` driver yields. -/
def pal_zero : List pal_entry_t := List.replicate 256 ⟨0, 0, 0⟩

/-- The header of a 2x2, 8-bit, uncompressed bitmap with `n` palette entries and declared
height `h`. -/
def hdr_2x2 (h : Int) (n : Nat) : bmp_header_t :=
  ⟨⟨0, 0, 0⟩, ⟨40, 2, h, 1, 8, 0, 0, 0, 0, n, 0⟩⟩

/-- A bottom-up 2x2 bitmap file with two palette entries; the padding bytes are 9. -/
def file_2x2 : List Nat :=
  [0x42, 0x4D] ++ header_bytes (hdr_2x2 2 2) ++ [10, 20, 30, 77, 40, 50, 60, 88] ++
    [3, 4, 9, 9, 1, 2, 9, 9]

/-- A top-down (declared height -2) 2x2 bitmap file with two palette entries. -/
def file_2x2_flip : List Nat :=
  [0x42, 0x4D] ++ header_bytes (hdr_2x2 (-2) 2) ++ [10, 20, 30, 77, 40, 50, 60, 88] ++
    [1, 2, 9, 9, 3, 4, 9, 9]

/-- What `load_bmp` returns for `file_2x2` and `file_2x2_flip`. -/
def res_2x2 : load_result :=
  ⟨0, some ⟨4, 0, some [1, 2, 3, 4]⟩, some 2, some 2,
    ⟨30, 20, 10⟩ :: ⟨60, 50, 40⟩ :: List.replicate 254 ⟨0, 0, 0⟩⟩

/-- A 2x2 bitmap file like `file_2x2` but declaring 4 bits per pixel. -/
def file_bpp4 : List Nat :=
  [0x42, 0x4D] ++ header_bytes ⟨⟨0, 0, 0⟩, ⟨40, 2, 2, 1, 4, 0, 0, 0, 0, 2, 0⟩⟩ ++
    [10, 20, 30, 77, 40, 50, 60, 88] ++ [3, 4, 9, 9, 1, 2, 9, 9]

/-- A 2x2 bitmap file like `file_2x2` but declaring compression method 1. -/
def file_rle : List Nat :=
  [0x42, 0x4D] ++ header_bytes ⟨⟨0, 0, 0⟩, ⟨40, 2, 2, 1, 8, 1, 0, 0, 0, 2, 0⟩⟩ ++
    [10, 20, 30, 77, 40, 50, 60, 88] ++ [3, 4, 9, 9, 1, 2, 9, 9]

/-- A 2x2 bitmap file declaring 2 planes and, at the same time, 4 bits per pixel and
compression method 1. -/
def file_planes2 : List Nat :=
  [0x42, 0x4D] ++ header_bytes ⟨⟨0, 0, 0⟩, ⟨40, 2, 2, 2, 4, 1, 0, 0, 0, 2, 0⟩⟩ ++
    [10, 20, 30, 77, 40, 50, 60, 88] ++ [3, 4, 9, 9, 1, 2, 9, 9]

/-- A bottom-up 2x2 bitmap file with 16 palette entries, the bytes 0..63. -/
def file_16 : List Nat :=
  [0x42, 0x4D] ++ header_bytes (hdr_2x2 2 16) ++ List.range 64 ++ [3, 4, 9, 9, 1, 2, 9, 9]

/-- What `load_bmp` returns for `file_16` and a zeroed palette destination. -/
def res_16 : load_result :=
  ⟨0, some ⟨4, 0, some [1, 2, 3, 4]⟩, some 2, some 2,
    (List.range 16).map (fun i => ⟨4 * i + 2, 4 * i + 1, 4 * i⟩) ++ List.replicate 240 ⟨0, 0, 0⟩⟩

/-- A 256-entry palette with pairwise different entries. -/
def pal_ramp : List pal_entry_t := (List.range 256).map (fun i => ⟨i, 255 - i, i / 2⟩)

/-- The file `save_bmp` writes for the 2x2 image with rows `[1, 2]` and `[3, 4]` and the
palette `pal_ramp`. -/
def file_out_2x2 : List Nat := bmp_file bmp_h_bm [1, 2, 3, 4] 2 2 0 pal_ramp

/-- The head of a file `save_bmp` writes: signature, header and palette. -/
def bmp_head (K : bmp_h) (W H : Nat) (xpal : List pal_entry_t) : List Nat :=
  le_bytes SIGSZ K.BMPFILESIG ++ header_bytes (save_header K W H) ++
    (xpal.map bmp_of_rgb).flatMap (pal_entry_bytes K)

/-- A file that ends right after its header, which declares a 65535x65535 image and no
palette entries: all pixel rows are missing. -/
def file_huge : List Nat :=
  [0x42, 0x4D] ++ header_bytes ⟨⟨0, 0, 0⟩, ⟨40, 65535, 65535, 1, 8, 0, 0, 0, 0, 0, 0⟩⟩

/-- A file that declares a 2x2 image and 257 palette entries and ends right after the palette:
all pixel rows are missing. -/
def file_pal257 : List Nat :=
  [0x42, 0x4D] ++ header_bytes (hdr_2x2 2 257) ++ List.replicate (4 * 257) 7

/-- The scratch buffer of `save_bmp` after the header has been set up in it. -/
def save_buf (K : bmp_h) (W H : Nat) : List Nat :=
  poke (List.replicate (HDRBUFSZ + stride_of W + 2) 0) (stride_of W + 2)
    (le_bytes SIGSZ K.BMPFILESIG ++ header_bytes (save_header K W H))

/-- The file `file_2x2` cut off after its palette: the pixel rows are missing. -/
def file_norows : List Nat :=
  [0x42, 0x4D] ++ header_bytes (hdr_2x2 2 2) ++ [10, 20, 30, 77, 40, 50, 60, 88]

/-- What `load_bmp` returns for `file_norows` and a zeroed palette destination. -/
def res_norows : load_result :=
  ⟨-3, some ⟨4, 0, some [0, 0, 0, 0]⟩, some 0, some 0,
    ⟨30, 20, 10⟩ :: ⟨60, 50, 40⟩ :: List.replicate 254 ⟨0, 0, 0⟩⟩

/-- A complete 2x2 bitmap file that declares 257 palette entries. -/
def file_257 : List Nat :=
  [0x42, 0x4D] ++ header_bytes (hdr_2x2 2 257) ++ List.replicate (4 * 257) 7 ++
    [3, 4, 0, 0, 1, 2, 0, 0]

/-- A complete bitmap file whose header declares width 65538 and height 2; with the stride 4
of a 2-pixel row it holds two rows. -/
def file_wide : List Nat :=
  [0x42, 0x4D] ++ header_bytes ⟨⟨0, 0, 0⟩, ⟨40, 65538, 2, 1, 8, 0, 0, 0, 0, 2, 0⟩⟩ ++
    [10, 20, 30, 77, 40, 50, 60, 88] ++ [3, 4, 9, 9, 1, 2, 9, 9]

/-- Whether byte `i` of a file belongs to one of the header fields `file_size` (2..5),
`image_offset` (10..13), `bitmap_size` (34..37), `horiz_res` and `vert_res` (38..45) or
`important_colors` (50..53). -/
def info_byte (i : Nat) : Bool :=
  decide ((2 ≤ i ∧ i < 6) ∨ (10 ≤ i ∧ i < 14) ∨ (34 ≤ i ∧ i < 46) ∨ (50 ≤ i ∧ i < 54))

/-- Two files of the same length that differ at most in the bytes of those fields. -/
def same_but_info (s1 s2 : List Nat) : Prop :=
  s1.length = s2.length ∧ ∀ i, info_byte i = false → s1[i]? = s2[i]?

/-- The header fields `load_bmp` looks at. -/
def hdr_same (b1 b2 : bmp_header_t) : Prop :=
  b1.dib.RES = b2.dib.RES ∧ b1.bmi.header_size = b2.bmi.header_size ∧
  b1.bmi.image_width = b2.bmi.image_width ∧ b1.bmi.image_height = b2.bmi.image_height ∧
  b1.bmi.num_planes = b2.bmi.num_planes ∧ b1.bmi.bits_per_pixel = b2.bmi.bits_per_pixel ∧
  b1.bmi.compression = b2.bmi.compression ∧ b1.bmi.num_colors = b2.bmi.num_colors

/-- The file `file_2x2` with other values in the informational header fields: file size 999,
pixel offset 5, bitmap size 77, resolutions 1 and 2, important colours 9. -/
def file_2x2_info : List Nat :=
  [0x42, 0x4D] ++ header_bytes ⟨⟨999, 0, 5⟩, ⟨40, 2, 2, 1, 8, 0, 77, 1, 2, 2, 9⟩⟩ ++
    [10, 20, 30, 77, 40, 50, 60, 88] ++ [3, 4, 9, 9, 1, 2, 9, 9]

/-! ## `pak2bmp.c`: `main` -/

/-- Macro `OUTEXT` of `pak2bmp.c`. -/
def OUTEXT : String := ".BMP"

/-- Macro `PALEXT` of `pak2bmp.c`. -/
def PALEXT : String := ".PAL"

/-- Macro `IMAGE_WIDTH`. -/
def IMAGE_WIDTH : Nat := 320

/-- Macro `IMAGE_HEIGHT`. -/
def IMAGE_HEIGHT : Nat := 200

/-- Function `filesize(f)`: the position of the end of the file `f`. -/
def filesize (f : List Nat) : Nat := f.length

/-- Library `strrchr(s, c)`: the index of the last `c` in `s`, `none` for NULL. -/
def strrchr : List Char → Char → Option Nat
  | [], _ => none
  | x :: xs, c =>
    match strrchr xs c with
    | some i => some (i + 1)
    | none => if x = c then some 0 else none

/-- Function `drop_extension(fn)`: the name is cut at its last dot, if it has one. -/
def drop_extension (fn : List Char) : List Char :=
  match strrchr fn '.' with
  | some i => fn.take i
  | none => fn

/-- The name `main` builds for the output or the palette file: `strncpy` of the argument,
`drop_extension`, `strncat` of the extension `ext`. -/
def derived_name (arg ext : String) : String :=
  String.mk (drop_extension arg.toList ++ ext.toList)

/-- A block of bytes seen as an array of `pal_entry_t` (three bytes per entry, no padding). -/
def xpal_of_bytes (bs : List Nat) : List pal_entry_t :=
  (List.range (bs.length / 3)).map
    (fun i => ⟨bs.getD (3 * i) 0, bs.getD (3 * i + 1) 0, bs.getD (3 * i + 2) 0⟩)

/-- The statements of `main` that touch the image buffer, the palette buffer or `save_bmp`,
recorded in program order: the two `calloc` calls with their sizes, the two `fread` calls with
their item sizes, and the call of `save_bmp` with its arguments. -/
inductive event where
  | calloc_image : Nat → event
  | calloc_palette : Nat → event
  | fread_image : Nat → event
  | fread_palette : Nat → event
  | call_save_bmp : String → memstream_buf_t → Nat → Nat → List pal_entry_t → event
deriving DecidableEq, Repr

/-- What a run of `main` leaves behind: its exit status, the recorded statements and the bytes
written to the output file. -/
structure main_result where
  rval : Int
  events : List event
  file : List Nat
deriving DecidableEq, Repr

/-- The part of `main` from "allocate image buffer" to `CLEANUP`, for the opened image file
`fi` of size `fsi`, the opened palette file `fp` of size `fsp` and the output name `fo_name`;
`ok` tells whether `save_bmp` can create that file. -/
def main_convert (K : bmp_h) (ok : Bool) (fo_name : String) (fi fp : List Nat)
    (fsi fsp : Nat) : exec main_result :=
  let data0 := List.replicate fsi 0
  let pal0 := List.replicate fsp 0
  let ev := [event.calloc_image fsi, event.calloc_palette fsp, event.fread_image fsi]
  let r1 := fread fsi 1 fi
  if 1 ≠ r1.1 then exec.done ⟨-1, ev, []⟩
  else
    let src : memstream_buf_t := ⟨fsi, 0, some (poke data0 0 r1.2.1)⟩
    let r2 := fread fsp 1 fp
    if 1 ≠ r2.1 then exec.done ⟨-1, ev ++ [event.fread_palette fsp], []⟩
    else
      let pal := xpal_of_bytes (poke pal0 0 r2.2.1)
      let ev1 := ev ++ [event.fread_palette fsp,
        event.call_save_bmp fo_name src IMAGE_WIDTH IMAGE_HEIGHT pal]
      match save_bmp K (some fo_name) ok (some src) IMAGE_WIDTH IMAGE_HEIGHT pal with
      | exec.done r => if 0 ≠ r.rval then exec.done ⟨-1, ev1, r.file⟩
                       else exec.done ⟨0, ev1, r.file⟩
      | exec.out_of_bounds => exec.out_of_bounds
      | exec.int_overflow => exec.int_overflow

/-- Function `main(argc, argv)` of `pak2bmp.c`, with `argc` the length of `argv`.
`fopen_rb name` is the content of the file `fopen(name, "rb")` opens, `none` if it cannot be
opened; `fopen_wb name` tells whether `fopen(name, "wb")` succeeds. The name buffers are always
allocated. -/
def main (K : bmp_h) (fopen_rb : String → Option (List Nat)) (fopen_wb : String → Bool)
    (argv : List String) : exec main_result :=
  if argv.length < 2 ∨ argv.length > 2 then exec.done ⟨-1, [], []⟩
  else
    let fi_name := argv.getD 1 ""
    let fo_name := derived_name fi_name OUTEXT
    let fp_name := derived_name fi_name PALEXT
    match fopen_rb fi_name with
    | none => exec.done ⟨-1, [], []⟩
    | some fi =>
      let fsi := filesize fi
      if IMAGE_WIDTH * IMAGE_HEIGHT ≠ fsi then exec.done ⟨-1, [], []⟩
      else
        match fopen_rb fp_name with
        | none => exec.done ⟨-1, [], []⟩
        | some fp =>
          let fsp := filesize fp
          if 768 ≠ fsp then exec.done ⟨-1, [], []⟩
          else main_convert K (fopen_wb fo_name) fo_name fi fp fsi fsp

/-- A raw image of 64000 bytes. -/
def img_example : List Nat := List.replicate 64000 5

/-- A palette file of 768 bytes. -/
def pal_example : List Nat := List.replicate 768 7

/-- A file system with a 3-byte image `SHORT.PAK`, a full-size image `A.PAK` and the 768-byte
palettes `SHORT.PAL` and `A.PAL`. -/
def fs_example (name : String) : Option (List Nat) :=
  if name = "SHORT.PAK" then some [1, 2, 3]
  else if name = "A.PAK" then some img_example
  else if name = "A.PAL" ∨ name = "SHORT.PAL" then some pal_example
  else none

/-- The events of a conversion that reaches `save_bmp`. -/
def convert_events (fo_name : String) (fi fp : List Nat) : List event :=
  [event.calloc_image 64000, event.calloc_palette 768, event.fread_image 64000,
    event.fread_palette 768,
    event.call_save_bmp fo_name ⟨64000, 0, some fi⟩ 320 200 (xpal_of_bytes fp)]

/-- A buffer of `len` bytes, all zero except the last one, which is 1. -/
def tail_marked (len : Nat) : List Nat := List.replicate (len - 1) 0 ++ [1]

/-- A complete bitmap file whose header declares width 2 and height 65537; it holds one row of
4 bytes. -/
def file_tall : List Nat :=
  [0x42, 0x4D] ++ header_bytes ⟨⟨0, 0, 0⟩, ⟨40, 2, 65537, 1, 8, 0, 0, 0, 0, 2, 0⟩⟩ ++
    [10, 20, 30, 77, 40, 50, 60, 88] ++ [3, 4, 9, 9]

/-- What `load_bmp` returns for `file_tall`. -/
def res_tall : load_result :=
  ⟨0, some ⟨2, 0, some [3, 4]⟩, some 2, some 1,
    ⟨30, 20, 10⟩ :: ⟨60, 50, 40⟩ :: List.replicate 254 ⟨0, 0, 0⟩⟩

/-! ## `bmp2pak.c`: `load_bmp` with failing allocations -/

/-- Which of the four `calloc` calls of `load_bmp` return a block: the header buffer `bmp`
(line 202), the palette buffer `pal` (line 226), the pixel buffer `dst->data` (line 261) and
the line buffer `buf` (line 268). -/
structure calloc_ok where
  bmp : Bool
  pal : Bool
  data : Bool
  buf : Bool
deriving DecidableEq, Repr

/-- Lines 243-295 of `load_bmp` as in `load_bmp_image`, with the two exits -5 of lines 261-264
and 268-271: when the pixel buffer cannot be allocated `dst->data` is NULL and `dst->len`,
`dst->pos` are as before; when the line buffer cannot be allocated `dst` holds the zeroed
pixel buffer. -/
def load_bmp_image_heap (hp : calloc_ok) (bmp : bmp_header_t) (fp : List Nat)
    (dst : Option memstream_buf_t) (width height : Option Nat) (xpal1 : List pal_entry_t) :
    exec load_result :=
  let flip := decide (bmp.bmi.image_height < 0)
  if bmp.bmi.image_height = -2147483648 then exec.int_overflow
  else
    let image_height := bmp.bmi.image_height.natAbs
    let lw := (bmp.bmi.image_width % 65536).toNat
    let lh := image_height % 65536
    let stride := stride_of lw
    if INT_MAX < lw * lh then exec.int_overflow
    else if !hp.data then
      exec.done ⟨-5, dst.map (fun d => ⟨d.len, d.pos, none⟩), width, height, xpal1⟩
    else
      let len := lw * lh
      if !hp.buf then
        exec.done ⟨-5, some ⟨len, 0, some (List.replicate len 0)⟩, width, height, xpal1⟩
      else
        let px : Int := if flip then 0 else (len : Int) - lw
        match load_rows lw stride flip lh fp px (List.replicate len 0) with
        | exec.done (rv, data) =>
          if rv ≠ 0 then exec.done ⟨rv, some ⟨len, 0, some data⟩, width, height, xpal1⟩
          else exec.done ⟨0, some ⟨len, 0, some data⟩, some lw, some lh, xpal1⟩
        | exec.out_of_bounds => exec.out_of_bounds
        | exec.int_overflow => exec.int_overflow

/-- Lines 212-241 of `load_bmp` as in `load_bmp_body`, with the exit -5 of lines 226-229, and
the rest of the function. -/
def load_bmp_body_heap (K : bmp_h) (hp : calloc_ok) (bmp : bmp_header_t) (fp : List Nat)
    (dst : Option memstream_buf_t) (width height : Option Nat) (xpal : List pal_entry_t) :
    exec load_result :=
  if 1 ≠ bmp.bmi.num_planes ∨ BMISZ ≠ bmp.bmi.header_size ∨ 0 ≠ bmp.dib.RES then
    exec.done ⟨-6, dst, width, height, xpal⟩
  else if 8 ≠ bmp.bmi.bits_per_pixel ∨ 0 ≠ bmp.bmi.compression then
    exec.done ⟨-7, dst, width, height, xpal⟩
  else if !hp.pal then exec.done ⟨-5, dst, width, height, xpal⟩
  else
    let r3 := fread PALENTSZ bmp.bmi.num_colors fp
    if bmp.bmi.num_colors ≠ r3.1 then exec.done ⟨-3, dst, width, height, xpal⟩
    else
      match load_palette (pal_of_bytes K bmp.bmi.num_colors r3.2.1) bmp.bmi.num_colors 0 xpal with
      | exec.done xpal1 => load_bmp_image_heap hp bmp r3.2.2 dst width height xpal1
      | exec.out_of_bounds => exec.out_of_bounds
      | exec.int_overflow => exec.int_overflow

/-- Function `load_bmp(dst, fn, width, height, xpal)` with the outcome `hp` of its `calloc`
calls as a parameter: `load_bmp` above with the exits -5. For a heap on which the four calls
succeed it is `load_bmp` (`load_bmp_heap_all`). -/
def load_bmp_heap (K : bmp_h) (hp : calloc_ok) (dst : Option memstream_buf_t)
    (fn : Option String) (fopen_rb : Option (List Nat)) (width height : Option Nat)
    (xpal : List pal_entry_t) : exec load_result :=
  match fn, dst, width, height with
  | some _, some _, some _, some _ =>
    match fopen_rb with
    | none => exec.done ⟨-2, dst, width, height, xpal⟩
    | some fp0 =>
      let r1 := fread SIGSZ 1 fp0
      if 1 ≠ r1.1 then exec.done ⟨-3, dst, width, height, xpal⟩
      else if K.BMPFILESIG ≠ le_val r1.2.1 then exec.done ⟨-4, dst, width, height, xpal⟩
      else if !hp.bmp then exec.done ⟨-5, dst, width, height, xpal⟩
      else
        let r2 := fread HDRSZ 1 r1.2.2
        if 1 ≠ r2.1 then exec.done ⟨-3, dst, width, height, xpal⟩
        else load_bmp_body_heap K hp (header_of_bytes r2.2.1) r2.2.2 dst width height xpal
  | _, _, _, _ => exec.done ⟨-1, dst, width, height, xpal⟩

/-- The run of `load_bmp` gets as far as the loop of lines 237-241 that stores the palette:
no pointer is NULL, the file opens, signature and header are read and pass the checks, the
header and palette buffers are allocated and the palette table is read whole. -/
def past_palette (K : bmp_h) (hp : calloc_ok) (dst : Option memstream_buf_t)
    (fn : Option String) (fopen_rb : Option (List Nat)) (width height : Option Nat) : Prop :=
  fn ≠ none ∧ dst ≠ none ∧ width ≠ none ∧ height ≠ none ∧ hp.bmp = true ∧ hp.pal = true ∧
  match fopen_rb with
  | none => False
  | some s => HDRBUFSZ ≤ s.length ∧ le_val (s.take SIGSZ) = K.BMPFILESIG ∧
      hdr_valid (file_header s) ∧
      HDRBUFSZ + PALENTSZ * (file_header s).bmi.num_colors ≤ s.length

instance (K : bmp_h) (hp : calloc_ok) (dst : Option memstream_buf_t) (fn : Option String)
    (fopen_rb : Option (List Nat)) (width height : Option Nat) :
    Decidable (past_palette K hp dst fn fopen_rb width height) := by
  unfold past_palette
  cases fopen_rb <;> infer_instance

/-- The palette destination after the loop of lines 237-241 for the file `s`: the palette of
the file in the entries `0 .. num_colors - 1`, the former content from `num_colors` on. -/
def stored_palette (K : bmp_h) (s : List Nat) (xpal : List pal_entry_t) : List pal_entry_t :=
  (pal_of_bytes K (file_header s).bmi.num_colors (file_pal s)).map rgb_of_bmp
    ++ xpal.drop (file_header s).bmi.num_colors

/-- What `load_bmp` returns for `file_2x2` when the pixel buffer cannot be allocated. -/
def res_nomem : load_result :=
  ⟨-5, some ⟨0, 0, none⟩, some 0, some 0,
    ⟨30, 20, 10⟩ :: ⟨60, 50, 40⟩ :: List.replicate 254 ⟨0, 0, 0⟩⟩

end EaPak

/-! ## Lemmas -/

namespace EaPak

theorem land_mask (x : Nat) (h : x < 4294967296) : x &&& 0xFFFFFFFC = x / 4 * 4 := by
  apply Nat.eq_of_testBit_eq
  intro i
  have h3 : (3 : Nat).testBit i = decide (i < 2) := Nat.testBit_two_pow_sub_one 2 i
  have hm : (0xFFFFFFFC : Nat).testBit i = (decide (i < 32) && !(3 : Nat).testBit i) :=
    Nat.testBit_two_pow_sub_succ (x := 3) (n := 32) (by norm_num) i
  have hd : (x / 4 * 4).testBit i = (decide (i ≥ 2) && (x / 4).testBit (i - 2)) := by
    rw [Nat.mul_comm]; exact Nat.testBit_mul_pow_two (i := 2)
  have hs : (x / 4).testBit (i - 2) = x.testBit (2 + (i - 2)) := by
    have : x / 4 = x >>> 2 := by rw [Nat.shiftRight_eq_div_pow]
    rw [this, Nat.testBit_shiftRight]
  rw [Nat.testBit_and, hm, h3, hd, hs]
  by_cases h2 : i < 2
  · simp [h2]
  · have e : 2 + (i - 2) = i := by omega
    rw [e]
    by_cases h32 : i < 32
    · simp [h2, h32]; omega
    · have : x.testBit i = false := by
        apply Nat.testBit_lt_two_pow
        calc x < 2 ^ 32 := by norm_num; exact h
          _ ≤ 2 ^ i := Nat.pow_le_pow_right (by norm_num) (by omega)
      simp [this]

theorem stride_of_eq (w : Nat) (h : w ≤ 65535) : stride_of w = (w + 3) / 4 * 4 := by
  unfold stride_of
  rw [land_mask (w + 3) (by omega)]
  omega

theorem stride_of_ge (w : Nat) (h : w ≤ 65535) : w ≤ stride_of w := by
  rw [stride_of_eq w h]; omega

theorem stride_of_pos (w : Nat) (h : w ≤ 65535) (h0 : 0 < w) : 0 < stride_of w := by
  have := stride_of_ge w h; omega

theorem copy_bytes_parts : ∀ (mid s1 s2 d1 old d2 : List Nat),
    old.length = mid.length →
    copy_bytes (s1 ++ mid ++ s2) mid.length (s1.length : Int) (d1.length : Int) (d1 ++ old ++ d2)
      = exec.done (d1 ++ mid ++ d2) := by
  intro mid
  induction mid with
  | nil =>
    intro s1 s2 d1 old d2 h
    have : old = [] := List.length_eq_zero.mp h
    simp [copy_bytes, this]
  | cons m mid ih =>
    intro s1 s2 d1 old d2 h
    match old, h with
    | o :: old, h =>
      have h1 : (0 : Int) ≤ (s1.length : Int) ∧ (s1.length : Int).toNat < (s1 ++ m :: mid ++ s2).length ∧
          (0 : Int) ≤ (d1.length : Int) ∧ (d1.length : Int).toNat < (d1 ++ o :: old ++ d2).length := by
        refine ⟨by omega, by simp, by omega, by simp⟩
      rw [List.length_cons, copy_bytes, if_pos h1]
      have ea : ((s1.length : Int) + 1) = (((s1 ++ [m]).length : Nat) : Int) := by simp
      have eb : ((d1.length : Int) + 1) = (((d1 ++ [m]).length : Nat) : Int) := by simp
      have e1 : s1 ++ m :: mid ++ s2 = (s1 ++ [m]) ++ mid ++ s2 := by simp
      have e2 : (d1 ++ o :: old ++ d2).set (d1.length : Int).toNat
          ((s1 ++ m :: mid ++ s2).getD (s1.length : Int).toNat 0) = (d1 ++ [m]) ++ old ++ d2 := by
        simp [List.getD_eq_getElem?_getD]
        rw [List.getElem_append_right (by simp)]
        simp
      rw [e2, ea, eb, e1, ih (s1 ++ [m]) s2 (d1 ++ [m]) old d2 (by simpa using h)]
      simp

theorem copy_bytes_eq (src : List Nat) (n a b : Nat) (dst : List Nat)
    (ha : a + n ≤ src.length) (hb : b + n ≤ dst.length) :
    copy_bytes src n (a : Int) (b : Int) dst
      = exec.done (dst.take b ++ (src.drop a).take n ++ dst.drop (b + n)) := by
  have hs : src = src.take a ++ (src.drop a).take n ++ (src.drop a).drop n := by simp
  have hd : dst = dst.take b ++ (dst.drop b).take n ++ (dst.drop b).drop n := by simp
  have l1 : (src.take a).length = a := by simp; omega
  have l2 : (dst.take b).length = b := by simp; omega
  have l3 : ((src.drop a).take n).length = n := by simp; omega
  have l4 : ((dst.drop b).take n).length = n := by simp; omega
  have key := copy_bytes_parts ((src.drop a).take n) (src.take a) ((src.drop a).drop n)
    (dst.take b) ((dst.drop b).take n) ((dst.drop b).drop n) (by rw [l3, l4])
  rw [← hs, ← hd, l1, l2, l3] at key
  rw [key, List.drop_drop]

theorem save_palette_parts : ∀ (todo : List pal_entry_t) (x1 x2 : List pal_entry_t)
    (p1 : List bmp_palette_entry_t) (p2 : List bmp_palette_entry_t),
    x1.length = p1.length →
    save_palette (x1 ++ todo ++ x2) todo.length x1.length
        (p1 ++ List.replicate todo.length ⟨0, 0, 0, 0⟩ ++ p2)
      = exec.done (p1 ++ todo.map bmp_of_rgb ++ p2) := by
  intro todo
  induction todo with
  | nil => intro x1 x2 p1 p2 _; simp [save_palette]
  | cons e todo ih =>
    intro x1 x2 p1 p2 h
    have g1 : (x1 ++ e :: todo ++ x2)[x1.length]? = some e := by
      rw [List.append_assoc, List.getElem?_append_right (Nat.le_refl _)]; simp
    have g2 : x1.length < (p1 ++ List.replicate (todo.length + 1) (⟨0, 0, 0, 0⟩ : bmp_palette_entry_t) ++ p2).length := by
      simp; omega
    rw [List.length_cons, save_palette, g1]
    simp only []
    rw [if_pos g2]
    have e1 : x1 ++ e :: todo ++ x2 = (x1 ++ [e]) ++ todo ++ x2 := by simp
    have e2 : (p1 ++ List.replicate (todo.length + 1) (⟨0, 0, 0, 0⟩ : bmp_palette_entry_t) ++ p2).set x1.length
        { r := e.r, g := e.g, b := e.b,
          a := ((p1 ++ List.replicate (todo.length + 1) (⟨0, 0, 0, 0⟩ : bmp_palette_entry_t) ++ p2).getD x1.length ⟨0, 0, 0, 0⟩).a }
        = (p1 ++ [bmp_of_rgb e]) ++ List.replicate todo.length ⟨0, 0, 0, 0⟩ ++ p2 := by
      rw [h]
      simp [List.replicate_succ, List.getD_eq_getElem?_getD, bmp_of_rgb]
      rw [List.getElem_append_right (by simp)]
      simp
    have e3 : x1.length + 1 = (x1 ++ [e]).length := by simp
    rw [e2, e3, e1, ih (x1 ++ [e]) x2 (p1 ++ [bmp_of_rgb e]) p2 (by simp [h])]
    simp

theorem save_palette_eq (xpal : List pal_entry_t) (h : xpal.length = 256) :
    save_palette xpal 256 0 (List.replicate 256 ⟨0, 0, 0, 0⟩) = exec.done (xpal.map bmp_of_rgb) := by
  have := save_palette_parts xpal [] [] [] [] rfl
  simp only [List.nil_append, List.append_nil, List.length_nil] at this
  rw [h] at this
  exact this

theorem load_palette_parts : ∀ (todo : List bmp_palette_entry_t) (p1 p2 : List bmp_palette_entry_t)
    (x1 old x2 : List pal_entry_t),
    p1.length = x1.length → old.length = todo.length →
    load_palette (p1 ++ todo ++ p2) todo.length p1.length (x1 ++ old ++ x2)
      = exec.done (x1 ++ todo.map rgb_of_bmp ++ x2) := by
  intro todo
  induction todo with
  | nil =>
    intro p1 p2 x1 old x2 _ h
    have : old = [] := List.length_eq_zero.mp h
    simp [load_palette, this]
  | cons e todo ih =>
    intro p1 p2 x1 old x2 h ho
    match old, ho with
    | o :: old, ho =>
      have g1 : (p1 ++ e :: todo ++ p2)[p1.length]? = some e := by
        rw [List.append_assoc, List.getElem?_append_right (Nat.le_refl _)]; simp
      have g2 : p1.length < (x1 ++ o :: old ++ x2).length := by simp; omega
      rw [List.length_cons, load_palette, g1]
      simp only []
      rw [if_pos g2]
      have e1 : p1 ++ e :: todo ++ p2 = (p1 ++ [e]) ++ todo ++ p2 := by simp
      have e2 : (x1 ++ o :: old ++ x2).set p1.length { r := e.r, g := e.g, b := e.b }
          = (x1 ++ [rgb_of_bmp e]) ++ old ++ x2 := by
        rw [h]; simp [rgb_of_bmp]
      have e3 : p1.length + 1 = (p1 ++ [e]).length := by simp
      rw [e2, e3, e1, ih (p1 ++ [e]) p2 (x1 ++ [rgb_of_bmp e]) old x2 (by simp [h]) (by simpa using ho)]
      simp

theorem load_palette_eq (pal : List bmp_palette_entry_t) (xpal : List pal_entry_t)
    (h : pal.length ≤ xpal.length) :
    load_palette pal pal.length 0 xpal = exec.done (pal.map rgb_of_bmp ++ xpal.drop pal.length) := by
  have := load_palette_parts pal [] [] [] (xpal.take pal.length) (xpal.drop pal.length) rfl
    (by simp; omega)
  simpa using this

theorem le_bytes_2 (v : Nat) : le_bytes 2 v = [v % 256, v / 256 % 256] := rfl
theorem le_bytes_4 (v : Nat) :
    le_bytes 4 v = [v % 256, v / 256 % 256, v / 256 / 256 % 256, v / 256 / 256 / 256 % 256] := rfl

theorem le_bytes_length (n v : Nat) : (le_bytes n v).length = n := by
  induction n generalizing v with
  | zero => rfl
  | succ n ih => simp [le_bytes, ih]

theorem le_val_2 (v : Nat) (h : v < 65536) : le_val (le_bytes 2 v) = v := by
  simp only [le_bytes_2, le_val]; omega

theorem le_val_4 (v : Nat) (h : v < 4294967296) : le_val (le_bytes 4 v) = v := by
  simp only [le_bytes_4, le_val]; omega

theorem to_int32_of_int32 (i : Int) (h1 : -2147483648 ≤ i) (h2 : i < 2147483648) :
    to_int32 (of_int32 i) = i := by
  unfold to_int32 of_int32
  split <;> omega

theorem of_int32_lt (i : Int) : of_int32 i < 4294967296 := by
  unfold of_int32; omega

theorem header_bytes_length (h : bmp_header_t) : (header_bytes h).length = HDRSZ := by
  simp [header_bytes, le_bytes_length, HDRSZ, BMISZ]

theorem header_roundtrip (h : bmp_header_t) (hf : header_fits h) :
    header_of_bytes (header_bytes h) = h := by
  obtain ⟨⟨fs, res, io⟩, ⟨hs, iw, ih, np, bpp, co, bs, hr, vr, nc, ic⟩⟩ := h
  obtain ⟨f1, f2, f3, f4, f5, f6, f7, f8, f9, f10, f11, f12, f13, f14, f15, f16⟩ := hf
  simp only at f1 f2 f3 f4 f5 f6 f7 f8 f9 f10 f11 f12 f13 f14 f15 f16
  have e1 := le_val_4 fs f1
  have e2 := le_val_4 res f2
  have e3 := le_val_4 io f3
  have e4 := le_val_4 hs f4
  have e5 := le_val_4 _ (of_int32_lt iw)
  have e6 := le_val_4 _ (of_int32_lt ih)
  have e7 := le_val_2 np f9
  have e8 := le_val_2 bpp f10
  have e9 := le_val_4 co f11
  have e10 := le_val_4 bs f12
  have e11 := le_val_4 hr f13
  have e12 := le_val_4 vr f14
  have e13 := le_val_4 nc f15
  have e14 := le_val_4 ic f16
  simp only [le_bytes_2, le_bytes_4] at e1 e2 e3 e4 e5 e6 e7 e8 e9 e10 e11 e12 e13 e14
  simp only [header_of_bytes, header_bytes, field, le_bytes_2, le_bytes_4, List.cons_append, List.nil_append,
    List.drop_succ_cons, List.take_succ_cons, List.drop_zero, List.take_zero, List.append_nil]
  simp only [e1, e2, e3, e4, e5, e6, e7, e8, e9, e10, e11, e12, e13, e14,
    to_int32_of_int32 iw f5 f6, to_int32_of_int32 ih f7 f8]

theorem disk_rows_succ (data : List Nat) (W S c n : Nat) :
    disk_rows data W S c (n + 1)
      = pad_row S (mem_row data W (c + n * W)) :: disk_rows data W S c n := by
  simp [disk_rows, List.range_succ]

theorem mem_row_length (data : List Nat) (W off : Nat) (h : off + W ≤ data.length) :
    (mem_row data W off).length = W := by
  simp [mem_row]; omega

theorem save_line (data buf : List Nat) (W S a : Nat) (hWS : W ≤ S) (hb : S ≤ buf.length)
    (ha : a + W ≤ data.length) :
    ∃ buf1, copy_bytes data W (a : Int) 0 (memset buf 0 S) = exec.done buf1 ∧
      buf1.take S = pad_row S (mem_row data W a) ∧ S ≤ buf1.length := by
  have hm : (memset buf 0 S).length = buf.length := by simp [memset]; omega
  have := copy_bytes_eq data W a 0 (memset buf 0 S) ha (by rw [hm]; omega)
  refine ⟨_, this, ?_, ?_⟩
  · have hl : ((data.drop a).take W).length = W := by simp; omega
    simp only [List.take_zero, List.nil_append, Nat.zero_add, pad_row, mem_row, hl]
    rw [List.take_append_eq_append_take, hl]
    have : List.take S (List.take W (List.drop a data)) = List.take W (List.drop a data) := by
      rw [List.take_take]; congr 1; omega
    rw [this]
    congr 1
    simp only [memset, Nat.min_eq_left hb]
    rw [List.drop_append_eq_append_drop, List.take_append_eq_append_take]
    simp
  · simp [hm]; omega

theorem save_rows_eq (data : List Nat) (W S : Nat) (hWS : W ≤ S) (hS : 0 < S) :
    ∀ (n c : Nat) (buf out : List Nat), c + n * W ≤ data.length → S ≤ buf.length →
      save_rows data W S n (((c + n * W : Nat) : Int) - W) buf out
        = exec.done ⟨0, out ++ (disk_rows data W S c n).flatten⟩ := by
  intro n
  induction n with
  | zero => intro c buf out _ _; simp [save_rows, disk_rows]
  | succ n ih =>
    intro c buf out hc hb
    have e : (((c + (n + 1) * W : Nat) : Int) - W) = ((c + n * W : Nat) : Int) := by
      push_cast; ring
    obtain ⟨buf1, h1, h2, h3⟩ := save_line data buf W S (c + n * W) hWS hb
      (by rw [Nat.succ_mul] at hc; omega)
    rw [e, save_rows, h1]
    have hw : fwrite buf1 S 1 out = (1, out ++ buf1.take S) := by
      simp [fwrite, Nat.pos_iff_ne_zero.mp hS]
    simp only [hw, ne_eq, not_true_eq_false, if_false]
    have e2 : ((c + n * W : Nat) : Int) + W - W * 2 = ((c + n * W : Nat) : Int) - W := by ring
    rw [e2, ih c buf1 _ (by rw [Nat.succ_mul] at hc; omega) h3, disk_rows_succ, h2]
    simp

theorem pal_entry_bytes_length (K : bmp_h) (e : bmp_palette_entry_t) :
    (pal_entry_bytes K e).length = 4 := by
  unfold pal_entry_bytes; split <;> rfl

theorem pal_bytes_length (K : bmp_h) (pal : List bmp_palette_entry_t) :
    (pal.flatMap (pal_entry_bytes K)).length = 4 * pal.length := by
  induction pal with
  | nil => rfl
  | cons e pal ih => simp [List.flatMap_cons, pal_entry_bytes_length, ih]; omega

theorem poke_drop (mem bs : List Nat) (off : Nat) (h : off ≤ mem.length) :
    (poke mem off bs).drop off = bs ++ mem.drop (off + bs.length) := by
  unfold poke
  rw [List.append_assoc, List.drop_append_eq_append_drop]
  simp [Nat.min_eq_left h]

theorem poke_length (mem bs : List Nat) (off : Nat) (h : off + bs.length ≤ mem.length) :
    (poke mem off bs).length = mem.length := by
  simp [poke]; omega

theorem save_bmp_eq (K : bmp_h) (fn : String) (len pos : Nat) (data : List Nat) (W H c : Nat)
    (xpal : List pal_entry_t) (hW1 : 1 ≤ W) (hW : W ≤ 65535) (hlen : len = c + H * W)
    (hd : len ≤ data.length) (hx : xpal.length = 256) :
    save_bmp K (some fn) true (some ⟨len, pos, some data⟩) W H xpal
      = exec.done ⟨0, bmp_file K data W H c xpal⟩ := by
  have hS := stride_of_ge W hW
  have hS0 := stride_of_pos W hW hW1
  have hsig : (le_bytes SIGSZ K.BMPFILESIG ++ header_bytes (save_header K W H)).length = HDRBUFSZ := by
    simp [le_bytes_length, header_bytes_length, HDRBUFSZ]
  have hbuf0 : (List.replicate (HDRBUFSZ + stride_of W + 2) 0).length = HDRBUFSZ + stride_of W + 2 := by
    simp
  have hdrop := poke_drop (List.replicate (HDRBUFSZ + stride_of W + 2) 0)
    (le_bytes SIGSZ K.BMPFILESIG ++ header_bytes (save_header K W H)) (stride_of W + 2)
    (by rw [hbuf0]; omega)
  have hplen := poke_length (List.replicate (HDRBUFSZ + stride_of W + 2) 0)
    (le_bytes SIGSZ K.BMPFILESIG ++ header_bytes (save_header K W H)) (stride_of W + 2)
    (by rw [hbuf0, hsig]; omega)
  have hw1 : fwrite ((poke (List.replicate (HDRBUFSZ + stride_of W + 2) 0) (stride_of W + 2)
      (le_bytes SIGSZ K.BMPFILESIG ++ header_bytes (save_header K W H))).drop (stride_of W + 2))
      HDRBUFSZ 1 [] = (1, le_bytes SIGSZ K.BMPFILESIG ++ header_bytes (save_header K W H)) := by
    rw [hdrop]
    have : HDRBUFSZ ≠ 0 := by decide
    simp only [fwrite, if_neg this, Nat.mul_one, List.nil_append]
    rw [List.take_append_eq_append_take, hsig, ← hsig, List.take_length]
    simp
  have hpl : ((xpal.map bmp_of_rgb).flatMap (pal_entry_bytes K)).length = PALENTSZ * 256 := by
    rw [pal_bytes_length, List.length_map, hx]; rfl
  have hw2 : ∀ out, fwrite ((xpal.map bmp_of_rgb).flatMap (pal_entry_bytes K)) (PALENTSZ * 256) 1 out
      = (1, out ++ (xpal.map bmp_of_rgb).flatMap (pal_entry_bytes K)) := by
    intro out
    have : PALENTSZ * 256 ≠ 0 := by decide
    simp only [fwrite, if_neg this, Nat.mul_one]
    rw [← hpl, List.take_length]
  have hrows := save_rows_eq data W (stride_of W) hS hS0 H c
    (poke (List.replicate (HDRBUFSZ + stride_of W + 2) 0) (stride_of W + 2)
      (le_bytes SIGSZ K.BMPFILESIG ++ header_bytes (save_header K W H)))
    (le_bytes SIGSZ K.BMPFILESIG ++ header_bytes (save_header K W H) ++
      (xpal.map bmp_of_rgb).flatMap (pal_entry_bytes K))
    (by omega) (by rw [hplen, hbuf0]; omega)
  simp only [save_bmp, Bool.not_true, Bool.false_eq_true, if_false, hw1, ne_eq, not_true_eq_false,
    save_palette_eq xpal hx, hw2, hlen, hrows, bmp_file]

theorem fread_count (size n : Nat) (fp : List Nat) (h : size ≠ 0) :
    (fread size n fp).1 = n ↔ size * n ≤ fp.length := by
  simp only [fread, if_neg h]
  have k : n ≤ fp.length / size ↔ size * n ≤ fp.length := by
    rw [Nat.le_div_iff_mul_le (Nat.pos_of_ne_zero h), Nat.mul_comm]
  constructor
  · intro e
    exact k.mp (by omega)
  · intro e
    have := k.mpr e
    show min n (fp.length / size) = n
    omega

theorem fread_data (size n : Nat) (fp : List Nat) (h : size ≠ 0) :
    (fread size n fp).2 = (fp.take (size * n), fp.drop (size * n)) := by
  simp only [fread, if_neg h]

theorem fread_zero (n : Nat) (fp : List Nat) : (fread 0 n fp).1 = 0 := by
  simp [fread]

theorem file_rows_succ (fp : List Nat) (W S n : Nat) :
    file_rows fp W S (n + 1) = mem_row fp W 0 :: file_rows (fp.drop S) W S n := by
  simp only [file_rows, List.range_succ_eq_map, List.map_cons, List.map_map, Nat.zero_mul]
  congr 1
  apply List.map_congr_left
  intro k _
  simp only [Function.comp, mem_row, List.drop_drop]
  congr 2
  rw [Nat.succ_mul]; omega

theorem load_line (fp data : List Nat) (lw S p : Nat) (hWS : lw ≤ S) (hS : S ≤ fp.length)
    (hp : p + lw ≤ data.length) :
    copy_bytes (fp.take (S * 1)) lw 0 (p : Int) data
      = exec.done (data.take p ++ mem_row fp lw 0 ++ data.drop (p + lw)) := by
  have := copy_bytes_eq (fp.take (S * 1)) lw 0 p data (by simp; omega) hp
  simp only [Nat.cast_zero] at this
  rw [this, mem_row, List.drop_zero, List.drop_zero, List.take_take, Nat.mul_one, Nat.min_eq_left hWS]

theorem load_rows_noflip (lw S : Nat) (hWS : lw ≤ S) (hS : 0 < S) :
    ∀ (n : Nat) (fp pre tail : List Nat), pre.length = n * lw → n * S ≤ fp.length →
      load_rows lw S false n fp (((n * lw : Nat) : Int) - lw) (pre ++ tail)
        = exec.done (0, ((file_rows fp lw S n).reverse).flatten ++ tail) := by
  intro n
  induction n with
  | zero =>
    intro fp pre tail hp _
    have : pre = [] := List.length_eq_zero.mp (by simpa using hp)
    simp [load_rows, file_rows, this]
  | succ n ih =>
    intro fp pre tail hp hfp
    rw [Nat.succ_mul] at hp hfp
    have hS' : S ≠ 0 := by omega
    have hc : (fread S 1 fp).1 = 1 := (fread_count S 1 fp hS').mpr (by omega)
    have e : ((((n + 1) * lw : Nat) : Int) - lw) = ((n * lw : Nat) : Int) := by push_cast; ring
    have hl := load_line fp (pre ++ tail) lw S (n * lw) hWS (by omega) (by simp; omega)
    rw [e, load_rows]
    simp only [hc, ne_eq, not_true_eq_false, if_false, fread_data S 1 fp hS', hl, Bool.not_false,
      if_true]
    have e2 : ((n * lw : Nat) : Int) + lw - lw * 2 = ((n * lw : Nat) : Int) - lw := by ring
    have e3 : List.take (n * lw) (pre ++ tail) ++ mem_row fp lw 0 ++ List.drop (n * lw + lw) (pre ++ tail)
        = pre.take (n * lw) ++ (mem_row fp lw 0 ++ tail) := by
      rw [List.take_append_of_le_length (by omega), ← hp, List.drop_left]
      simp
    rw [e2, e3, Nat.mul_one, ih (fp.drop S) (pre.take (n * lw)) _ (by simp; omega) (by simp; omega),
      file_rows_succ]
    simp

theorem load_rows_flip (lw S : Nat) (hWS : lw ≤ S) (hS : 0 < S) :
    ∀ (n : Nat) (fp top rest : List Nat), rest.length = n * lw → n * S ≤ fp.length →
      load_rows lw S true n fp (top.length : Int) (top ++ rest)
        = exec.done (0, top ++ (file_rows fp lw S n).flatten) := by
  intro n
  induction n with
  | zero =>
    intro fp top rest hp _
    have : rest = [] := List.length_eq_zero.mp (by simpa using hp)
    simp [load_rows, file_rows, this]
  | succ n ih =>
    intro fp top rest hp hfp
    rw [Nat.succ_mul] at hp hfp
    have hS' : S ≠ 0 := by omega
    have hc : (fread S 1 fp).1 = 1 := (fread_count S 1 fp hS').mpr (by omega)
    have hl := load_line fp (top ++ rest) lw S top.length hWS (by omega) (by simp; omega)
    have hrl : (mem_row fp lw 0).length = lw := mem_row_length fp lw 0 (by omega)
    rw [load_rows]
    simp only [hc, ne_eq, not_true_eq_false, if_false, fread_data S 1 fp hS', hl, Bool.not_true,
      Bool.false_eq_true]
    have e2 : (top.length : Int) + lw = (((top ++ mem_row fp lw 0).length : Nat) : Int) := by
      simp [hrl]
    have e3 : List.take top.length (top ++ rest) ++ mem_row fp lw 0 ++ List.drop (top.length + lw) (top ++ rest)
        = (top ++ mem_row fp lw 0) ++ rest.drop lw := by
      rw [List.take_left, List.drop_append_eq_append_drop]
      simp
    rw [e2, e3, Nat.mul_one, ih (fp.drop S) (top ++ mem_row fp lw 0) _ (by simp; omega) (by simp; omega),
      file_rows_succ]
    simp

theorem fread_one_short (S : Nat) (fp : List Nat) (h : S = 0 ∨ fp.length < S) :
    (fread S 1 fp).1 ≠ 1 := by
  by_cases h0 : S = 0
  · subst h0; rw [fread_zero]; decide
  · intro e
    have := (fread_count S 1 fp h0).mp e
    omega

theorem load_rows_short_noflip (lw S : Nat) (hWS : lw ≤ S) :
    ∀ (n : Nat) (fp pre tail : List Nat), pre.length = n * lw →
      (fp.length < n * S ∨ (S = 0 ∧ 0 < n)) →
      ∃ d, load_rows lw S false n fp (((n * lw : Nat) : Int) - lw) (pre ++ tail)
        = exec.done (-3, d) := by
  intro n
  induction n with
  | zero => intro fp pre tail _ h; omega
  | succ n ih =>
    intro fp pre tail hp hfp
    rw [Nat.succ_mul] at hp hfp
    by_cases hs : S = 0 ∨ fp.length < S
    · have hc := fread_one_short S fp hs
      refine ⟨pre ++ tail, ?_⟩
      rw [load_rows]
      simp only [ne_eq, Ne.symm hc, not_false_eq_true, if_true]
    · have hS' : S ≠ 0 := by omega
      have hc : (fread S 1 fp).1 = 1 := (fread_count S 1 fp hS').mpr (by omega)
      have e : ((((n + 1) * lw : Nat) : Int) - lw) = ((n * lw : Nat) : Int) := by push_cast; ring
      have hl := load_line fp (pre ++ tail) lw S (n * lw) hWS (by omega) (by simp; omega)
      have e2 : ((n * lw : Nat) : Int) + lw - lw * 2 = ((n * lw : Nat) : Int) - lw := by ring
      have e3 : List.take (n * lw) (pre ++ tail) ++ mem_row fp lw 0 ++ List.drop (n * lw + lw) (pre ++ tail)
          = pre.take (n * lw) ++ (mem_row fp lw 0 ++ tail) := by
        rw [List.take_append_of_le_length (by omega), ← hp, List.drop_left]
        simp
      obtain ⟨d, hd⟩ := ih (fp.drop S) (pre.take (n * lw)) (mem_row fp lw 0 ++ tail)
        (by simp; omega) (by left; simp; omega)
      refine ⟨d, ?_⟩
      rw [e, load_rows]
      simp only [hc, ne_eq, not_true_eq_false, if_false, fread_data S 1 fp hS', hl, Bool.not_false,
        if_true]
      rw [e2, e3, Nat.mul_one, hd]

theorem load_rows_short_flip (lw S : Nat) (hWS : lw ≤ S) :
    ∀ (n : Nat) (fp top rest : List Nat), rest.length = n * lw →
      (fp.length < n * S ∨ (S = 0 ∧ 0 < n)) →
      ∃ d, load_rows lw S true n fp (top.length : Int) (top ++ rest) = exec.done (-3, d) := by
  intro n
  induction n with
  | zero => intro fp top rest _ h; omega
  | succ n ih =>
    intro fp top rest hp hfp
    rw [Nat.succ_mul] at hp hfp
    by_cases hs : S = 0 ∨ fp.length < S
    · have hc := fread_one_short S fp hs
      refine ⟨top ++ rest, ?_⟩
      rw [load_rows]
      simp only [ne_eq, Ne.symm hc, not_false_eq_true, if_true]
    · have hS' : S ≠ 0 := by omega
      have hc : (fread S 1 fp).1 = 1 := (fread_count S 1 fp hS').mpr (by omega)
      have hl := load_line fp (top ++ rest) lw S top.length hWS (by omega) (by simp; omega)
      have hrl : (mem_row fp lw 0).length = lw := mem_row_length fp lw 0 (by omega)
      have e2 : (top.length : Int) + lw = (((top ++ mem_row fp lw 0).length : Nat) : Int) := by
        simp [hrl]
      have e3 : List.take top.length (top ++ rest) ++ mem_row fp lw 0 ++ List.drop (top.length + lw) (top ++ rest)
          = (top ++ mem_row fp lw 0) ++ rest.drop lw := by
        rw [List.take_left, List.drop_append_eq_append_drop]
        simp
      obtain ⟨d, hd⟩ := ih (fp.drop S) (top ++ mem_row fp lw 0) (rest.drop lw)
        (by simp; omega) (by left; simp; omega)
      refine ⟨d, ?_⟩
      rw [load_rows]
      simp only [hc, ne_eq, not_true_eq_false, if_false, fread_data S 1 fp hS', hl, Bool.not_true,
        Bool.false_eq_true]
      rw [e2, e3, Nat.mul_one, hd]

/-- The scanline loop of `load_bmp` run from its initial state. -/
theorem load_rows_init (lw lh S : Nat) (flip : Bool) (fp : List Nat) (hWS : lw ≤ S) :
    (lh * S ≤ fp.length ∧ (0 < S ∨ lh = 0) ∧
      load_rows lw S flip lh fp (if flip then 0 else ((lw * lh : Nat) : Int) - lw)
        (List.replicate (lw * lh) 0) = exec.done (0, image_of_rows fp lw S lh flip)) ∨
    ((fp.length < lh * S ∨ (S = 0 ∧ 0 < lh)) ∧
      ∃ d, load_rows lw S flip lh fp (if flip then 0 else ((lw * lh : Nat) : Int) - lw)
        (List.replicate (lw * lh) 0) = exec.done (-3, d)) := by
  have hrep : (List.replicate (lw * lh) 0).length = lh * lw := by simp [Nat.mul_comm]
  by_cases hbad : fp.length < lh * S ∨ (S = 0 ∧ 0 < lh)
  · right
    refine ⟨hbad, ?_⟩
    cases flip with
    | false =>
      have := load_rows_short_noflip lw S hWS lh fp (List.replicate (lw * lh) 0) [] hrep hbad
      simpa [Nat.mul_comm] using this
    | true =>
      have := load_rows_short_flip lw S hWS lh fp [] (List.replicate (lw * lh) 0) hrep hbad
      simpa using this
  · left
    have h1 : lh * S ≤ fp.length := by omega
    refine ⟨h1, by omega, ?_⟩
    by_cases hl : lh = 0
    · subst hl
      cases flip <;> simp [load_rows, image_of_rows, file_rows]
    · have hS : 0 < S := by omega
      cases flip with
      | false =>
        have := load_rows_noflip lw S hWS hS lh fp (List.replicate (lw * lh) 0) [] hrep h1
        simpa [Nat.mul_comm, image_of_rows] using this
      | true =>
        have := load_rows_flip lw S hWS hS lh fp [] (List.replicate (lw * lh) 0) hrep h1
        simpa [image_of_rows] using this

theorem hdr_lw_le (bmp : bmp_header_t) : hdr_lw bmp ≤ 65535 := by
  unfold hdr_lw; omega

theorem stride_pos_iff (w : Nat) (h : w ≤ 65535) : 0 < stride_of w ↔ 0 < w := by
  rw [stride_of_eq w h]; omega

/-- The result of `load_bmp_image` in terms of the scanline loop. -/
theorem load_bmp_image_unfold (bmp : bmp_header_t) (fp : List Nat) (width height : Option Nat)
    (xpal1 : List pal_entry_t) (h1 : bmp.bmi.image_height ≠ -2147483648)
    (h2 : hdr_lw bmp * hdr_lh bmp ≤ INT_MAX) :
    load_bmp_image bmp fp width height xpal1 =
      match load_rows (hdr_lw bmp) (stride_of (hdr_lw bmp)) (hdr_flip bmp) (hdr_lh bmp) fp
          (if hdr_flip bmp then 0 else ((hdr_lw bmp * hdr_lh bmp : Nat) : Int) - hdr_lw bmp)
          (List.replicate (hdr_lw bmp * hdr_lh bmp) 0) with
      | exec.done (rv, data) =>
        if rv ≠ 0 then
          exec.done ⟨rv, some ⟨hdr_lw bmp * hdr_lh bmp, 0, some data⟩, width, height, xpal1⟩
        else
          exec.done ⟨0, some ⟨hdr_lw bmp * hdr_lh bmp, 0, some data⟩, some (hdr_lw bmp),
            some (hdr_lh bmp), xpal1⟩
      | exec.out_of_bounds => exec.out_of_bounds
      | exec.int_overflow => exec.int_overflow := by
  have h2' : ¬ INT_MAX < hdr_lw bmp * hdr_lh bmp := by omega
  unfold load_bmp_image
  simp only [if_neg h1]
  rw [show ((bmp.bmi.image_width % 65536).toNat) = hdr_lw bmp from rfl,
    show bmp.bmi.image_height.natAbs % 65536 = hdr_lh bmp from rfl,
    show decide (bmp.bmi.image_height < 0) = hdr_flip bmp from rfl]
  rw [if_neg h2']

theorem load_bmp_image_ok (bmp : bmp_header_t) (fp : List Nat) (width height : Option Nat)
    (xpal1 : List pal_entry_t) (h1 : bmp.bmi.image_height ≠ -2147483648)
    (h2 : hdr_lw bmp * hdr_lh bmp ≤ INT_MAX)
    (h3 : hdr_lh bmp * stride_of (hdr_lw bmp) ≤ fp.length)
    (h4 : 0 < hdr_lw bmp ∨ hdr_lh bmp = 0) :
    load_bmp_image bmp fp width height xpal1 =
      exec.done ⟨0, some ⟨hdr_lw bmp * hdr_lh bmp, 0,
          some (image_of_rows fp (hdr_lw bmp) (stride_of (hdr_lw bmp)) (hdr_lh bmp) (hdr_flip bmp))⟩,
        some (hdr_lw bmp), some (hdr_lh bmp), xpal1⟩ := by
  rw [load_bmp_image_unfold bmp fp width height xpal1 h1 h2]
  have hS := stride_of_ge _ (hdr_lw_le bmp)
  have hp := stride_pos_iff _ (hdr_lw_le bmp)
  rcases load_rows_init (hdr_lw bmp) (hdr_lh bmp) (stride_of (hdr_lw bmp)) (hdr_flip bmp) fp hS with
    ⟨_, _, e⟩ | ⟨hbad, _⟩
  · rw [e]; simp
  · omega

theorem load_bmp_image_short (bmp : bmp_header_t) (fp : List Nat) (width height : Option Nat)
    (xpal1 : List pal_entry_t) (h1 : bmp.bmi.image_height ≠ -2147483648)
    (h2 : hdr_lw bmp * hdr_lh bmp ≤ INT_MAX)
    (h3 : fp.length < hdr_lh bmp * stride_of (hdr_lw bmp) ∨ (hdr_lw bmp = 0 ∧ 0 < hdr_lh bmp)) :
    ∃ d, load_bmp_image bmp fp width height xpal1 =
      exec.done ⟨-3, some ⟨hdr_lw bmp * hdr_lh bmp, 0, some d⟩, width, height, xpal1⟩ := by
  rw [load_bmp_image_unfold bmp fp width height xpal1 h1 h2]
  have hS := stride_of_ge _ (hdr_lw_le bmp)
  have hp := stride_pos_iff _ (hdr_lw_le bmp)
  rcases load_rows_init (hdr_lw bmp) (hdr_lh bmp) (stride_of (hdr_lw bmp)) (hdr_flip bmp) fp hS with
    ⟨_, _, _⟩ | ⟨_, d, e⟩
  · omega
  · refine ⟨d, ?_⟩
    rw [e]; simp

theorem load_bmp_image_inv (bmp : bmp_header_t) (fp : List Nat) (width height : Option Nat)
    (xpal1 : List pal_entry_t) (res : load_result)
    (h : load_bmp_image bmp fp width height xpal1 = exec.done res) (h0 : res.rval = 0) :
    bmp.bmi.image_height ≠ -2147483648 ∧ hdr_lw bmp * hdr_lh bmp ≤ INT_MAX ∧
    hdr_lh bmp * stride_of (hdr_lw bmp) ≤ fp.length ∧ (0 < hdr_lw bmp ∨ hdr_lh bmp = 0) ∧
    res = ⟨0, some ⟨hdr_lw bmp * hdr_lh bmp, 0,
          some (image_of_rows fp (hdr_lw bmp) (stride_of (hdr_lw bmp)) (hdr_lh bmp) (hdr_flip bmp))⟩,
        some (hdr_lw bmp), some (hdr_lh bmp), xpal1⟩ := by
  by_cases h1 : bmp.bmi.image_height = -2147483648
  · simp [load_bmp_image, h1] at h
  by_cases h2 : INT_MAX < hdr_lw bmp * hdr_lh bmp
  · have : INT_MAX < (bmp.bmi.image_width % 65536).toNat * (bmp.bmi.image_height.natAbs % 65536) := h2
    simp [load_bmp_image, h1, this] at h
  have h2' : hdr_lw bmp * hdr_lh bmp ≤ INT_MAX := by omega
  by_cases h3 : fp.length < hdr_lh bmp * stride_of (hdr_lw bmp) ∨ (hdr_lw bmp = 0 ∧ 0 < hdr_lh bmp)
  · obtain ⟨d, e⟩ := load_bmp_image_short bmp fp width height xpal1 h1 h2' h3
    rw [e] at h
    exact absurd (show (-3 : Int) = 0 from (congrArg load_result.rval (exec.done.inj h)).trans h0)
      (by decide)
  · have h3' : hdr_lh bmp * stride_of (hdr_lw bmp) ≤ fp.length := by omega
    have h4 : 0 < hdr_lw bmp ∨ hdr_lh bmp = 0 := by omega
    rw [load_bmp_image_ok bmp fp width height xpal1 h1 h2' h3' h4] at h
    exact ⟨h1, h2', h3', h4, (exec.done.inj h).symm⟩

theorem load_bmp_body_unfold (K : bmp_h) (bmp : bmp_header_t) (fp : List Nat)
    (dst : Option memstream_buf_t) (width height : Option Nat) (xpal : List pal_entry_t)
    (hv : hdr_valid bmp) (hp : PALENTSZ * bmp.bmi.num_colors ≤ fp.length) :
    load_bmp_body K bmp fp dst width height xpal =
      match load_palette (pal_of_bytes K bmp.bmi.num_colors
          (fp.take (PALENTSZ * bmp.bmi.num_colors))) bmp.bmi.num_colors 0 xpal with
      | exec.done xpal1 =>
        load_bmp_image bmp (fp.drop (PALENTSZ * bmp.bmi.num_colors)) width height xpal1
      | exec.out_of_bounds => exec.out_of_bounds
      | exec.int_overflow => exec.int_overflow := by
  obtain ⟨v1, v2, v3, v4, v5⟩ := hv
  have n4 : PALENTSZ ≠ 0 := by decide
  have c : (fread PALENTSZ bmp.bmi.num_colors fp).1 = bmp.bmi.num_colors :=
    (fread_count PALENTSZ _ fp n4).mpr hp
  have g1 : ¬ (1 ≠ bmp.bmi.num_planes ∨ BMISZ ≠ bmp.bmi.header_size ∨ 0 ≠ bmp.dib.RES) := by
    simp [v1, v2, v3]
  have g2 : ¬ (8 ≠ bmp.bmi.bits_per_pixel ∨ 0 ≠ bmp.bmi.compression) := by simp [v4, v5]
  have g3 : ¬ (bmp.bmi.num_colors ≠ (fread PALENTSZ bmp.bmi.num_colors fp).1) := by
    rw [c]; simp
  unfold load_bmp_body
  rw [if_neg g1, if_neg g2]
  simp only []
  rw [if_neg g3, fread_data PALENTSZ _ fp n4]

theorem load_bmp_body_inv (K : bmp_h) (bmp : bmp_header_t) (fp : List Nat)
    (dst : Option memstream_buf_t) (width height : Option Nat) (xpal : List pal_entry_t)
    (res : load_result) (h : load_bmp_body K bmp fp dst width height xpal = exec.done res)
    (h0 : res.rval = 0) :
    hdr_valid bmp ∧ PALENTSZ * bmp.bmi.num_colors ≤ fp.length ∧
    ∃ xpal1, load_palette (pal_of_bytes K bmp.bmi.num_colors
        (fp.take (PALENTSZ * bmp.bmi.num_colors))) bmp.bmi.num_colors 0 xpal = exec.done xpal1 ∧
      load_bmp_image bmp (fp.drop (PALENTSZ * bmp.bmi.num_colors)) width height xpal1
        = exec.done res := by
  have n4 : PALENTSZ ≠ 0 := by decide
  by_cases g1 : 1 ≠ bmp.bmi.num_planes ∨ BMISZ ≠ bmp.bmi.header_size ∨ 0 ≠ bmp.dib.RES
  · rw [load_bmp_body, if_pos g1] at h
    exact absurd (show (-6 : Int) = 0 from (congrArg load_result.rval (exec.done.inj h)).trans h0)
      (by decide)
  by_cases g2 : 8 ≠ bmp.bmi.bits_per_pixel ∨ 0 ≠ bmp.bmi.compression
  · rw [load_bmp_body, if_neg g1, if_pos g2] at h
    exact absurd (show (-7 : Int) = 0 from (congrArg load_result.rval (exec.done.inj h)).trans h0)
      (by decide)
  by_cases g3 : bmp.bmi.num_colors ≠ (fread PALENTSZ bmp.bmi.num_colors fp).1
  · rw [load_bmp_body, if_neg g1, if_neg g2] at h
    simp only [] at h
    rw [if_pos g3] at h
    exact absurd (show (-3 : Int) = 0 from (congrArg load_result.rval (exec.done.inj h)).trans h0)
      (by decide)
  have hv : hdr_valid bmp := by
    unfold hdr_valid
    omega
  have hp : PALENTSZ * bmp.bmi.num_colors ≤ fp.length :=
    (fread_count PALENTSZ _ fp n4).mp (by omega)
  refine ⟨hv, hp, ?_⟩
  rw [load_bmp_body_unfold K bmp fp dst width height xpal hv hp] at h
  split at h
  · rename_i xpal1 e
    exact ⟨xpal1, e, h⟩
  · exact absurd h (by simp)
  · exact absurd h (by simp)

theorem load_bmp_unfold (K : bmp_h) (d : memstream_buf_t) (fn : String) (s : List Nat)
    (w h : Nat) (xpal : List pal_entry_t) (hlen : HDRBUFSZ ≤ s.length)
    (hsig : le_val (s.take SIGSZ) = K.BMPFILESIG) :
    load_bmp K (some d) (some fn) (some s) (some w) (some h) xpal =
      load_bmp_body K (file_header s) (s.drop HDRBUFSZ) (some d) (some w) (some h) xpal := by
  have n2 : SIGSZ ≠ 0 := by decide
  have n52 : HDRSZ ≠ 0 := by decide
  have hb : HDRBUFSZ = SIGSZ + HDRSZ := rfl
  have c1 : (fread SIGSZ 1 s).1 = 1 := (fread_count SIGSZ 1 s n2).mpr (by omega)
  have c2 : (fread HDRSZ 1 (s.drop SIGSZ)).1 = 1 :=
    (fread_count HDRSZ 1 _ n52).mpr (by simp; omega)
  unfold load_bmp
  simp only [fread_data SIGSZ 1 s n2, fread_data HDRSZ 1 _ n52, c1, c2, Nat.mul_one, hsig, ne_eq,
    not_true_eq_false, if_false, List.drop_drop]
  rfl

theorem load_bmp_inv (K : bmp_h) (dst : Option memstream_buf_t) (fn : Option String)
    (s : List Nat) (width height : Option Nat) (xpal : List pal_entry_t) (res : load_result)
    (h : load_bmp K dst fn (some s) width height xpal = exec.done res) (h0 : res.rval = 0) :
    HDRBUFSZ ≤ s.length ∧ le_val (s.take SIGSZ) = K.BMPFILESIG ∧
    load_bmp_body K (file_header s) (s.drop HDRBUFSZ) dst width height xpal = exec.done res := by
  have n2 : SIGSZ ≠ 0 := by decide
  have n52 : HDRSZ ≠ 0 := by decide
  have hb : HDRBUFSZ = SIGSZ + HDRSZ := rfl
  unfold load_bmp at h
  split at h
  · simp only [fread_data SIGSZ 1 s n2, fread_data HDRSZ 1 _ n52, Nat.mul_one, List.drop_drop] at h
    split at h
    · exact absurd (show (-3 : Int) = 0 from (congrArg load_result.rval (exec.done.inj h)).trans h0)
        (by decide)
    rename_i g1
    split at h
    · exact absurd (show (-4 : Int) = 0 from (congrArg load_result.rval (exec.done.inj h)).trans h0)
        (by decide)
    rename_i g2
    split at h
    · exact absurd (show (-3 : Int) = 0 from (congrArg load_result.rval (exec.done.inj h)).trans h0)
        (by decide)
    rename_i g3
    have c1 : SIGSZ * 1 ≤ s.length := (fread_count SIGSZ 1 s n2).mp (by omega)
    have c2 : HDRSZ * 1 ≤ (s.drop SIGSZ).length := (fread_count HDRSZ 1 _ n52).mp (by omega)
    simp at c2
    refine ⟨by omega, by omega, h⟩
  · exact absurd (show (-1 : Int) = 0 from (congrArg load_result.rval (exec.done.inj h)).trans h0)
      (by decide)

theorem flatten_uniform_length (W : Nat) : ∀ (L : List (List Nat)), (∀ l ∈ L, l.length = W) →
    L.flatten.length = L.length * W := by
  intro L
  induction L with
  | nil => intro _; simp
  | cons a L ih =>
    intro h
    rw [List.flatten_cons, List.length_append, ih (fun l hl => h l (List.mem_cons_of_mem _ hl)),
      h a (List.mem_cons_self _ _), List.length_cons, Nat.succ_mul]
    omega

theorem flatten_uniform_row (W : Nat) : ∀ (L : List (List Nat)), (∀ l ∈ L, l.length = W) →
    ∀ r, r < L.length → (L.flatten.drop (r * W)).take W = L.getD r [] := by
  intro L
  induction L with
  | nil => intro _ r hr; simp at hr
  | cons a L ih =>
    intro h r hr
    have ha : a.length = W := h a (List.mem_cons_self _ _)
    cases r with
    | zero =>
      simp only [Nat.zero_mul, List.drop_zero, List.flatten_cons, List.getD_cons_zero]
      rw [List.take_append_of_le_length (by omega), ← ha, List.take_length]
    | succ r =>
      have e : (r + 1) * W = a.length + r * W := by rw [Nat.succ_mul, ha]; omega
      rw [List.flatten_cons, e, ← List.drop_drop, List.drop_left, List.getD_cons_succ]
      exact ih (fun l hl => h l (List.mem_cons_of_mem _ hl)) r (by simpa using hr)

theorem file_rows_length (fp : List Nat) (W S n : Nat) : (file_rows fp W S n).length = n := by
  simp [file_rows]

theorem file_rows_uniform (fp : List Nat) (W S n : Nat) (hWS : W ≤ S) (h : n * S ≤ fp.length) :
    ∀ l ∈ file_rows fp W S n, l.length = W := by
  intro l hl
  simp only [file_rows, List.mem_map, List.mem_range] at hl
  obtain ⟨k, hk, rfl⟩ := hl
  apply mem_row_length
  have : (k + 1) * S ≤ n * S := Nat.mul_le_mul_right S hk
  rw [Nat.succ_mul] at this
  omega

theorem file_rows_getD (fp : List Nat) (W S n r : Nat) (hr : r < n) :
    (file_rows fp W S n).getD r [] = mem_row fp W (r * S) := by
  simp [file_rows, List.getD_eq_getElem?_getD, hr]

theorem file_rows_reverse_getD (fp : List Nat) (W S n r : Nat) (hr : r < n) :
    ((file_rows fp W S n).reverse).getD r [] = mem_row fp W ((n - 1 - r) * S) := by
  have h1 : r < (file_rows fp W S n).reverse.length := by simp [file_rows_length, hr]
  rw [List.getD_eq_getElem?_getD, List.getElem?_eq_getElem h1, List.getElem_reverse]
  simp [file_rows]

theorem image_of_rows_length (fp : List Nat) (W S n : Nat) (flip : Bool) (hWS : W ≤ S)
    (h : n * S ≤ fp.length) : (image_of_rows fp W S n flip).length = W * n := by
  have hu := file_rows_uniform fp W S n hWS h
  unfold image_of_rows
  cases flip with
  | true =>
    simp only [if_true]
    rw [flatten_uniform_length W _ hu, file_rows_length, Nat.mul_comm]
  | false =>
    simp only [Bool.false_eq_true, if_false]
    rw [flatten_uniform_length W _ (fun l hl => hu l (List.mem_reverse.mp hl)), List.length_reverse,
      file_rows_length, Nat.mul_comm]

theorem image_of_rows_row (fp : List Nat) (W S n : Nat) (flip : Bool) (hWS : W ≤ S)
    (h : n * S ≤ fp.length) (r : Nat) (hr : r < n) :
    ((image_of_rows fp W S n flip).drop (r * W)).take W
      = mem_row fp W ((if flip then r else n - 1 - r) * S) := by
  have hu := file_rows_uniform fp W S n hWS h
  unfold image_of_rows
  cases flip with
  | true =>
    simp only [if_true]
    rw [flatten_uniform_row W _ hu r (by rw [file_rows_length]; exact hr), file_rows_getD _ _ _ _ _ hr]
  | false =>
    simp only [Bool.false_eq_true, if_false]
    rw [flatten_uniform_row W _ (fun l hl => hu l (List.mem_reverse.mp hl)) r
      (by rw [List.length_reverse, file_rows_length]; exact hr), file_rows_reverse_getD _ _ _ _ _ hr]

theorem range_map_reverse (f : Nat → List Nat) (n : Nat) :
    ((List.range n).map f).reverse = (List.range n).map (fun r => f (n - 1 - r)) := by
  apply List.ext_getElem
  · simp
  · intro i h1 h2
    simp only [List.length_reverse, List.length_map, List.length_range] at h1
    simp [List.getElem_reverse]

theorem image_of_rows_eq (fp : List Nat) (W S n : Nat) (flip : Bool) :
    image_of_rows fp W S n flip
      = (List.range n).flatMap (fun r => mem_row fp W ((if flip then r else n - 1 - r) * S)) := by
  unfold image_of_rows file_rows
  cases flip with
  | true => simp [List.flatMap_def]
  | false => simp only [Bool.false_eq_true, if_false, range_map_reverse, List.flatMap_def]

/-- What an accepted file looks like, and what `load_bmp` returns for it. -/
theorem load_bmp_accept (K : bmp_h) (dst : Option memstream_buf_t) (fn : Option String)
    (s : List Nat) (width height : Option Nat) (xpal : List pal_entry_t) (res : load_result)
    (h : load_bmp K dst fn (some s) width height xpal = exec.done res) (h0 : res.rval = 0) :
    HDRBUFSZ ≤ s.length ∧ le_val (s.take SIGSZ) = K.BMPFILESIG ∧ hdr_valid (file_header s) ∧
    HDRBUFSZ + PALENTSZ * (file_header s).bmi.num_colors ≤ s.length ∧
    (file_header s).bmi.image_height ≠ -2147483648 ∧
    hdr_lw (file_header s) * hdr_lh (file_header s) ≤ INT_MAX ∧
    hdr_lh (file_header s) * stride_of (hdr_lw (file_header s)) ≤ (file_pixels s).length ∧
    (0 < hdr_lw (file_header s) ∨ hdr_lh (file_header s) = 0) ∧
    ∃ xpal1, load_palette (pal_of_bytes K (file_header s).bmi.num_colors (file_pal s))
        (file_header s).bmi.num_colors 0 xpal = exec.done xpal1 ∧
      res = ⟨0, some ⟨hdr_lw (file_header s) * hdr_lh (file_header s), 0,
            some (image_of_rows (file_pixels s) (hdr_lw (file_header s))
              (stride_of (hdr_lw (file_header s))) (hdr_lh (file_header s))
              (hdr_flip (file_header s)))⟩,
          some (hdr_lw (file_header s)), some (hdr_lh (file_header s)), xpal1⟩ := by
  obtain ⟨a1, a2, a3⟩ := load_bmp_inv K dst fn s width height xpal res h h0
  obtain ⟨b1, b2, xpal1, b3, b4⟩ := load_bmp_body_inv K _ _ dst width height xpal res a3 h0
  obtain ⟨c1, c2, c3, c4, c5⟩ := load_bmp_image_inv _ _ width height xpal1 res b4 h0
  have e : List.drop (PALENTSZ * (file_header s).bmi.num_colors) (List.drop HDRBUFSZ s)
      = file_pixels s := by
    rw [file_pixels, List.drop_drop, Nat.add_comm]
  rw [e] at c3 c5
  simp only [List.length_drop] at b2
  exact ⟨a1, a2, b1, by omega, c1, c2, c3, c4, xpal1, b3, c5⟩

theorem pal_of_bytes_length (K : bmp_h) (n : Nat) (bs : List Nat) :
    (pal_of_bytes K n bs).length = n := by
  induction n generalizing bs with
  | zero => rfl
  | succ n ih => simp [pal_of_bytes, ih]

theorem pal_of_bytes_get (K : bmp_h) (n : Nat) : ∀ (bs : List Nat) (i : Nat), i < n →
    (pal_of_bytes K n bs)[i]? = some (pal_entry_of_bytes K ((bs.drop (PALENTSZ * i)).take PALENTSZ)) := by
  induction n with
  | zero => intro bs i hi; omega
  | succ n ih =>
    intro bs i hi
    cases i with
    | zero => simp [pal_of_bytes]
    | succ i =>
      rw [pal_of_bytes, List.getElem?_cons_succ, ih _ i (by omega), List.drop_drop]
      congr 4
      rw [Nat.mul_succ]; omega

theorem four_bytes (l : List Nat) (h : l.length = 4) :
    ∃ b0 b1 b2 b3, l = [b0, b1, b2, b3] := by
  match l, h with
  | [b0, b1, b2, b3], _ => exact ⟨b0, b1, b2, b3, rfl⟩

theorem copy_bytes_frame (src : List Nat) : ∀ (n : Nat) (s d : Int) (dst dst1 : List Nat),
    copy_bytes src n s d dst = exec.done dst1 →
    dst1.length = dst.length ∧ (0 ≤ d → ∀ i, d.toNat + n ≤ i → dst1[i]? = dst[i]?) := by
  intro n
  induction n with
  | zero =>
    intro s d dst dst1 h
    simp only [copy_bytes, exec.done.injEq] at h
    subst h
    exact ⟨rfl, fun _ _ _ => rfl⟩
  | succ n ih =>
    intro s d dst dst1 h
    rw [copy_bytes] at h
    split at h
    · rename_i hb
      obtain ⟨e1, e2⟩ := ih _ _ _ _ h
      refine ⟨by rw [e1, List.length_set], ?_⟩
      intro hd i hi
      have hd1 : (d + 1).toNat = d.toNat + 1 := by omega
      rw [e2 (by omega) i (by omega), List.getElem?_set_ne (by omega)]
    · exact absurd h (by simp)

theorem memset_zero_get (buf : List Nat) (S j : Nat) (hS : S ≤ buf.length) (hj : j < S) :
    (memset buf 0 S)[j]? = some 0 := by
  unfold memset
  rw [List.getElem?_append_left (by simp; omega)]
  rw [List.getElem?_replicate, if_pos (by omega)]

theorem memset_length (buf : List Nat) (c S : Nat) (hS : S ≤ buf.length) :
    (memset buf c S).length = buf.length := by
  simp [memset]; omega

/-- Every scanline the loop of `save_bmp` writes has `S` bytes, those from `W` on zero. -/
theorem save_rows_pad (data : List Nat) (W S : Nat) :
    ∀ (n : Nat) (px : Int) (buf out file : List Nat), S ≤ buf.length →
      save_rows data W S n px buf out = exec.done ⟨0, file⟩ →
      ∃ rows, file = out ++ rows ∧ rows.length = n * S ∧
        ∀ k, k < n → ∀ j, W ≤ j → j < S → rows[k * S + j]? = some 0 := by
  intro n
  induction n with
  | zero =>
    intro px buf out file _ h
    simp only [save_rows, exec.done.injEq, save_result.mk.injEq, true_and] at h
    exact ⟨[], by simp [h], by simp, fun k hk => absurd hk (by omega)⟩
  | succ n ih =>
    intro px buf out file hb h
    rw [save_rows] at h
    split at h
    · rename_i buf1 hc
      obtain ⟨l1, l2⟩ := copy_bytes_frame data W px 0 _ buf1 hc
      rw [memset_length buf 0 S hb] at l1
      by_cases hS : S = 0
      · simp [fwrite, hS] at h
      · simp only [fwrite, if_neg hS, Nat.mul_one, ne_eq, not_true_eq_false, if_false] at h
        obtain ⟨rows, r1, r2, r3⟩ := ih _ buf1 _ file (by omega) h
        refine ⟨buf1.take S ++ rows, by rw [r1, List.append_assoc], ?_, ?_⟩
        · rw [List.length_append, List.length_take, r2, Nat.succ_mul]; omega
        · intro k hk j hj1 hj2
          cases k with
          | zero =>
            rw [Nat.zero_mul, Nat.zero_add, List.getElem?_append_left (by simp; omega),
              List.getElem?_take_of_lt hj2, l2 (by omega) j (by simpa using hj1)]
            exact memset_zero_get buf S j hb hj2
          | succ k =>
            have hl : (buf1.take S).length = S := by simp; omega
            rw [List.getElem?_append_right (by rw [hl, Nat.succ_mul]; omega), hl]
            have e : (k + 1) * S + j - S = k * S + j := by rw [Nat.succ_mul]; omega
            rw [e]
            exact r3 k (by omega) j hj1 hj2
    · exact absurd h (by simp)
    · exact absurd h (by simp)

theorem save_palette_length (xpal : List pal_entry_t) : ∀ (k i : Nat)
    (pal pal1 : List bmp_palette_entry_t), save_palette xpal k i pal = exec.done pal1 →
    pal1.length = pal.length := by
  intro k
  induction k with
  | zero => intro i pal pal1 h; simp only [save_palette, exec.done.injEq] at h; rw [h]
  | succ k ih =>
    intro i pal pal1 h
    rw [save_palette] at h
    split at h
    · exact absurd h (by simp)
    · split at h
      · rw [ih _ _ _ h, List.length_set]
      · exact absurd h (by simp)

/-- A successful `save_bmp` wrote signature and header, 256 palette entries and the output of
its scanline loop. -/
theorem save_bmp_inv (K : bmp_h) (fn : Option String) (ok : Bool) (src : Option memstream_buf_t)
    (W H : Nat) (xpal : List pal_entry_t) (file : List Nat)
    (h : save_bmp K fn ok src W H xpal = exec.done ⟨0, file⟩) :
    ∃ s data pal buf, src = some s ∧ s.data = some data ∧
      save_palette xpal 256 0 (List.replicate 256 ⟨0, 0, 0, 0⟩) = exec.done pal ∧
      HDRBUFSZ + stride_of W + 2 = buf.length ∧
      save_rows data W (stride_of W) H ((s.len : Int) - W) buf
        (le_bytes SIGSZ K.BMPFILESIG ++ header_bytes (save_header K W H) ++
          pal.flatMap (pal_entry_bytes K)) = exec.done ⟨0, file⟩ := by
  unfold save_bmp at h
  split at h
  · exact absurd h (by simp)
  · exact absurd h (by simp)
  · rename_i fn1 s
    split at h
    · exact absurd h (by simp)
    · rename_i data hdata
      split at h
      · exact absurd h (by simp)
      · have hsig : (le_bytes SIGSZ K.BMPFILESIG ++ header_bytes (save_header K W H)).length
            = HDRBUFSZ := by
          simp [le_bytes_length, header_bytes_length, HDRBUFSZ]
        have hbuf0 : (List.replicate (HDRBUFSZ + stride_of W + 2) 0).length
            = HDRBUFSZ + stride_of W + 2 := by simp
        have hdrop := poke_drop (List.replicate (HDRBUFSZ + stride_of W + 2) 0)
          (le_bytes SIGSZ K.BMPFILESIG ++ header_bytes (save_header K W H)) (stride_of W + 2)
          (by rw [hbuf0]; omega)
        have hplen := poke_length (List.replicate (HDRBUFSZ + stride_of W + 2) 0)
          (le_bytes SIGSZ K.BMPFILESIG ++ header_bytes (save_header K W H)) (stride_of W + 2)
          (by rw [hbuf0, hsig]; omega)
        have hw1 : fwrite ((poke (List.replicate (HDRBUFSZ + stride_of W + 2) 0) (stride_of W + 2)
            (le_bytes SIGSZ K.BMPFILESIG ++ header_bytes (save_header K W H))).drop
              (stride_of W + 2)) HDRBUFSZ 1 []
            = (1, le_bytes SIGSZ K.BMPFILESIG ++ header_bytes (save_header K W H)) := by
          rw [hdrop]
          have : HDRBUFSZ ≠ 0 := by decide
          simp only [fwrite, if_neg this, Nat.mul_one, List.nil_append]
          rw [List.take_append_eq_append_take, hsig, ← hsig, List.take_length]
          simp
        simp only [hw1, ne_eq, not_true_eq_false, if_false] at h
        split at h
        · rename_i pal hpal
          have hl := save_palette_length xpal 256 0 _ pal hpal
          have hpl : (pal.flatMap (pal_entry_bytes K)).length = PALENTSZ * 256 := by
            rw [pal_bytes_length, hl, List.length_replicate]; rfl
          have hw2 : ∀ out, fwrite (pal.flatMap (pal_entry_bytes K)) (PALENTSZ * 256) 1 out
              = (1, out ++ pal.flatMap (pal_entry_bytes K)) := by
            intro out
            have : PALENTSZ * 256 ≠ 0 := by decide
            simp only [fwrite, if_neg this, Nat.mul_one]
            rw [← hpl, List.take_length]
          simp only [hw2, ne_eq, not_true_eq_false, if_false] at h
          exact ⟨s, data, pal, _, rfl, hdata, hpal, by rw [hplen, hbuf0], h⟩
        · exact absurd h (by simp)
        · exact absurd h (by simp)

theorem disk_rows_length (data : List Nat) (W S c n : Nat) :
    (disk_rows data W S c n).length = n := by
  simp [disk_rows]

theorem pad_row_length (S : Nat) (row : List Nat) (h : row.length ≤ S) :
    (pad_row S row).length = S := by
  simp [pad_row]; omega

theorem disk_rows_uniform (data : List Nat) (W S c n : Nat) (hWS : W ≤ S)
    (h : c + n * W ≤ data.length) : ∀ l ∈ disk_rows data W S c n, l.length = S := by
  intro l hl
  simp only [disk_rows, List.mem_map, List.mem_reverse, List.mem_range] at hl
  obtain ⟨r, hr, rfl⟩ := hl
  have : (r + 1) * W ≤ n * W := Nat.mul_le_mul_right W hr
  rw [Nat.succ_mul] at this
  apply pad_row_length
  rw [mem_row_length _ _ _ (by omega)]
  exact hWS

theorem disk_rows_getD (data : List Nat) (W S c n k : Nat) (hk : k < n) :
    (disk_rows data W S c n).getD k [] = pad_row S (mem_row data W (c + (n - 1 - k) * W)) := by
  have h1 : k < (disk_rows data W S c n).length := by rw [disk_rows_length]; exact hk
  rw [List.getD_eq_getElem?_getD, List.getElem?_eq_getElem h1]
  simp [disk_rows, List.getElem_reverse]

theorem bmp_file_head_length (K : bmp_h) (W H : Nat) (xpal : List pal_entry_t)
    (hx : xpal.length = 256) :
    (le_bytes SIGSZ K.BMPFILESIG ++ header_bytes (save_header K W H) ++
      (xpal.map bmp_of_rgb).flatMap (pal_entry_bytes K)).length = HDRBUFSZ + PALENTSZ * 256 := by
  simp only [List.length_append, le_bytes_length, header_bytes_length, pal_bytes_length,
    List.length_map, hx]
  rfl

theorem bmp_file_drop (K : bmp_h) (data : List Nat) (W H c : Nat) (xpal : List pal_entry_t)
    (hx : xpal.length = 256) :
    (bmp_file K data W H c xpal).drop (HDRBUFSZ + PALENTSZ * 256)
      = (disk_rows data W (stride_of W) c H).flatten := by
  unfold bmp_file
  rw [← bmp_file_head_length K W H xpal hx, List.drop_left]

set_option maxRecDepth 100000 in
/-- The run of `save_bmp` on the 2x2 image with rows `[1, 2]` and `[3, 4]`. -/
theorem save_2x2_eval :
    save_bmp bmp_h_bm (some "out.bmp") true (some ⟨4, 0, some [1, 2, 3, 4]⟩) 2 2 pal_ramp
      = exec.done ⟨0, file_out_2x2⟩ :=
  save_bmp_eq bmp_h_bm "out.bmp" 4 0 [1, 2, 3, 4] 2 2 0 pal_ramp (by decide) (by decide)
    (by decide) (by decide) (by decide)

theorem save_header_fits (K : bmp_h) (W H : Nat) (hW : W ≤ 65535) (hH : H ≤ 65535) :
    header_fits (save_header K W H) := by
  unfold header_fits save_header
  simp only [BMISZ]
  repeat' apply And.intro
  all_goals omega

theorem pal_of_bytes_bytes (K : bmp_h) : ∀ (pal : List bmp_palette_entry_t) (rest : List Nat),
    pal_of_bytes K pal.length (pal.flatMap (pal_entry_bytes K) ++ rest) = pal := by
  intro pal
  induction pal with
  | nil => intro rest; rfl
  | cons e pal ih =>
    intro rest
    have hl := pal_entry_bytes_length K e
    have e4 : PALENTSZ = (pal_entry_bytes K e).length := by rw [hl]; rfl
    rw [List.length_cons, pal_of_bytes, List.flatMap_cons, List.append_assoc, e4, List.take_left,
      List.drop_left, ih]
    congr 1
    obtain ⟨r, g, b, a⟩ := e
    unfold pal_entry_of_bytes pal_entry_bytes
    cases K.rgb_order <;> simp

theorem rgb_of_bmp_of_rgb (xpal : List pal_entry_t) :
    (xpal.map bmp_of_rgb).map rgb_of_bmp = xpal := by
  rw [List.map_map]
  conv => rhs; rw [← List.map_id xpal]
  apply List.map_congr_left
  intro e _
  rfl

/-- Reading what `save_bmp` wrote for a `W` x `H` image, whatever pixel stream `px` follows the
palette: signature, header and palette are accepted and the palette destination receives the
palette written. -/
theorem load_saved (K : bmp_h) (d : memstream_buf_t) (fn : String) (w h W H : Nat)
    (xpal xpal0 : List pal_entry_t) (px : List Nat) (hsig : K.BMPFILESIG < 65536)
    (hW : W ≤ 65535) (hH : H ≤ 65535) (hx : xpal.length = 256) (hx0 : xpal0.length = 256) :
    load_bmp K (some d) (some fn) (some (bmp_head K W H xpal ++ px)) (some w) (some h) xpal0
      = load_bmp_image (save_header K W H) px (some w) (some h) xpal := by
  have hsl : (le_bytes SIGSZ K.BMPFILESIG).length = SIGSZ := le_bytes_length _ _
  have hhl : (header_bytes (save_header K W H)).length = HDRSZ := header_bytes_length _
  have hpl : ((xpal.map bmp_of_rgb).flatMap (pal_entry_bytes K)).length = PALENTSZ * 256 := by
    rw [pal_bytes_length, List.length_map, hx]; rfl
  have hsplit : bmp_head K W H xpal ++ px = le_bytes SIGSZ K.BMPFILESIG ++
      (header_bytes (save_header K W H) ++
        ((xpal.map bmp_of_rgb).flatMap (pal_entry_bytes K) ++ px)) := by
    simp [bmp_head]
  have hhdr : file_header (bmp_head K W H xpal ++ px) = save_header K W H := by
    rw [file_header, hsplit, List.drop_left' hsl, List.take_left' hhl]
    exact header_roundtrip _ (save_header_fits K W H hW hH)
  have hdrop : (bmp_head K W H xpal ++ px).drop HDRBUFSZ
      = (xpal.map bmp_of_rgb).flatMap (pal_entry_bytes K) ++ px := by
    have : (le_bytes SIGSZ K.BMPFILESIG ++ header_bytes (save_header K W H)).length = HDRBUFSZ := by
      rw [List.length_append, hsl, hhl]; rfl
    rw [hsplit, ← List.append_assoc, List.drop_left' this]
  have hlen : HDRBUFSZ ≤ (bmp_head K W H xpal ++ px).length := by
    rw [hsplit]
    simp only [List.length_append, hsl, hhl, HDRBUFSZ]
    omega
  have hs : le_val ((bmp_head K W H xpal ++ px).take SIGSZ) = K.BMPFILESIG := by
    rw [hsplit, List.take_left' hsl]
    exact le_val_2 _ hsig
  have hnc : (save_header K W H).bmi.num_colors = 256 := rfl
  have hv : hdr_valid (save_header K W H) := ⟨rfl, rfl, rfl, rfl, rfl⟩
  rw [load_bmp_unfold K d fn _ w h xpal0 hlen hs, hhdr, hdrop,
    load_bmp_body_unfold K _ _ _ _ _ xpal0 hv (by rw [hnc, List.length_append, hpl]; omega)]
  have htake : List.take (PALENTSZ * (save_header K W H).bmi.num_colors)
      ((xpal.map bmp_of_rgb).flatMap (pal_entry_bytes K) ++ px)
      = (xpal.map bmp_of_rgb).flatMap (pal_entry_bytes K) ++ [] := by
    rw [hnc, List.take_left' hpl, List.append_nil]
  have hdrop2 : List.drop (PALENTSZ * (save_header K W H).bmi.num_colors)
      ((xpal.map bmp_of_rgb).flatMap (pal_entry_bytes K) ++ px) = px := by
    rw [hnc, List.drop_left' hpl]
  have hml : (xpal.map bmp_of_rgb).length = 256 := by rw [List.length_map, hx]
  have hpob : pal_of_bytes K (save_header K W H).bmi.num_colors
      ((xpal.map bmp_of_rgb).flatMap (pal_entry_bytes K) ++ []) = xpal.map bmp_of_rgb := by
    rw [hnc, ← hml]
    exact pal_of_bytes_bytes K _ []
  have hlp : load_palette (xpal.map bmp_of_rgb) (save_header K W H).bmi.num_colors 0 xpal0
      = exec.done xpal := by
    have := load_palette_eq (xpal.map bmp_of_rgb) xpal0 (by rw [hml, hx0])
    rw [hml] at this
    rw [hnc, this, rgb_of_bmp_of_rgb, ← hx0, List.drop_length, List.append_nil]
  rw [htake, hdrop2, hpob, hlp]

theorem file_rows_padded (W S : Nat) : ∀ (Ls : List (List Nat)) (rest : List Nat),
    (∀ l ∈ Ls, l.length = W ∧ W ≤ S) →
    file_rows ((Ls.map (pad_row S)).flatten ++ rest) W S Ls.length = Ls := by
  intro Ls
  induction Ls with
  | nil => intro rest _; rfl
  | cons l Ls ih =>
    intro rest h
    obtain ⟨hl, hWS⟩ := h l (List.mem_cons_self _ _)
    have hp : (pad_row S l).length = S := pad_row_length S l (by omega)
    rw [List.length_cons, file_rows_succ, List.map_cons, List.flatten_cons, List.append_assoc,
      List.drop_left' hp, ih rest (fun x hx => h x (List.mem_cons_of_mem _ hx))]
    congr 1
    rw [mem_row, List.drop_zero, pad_row, List.append_assoc, List.take_left' hl]

theorem rows_flatten (data : List Nat) (W c : Nat) : ∀ n,
    ((List.range n).map (fun r => mem_row data W (c + r * W))).flatten
      = (data.drop c).take (n * W) := by
  intro n
  induction n with
  | zero => simp
  | succ n ih =>
    rw [List.range_succ, List.map_append, List.flatten_append, ih, Nat.succ_mul, List.take_add]
    simp [mem_row, List.drop_drop, Nat.add_comm]

theorem disk_rows_eq (data : List Nat) (W S c n : Nat) :
    disk_rows data W S c n
      = (((List.range n).map (fun r => mem_row data W (c + r * W))).reverse).map (pad_row S) := by
  simp [disk_rows, List.map_reverse]

theorem image_of_disk_rows (data : List Nat) (W S H : Nat) (hWS : W ≤ S)
    (hd : data.length = W * H) :
    image_of_rows (disk_rows data W S 0 H).flatten W S H false = data := by
  have hu : ∀ l ∈ ((List.range H).map (fun r => mem_row data W (0 + r * W))).reverse,
      l.length = W ∧ W ≤ S := by
    intro l hl
    simp only [List.mem_reverse, List.mem_map, List.mem_range] at hl
    obtain ⟨r, hr, rfl⟩ := hl
    have : (r + 1) * W ≤ H * W := Nat.mul_le_mul_right W hr
    rw [Nat.succ_mul] at this
    have e2 : data.length = H * W := by rw [hd, Nat.mul_comm]
    exact ⟨mem_row_length _ _ _ (by omega), hWS⟩
  have key := file_rows_padded W S _ [] hu
  simp only [List.append_nil, List.length_reverse, List.length_map, List.length_range] at key
  unfold image_of_rows
  simp only [Bool.false_eq_true, if_false]
  rw [disk_rows_eq, key, List.reverse_reverse, rows_flatten, List.drop_zero, Nat.mul_comm, ← hd,
    List.take_length]

theorem save_header_lw (K : bmp_h) (W H : Nat) (hW : W ≤ 65535) :
    hdr_lw (save_header K W H) = W := by
  simp only [hdr_lw, save_header]; omega

theorem save_header_lh (K : bmp_h) (W H : Nat) (hH : H ≤ 65535) :
    hdr_lh (save_header K W H) = H := by
  simp only [hdr_lh, save_header]; omega

theorem save_header_flip (K : bmp_h) (W H : Nat) : hdr_flip (save_header K W H) = false := by
  simp only [hdr_flip, save_header, decide_eq_false_iff_not]; omega

theorem save_header_height (K : bmp_h) (W H : Nat) :
    (save_header K W H).bmi.image_height ≠ -2147483648 := by
  simp only [save_header]; omega

theorem bmp_file_eq (K : bmp_h) (data : List Nat) (W H c : Nat) (xpal : List pal_entry_t) :
    bmp_file K data W H c xpal
      = bmp_head K W H xpal ++ (disk_rows data W (stride_of W) c H).flatten := rfl

/-- Round trip below the `int` limit: for `1 ≤ W ≤ 65535`, `H ≤ 65535` with
`W * H ≤ INT_MAX`, a pixel buffer of exactly `W * H` bytes and a 256-entry palette, `load_bmp`
run on the file `save_bmp` writes returns 0 and yields the same pixels, palette, width and
height. -/
theorem roundtrip_below_int_max (K : bmp_h) (fn1 fn2 : String) (pos : Nat) (data : List Nat)
    (W H : Nat) (xpal xpal0 : List pal_entry_t) (d : memstream_buf_t) (w h : Nat)
    (hsig : K.BMPFILESIG < 65536) (hW1 : 1 ≤ W) (hW : W ≤ 65535) (hH : H ≤ 65535)
    (hov : W * H ≤ INT_MAX) (hd : data.length = W * H) (hx : xpal.length = 256)
    (hx0 : xpal0.length = 256) :
    ∃ file, save_bmp K (some fn1) true (some ⟨W * H, pos, some data⟩) W H xpal
        = exec.done ⟨0, file⟩ ∧
      load_bmp K (some d) (some fn2) (some file) (some w) (some h) xpal0
        = exec.done ⟨0, some ⟨W * H, 0, some data⟩, some W, some H, xpal⟩ := by
  have hS := stride_of_ge W hW
  refine ⟨bmp_file K data W H 0 xpal,
    save_bmp_eq K fn1 (W * H) pos data W H 0 xpal hW1 hW (by rw [Nat.mul_comm]; omega)
      (by omega) hx, ?_⟩
  have hu := disk_rows_uniform data W (stride_of W) 0 H hS (by rw [hd, Nat.mul_comm]; omega)
  have hfl := flatten_uniform_length _ _ hu
  rw [disk_rows_length] at hfl
  rw [bmp_file_eq, load_saved K d fn2 w h W H xpal xpal0 _ hsig hW hH hx hx0,
    load_bmp_image_ok _ _ _ _ _ (save_header_height K W H)
      (by rw [save_header_lw K W H hW, save_header_lh K W H hH]; exact hov)
      (by rw [save_header_lw K W H hW, save_header_lh K W H hH, hfl])
      (by rw [save_header_lw K W H hW]; omega),
    save_header_lw K W H hW, save_header_lh K W H hH, save_header_flip,
    image_of_disk_rows data W _ H hS hd]

theorem load_bmp_image_overflow (bmp : bmp_header_t) (fp : List Nat) (width height : Option Nat)
    (xpal1 : List pal_entry_t) (h1 : bmp.bmi.image_height ≠ -2147483648)
    (h2 : INT_MAX < hdr_lw bmp * hdr_lh bmp) :
    load_bmp_image bmp fp width height xpal1 = exec.int_overflow := by
  have h2' : INT_MAX < (bmp.bmi.image_width % 65536).toNat * (bmp.bmi.image_height.natAbs % 65536) :=
    h2
  unfold load_bmp_image
  simp only [if_neg h1, if_pos h2']

/-- Round trip above the `int` limit: when `W * H` exceeds `INT_MAX`, `save_bmp` still writes
the file, but `load_bmp` overflows computing `lw * lh`. -/
theorem roundtrip_above_int_max (K : bmp_h) (fn1 fn2 : String) (pos : Nat) (data : List Nat)
    (W H : Nat) (xpal xpal0 : List pal_entry_t) (d : memstream_buf_t) (w h : Nat)
    (hsig : K.BMPFILESIG < 65536) (hW1 : 1 ≤ W) (hW : W ≤ 65535) (hH : H ≤ 65535)
    (hov : INT_MAX < W * H) (hd : data.length = W * H) (hx : xpal.length = 256)
    (hx0 : xpal0.length = 256) :
    ∃ file, save_bmp K (some fn1) true (some ⟨W * H, pos, some data⟩) W H xpal
        = exec.done ⟨0, file⟩ ∧
      load_bmp K (some d) (some fn2) (some file) (some w) (some h) xpal0 = exec.int_overflow := by
  refine ⟨bmp_file K data W H 0 xpal,
    save_bmp_eq K fn1 (W * H) pos data W H 0 xpal hW1 hW (by rw [Nat.mul_comm]; omega)
      (by omega) hx, ?_⟩
  rw [bmp_file_eq, load_saved K d fn2 w h W H xpal xpal0 _ hsig hW hH hx hx0,
    load_bmp_image_overflow _ _ _ _ _ (save_header_height K W H)
      (by rw [save_header_lw K W H hW, save_header_lh K W H hH]; exact hov)]

/-- A file truncated inside the palette: `load_bmp` returns -3 and stores nothing. -/
theorem truncated_palette (K : bmp_h) (d : memstream_buf_t) (fn : String) (s : List Nat)
    (w h : Nat) (xpal : List pal_entry_t) (hlen : HDRBUFSZ ≤ s.length)
    (hsig : le_val (s.take SIGSZ) = K.BMPFILESIG) (hv : hdr_valid (file_header s))
    (hshort : s.length < HDRBUFSZ + PALENTSZ * (file_header s).bmi.num_colors) :
    load_bmp K (some d) (some fn) (some s) (some w) (some h) xpal
      = exec.done ⟨-3, some d, some w, some h, xpal⟩ := by
  obtain ⟨v1, v2, v3, v4, v5⟩ := hv
  have n4 : PALENTSZ ≠ 0 := by decide
  have g1 : ¬ (1 ≠ (file_header s).bmi.num_planes ∨ BMISZ ≠ (file_header s).bmi.header_size ∨
      0 ≠ (file_header s).dib.RES) := by omega
  have g2 : ¬ (8 ≠ (file_header s).bmi.bits_per_pixel ∨ 0 ≠ (file_header s).bmi.compression) := by
    omega
  have g3 : (file_header s).bmi.num_colors
      ≠ (fread PALENTSZ (file_header s).bmi.num_colors (s.drop HDRBUFSZ)).1 := by
    intro e
    have := (fread_count PALENTSZ _ (s.drop HDRBUFSZ) n4).mp e.symm
    simp only [List.length_drop] at this
    omega
  rw [load_bmp_unfold K d fn s w h xpal hlen hsig, load_bmp_body, if_neg g1, if_neg g2]
  simp only []
  rw [if_pos g3]

/-- A file truncated inside the pixel rows, whose palette fits the destination and whose
dimensions do not overflow: `load_bmp` returns -3 and leaves `*width` and `*height` alone. -/
theorem truncated_rows (K : bmp_h) (d : memstream_buf_t) (fn : String) (s : List Nat)
    (w h : Nat) (xpal : List pal_entry_t) (hlen : HDRBUFSZ ≤ s.length)
    (hsig : le_val (s.take SIGSZ) = K.BMPFILESIG) (hv : hdr_valid (file_header s))
    (hpal : HDRBUFSZ + PALENTSZ * (file_header s).bmi.num_colors ≤ s.length)
    (hn : (file_header s).bmi.num_colors ≤ xpal.length)
    (hmin : (file_header s).bmi.image_height ≠ -2147483648)
    (hov : hdr_lw (file_header s) * hdr_lh (file_header s) ≤ INT_MAX)
    (hshort : (file_pixels s).length
      < hdr_lh (file_header s) * stride_of (hdr_lw (file_header s))) :
    ∃ data xpal1, load_bmp K (some d) (some fn) (some s) (some w) (some h) xpal
      = exec.done ⟨-3, some ⟨hdr_lw (file_header s) * hdr_lh (file_header s), 0, some data⟩,
          some w, some h, xpal1⟩ := by
  have hl := pal_of_bytes_length K (file_header s).bmi.num_colors
    (List.take (PALENTSZ * (file_header s).bmi.num_colors) (s.drop HDRBUFSZ))
  have key := load_palette_eq (pal_of_bytes K (file_header s).bmi.num_colors
    (List.take (PALENTSZ * (file_header s).bmi.num_colors) (s.drop HDRBUFSZ))) xpal
    (by rw [hl]; exact hn)
  rw [hl] at key
  have e : List.drop (PALENTSZ * (file_header s).bmi.num_colors) (List.drop HDRBUFSZ s)
      = file_pixels s := by
    rw [file_pixels, List.drop_drop, Nat.add_comm]
  rw [load_bmp_unfold K d fn s w h xpal hlen hsig,
    load_bmp_body_unfold K _ _ _ _ _ xpal hv (by simp only [List.length_drop]; omega), key, e]
  obtain ⟨data, hd⟩ := load_bmp_image_short (file_header s) (file_pixels s) (some w) (some h) _
    hmin hov (Or.inl hshort)
  exact ⟨data, _, hd⟩

/-- With non-NULL arguments, an output file that opens and a 256-entry palette, `save_bmp`
writes signature, header and palette and enters its scanline loop. -/
theorem save_bmp_unfold (K : bmp_h) (fn : String) (len pos : Nat) (data : List Nat) (W H : Nat)
    (xpal : List pal_entry_t) (hx : xpal.length = 256) :
    save_bmp K (some fn) true (some ⟨len, pos, some data⟩) W H xpal
      = save_rows data W (stride_of W) H ((len : Int) - W) (save_buf K W H)
          (bmp_head K W H xpal) := by
  have hsig : (le_bytes SIGSZ K.BMPFILESIG ++ header_bytes (save_header K W H)).length = HDRBUFSZ := by
    simp [le_bytes_length, header_bytes_length, HDRBUFSZ]
  have hbuf0 : (List.replicate (HDRBUFSZ + stride_of W + 2) 0).length = HDRBUFSZ + stride_of W + 2 := by
    simp
  have hdrop := poke_drop (List.replicate (HDRBUFSZ + stride_of W + 2) 0)
    (le_bytes SIGSZ K.BMPFILESIG ++ header_bytes (save_header K W H)) (stride_of W + 2)
    (by rw [hbuf0]; omega)
  have hw1 : fwrite ((poke (List.replicate (HDRBUFSZ + stride_of W + 2) 0) (stride_of W + 2)
      (le_bytes SIGSZ K.BMPFILESIG ++ header_bytes (save_header K W H))).drop (stride_of W + 2))
      HDRBUFSZ 1 [] = (1, le_bytes SIGSZ K.BMPFILESIG ++ header_bytes (save_header K W H)) := by
    rw [hdrop]
    have : HDRBUFSZ ≠ 0 := by decide
    simp only [fwrite, if_neg this, Nat.mul_one, List.nil_append]
    rw [List.take_append_eq_append_take, hsig, ← hsig, List.take_length]
    simp
  have hpl : ((xpal.map bmp_of_rgb).flatMap (pal_entry_bytes K)).length = PALENTSZ * 256 := by
    rw [pal_bytes_length, List.length_map, hx]; rfl
  have hw2 : ∀ out, fwrite ((xpal.map bmp_of_rgb).flatMap (pal_entry_bytes K)) (PALENTSZ * 256) 1 out
      = (1, out ++ (xpal.map bmp_of_rgb).flatMap (pal_entry_bytes K)) := by
    intro out
    have : PALENTSZ * 256 ≠ 0 := by decide
    simp only [fwrite, if_neg this, Nat.mul_one]
    rw [← hpl, List.take_length]
  simp only [save_bmp, Bool.not_true, Bool.false_eq_true, if_false, hw1, ne_eq, not_true_eq_false,
    save_palette_eq xpal hx, hw2, save_buf, bmp_head]

theorem save_rows_before_start (data : List Nat) (W S n : Nat) (px : Int) (buf out : List Nat)
    (hW : 1 ≤ W) (hn : 1 ≤ n) (hpx : px < 0) :
    save_rows data W S n px buf out = exec.out_of_bounds := by
  obtain ⟨n, rfl⟩ : ∃ m, n = m + 1 := ⟨n - 1, by omega⟩
  obtain ⟨W, rfl⟩ : ∃ m, W = m + 1 := ⟨W - 1, by omega⟩
  have hc : copy_bytes data (W + 1) px 0 (memset buf 0 S) = exec.out_of_bounds := by
    rw [copy_bytes, if_neg (by omega)]
  rw [save_rows, hc]

/-- Function `save_bmp` given a buffer shorter than one scanline reads before its start. -/
theorem save_bmp_short_buffer (K : bmp_h) (fn : String) (len pos : Nat) (data : List Nat)
    (W H : Nat) (xpal : List pal_entry_t) (hx : xpal.length = 256) (hW : 1 ≤ W) (hH : 1 ≤ H)
    (hlen : len < W) :
    save_bmp K (some fn) true (some ⟨len, pos, some data⟩) W H xpal = exec.out_of_bounds := by
  rw [save_bmp_unfold K fn len pos data W H xpal hx]
  exact save_rows_before_start data W _ H _ _ _ hW hH (by omega)

/-- Function `save_bmp` given height 0 writes signature, header and palette and returns 0,
whatever the buffer holds. -/
theorem save_bmp_height_zero (K : bmp_h) (fn : String) (len pos : Nat) (data : List Nat)
    (W : Nat) (xpal : List pal_entry_t) (hx : xpal.length = 256) :
    save_bmp K (some fn) true (some ⟨len, pos, some data⟩) W 0 xpal
      = exec.done ⟨0, bmp_head K W 0 xpal⟩ := by
  rw [save_bmp_unfold K fn len pos data W 0 xpal hx, save_rows]

theorem bmp_head_length (K : bmp_h) (W H : Nat) (xpal : List pal_entry_t)
    (hx : xpal.length = 256) : (bmp_head K W H xpal).length = HDRBUFSZ + PALENTSZ * 256 :=
  bmp_file_head_length K W H xpal hx

/-- A NULL file name, buffer structure or pixel pointer makes `save_bmp` return -1 with
nothing written. -/
theorem save_bmp_null (K : bmp_h) (fn : Option String) (ok : Bool) (src : Option memstream_buf_t)
    (W H : Nat) (xpal : List pal_entry_t)
    (h : fn = none ∨ src = none ∨ ∃ len pos, src = some ⟨len, pos, none⟩) :
    save_bmp K fn ok src W H xpal = exec.done ⟨-1, []⟩ := by
  rcases h with h | h | ⟨len, pos, h⟩
  · subst h; rfl
  · subst h; cases fn <;> rfl
  · subst h; cases fn <;> rfl

theorem save_palette_bound (xpal : List pal_entry_t) : ∀ (k i : Nat)
    (pal pal1 : List bmp_palette_entry_t), save_palette xpal k i pal = exec.done pal1 →
    k = 0 ∨ i + k ≤ xpal.length := by
  intro k
  induction k with
  | zero => intro i pal pal1 _; exact Or.inl rfl
  | succ k ih =>
    intro i pal pal1 h
    rw [save_palette] at h
    split at h
    · exact absurd h (by simp)
    · rename_i e he
      have hi : i < xpal.length := by
        rcases Nat.lt_or_ge i xpal.length with c | c
        · exact c
        · rw [List.getElem?_eq_none c] at he; exact absurd he (by simp)
      split at h
      · rcases ih _ _ _ h with c | c
        · right; omega
        · right; omega
      · exact absurd h (by simp)

theorem save_palette_inv (xpal : List pal_entry_t) (pal : List bmp_palette_entry_t)
    (h : save_palette xpal 256 0 (List.replicate 256 ⟨0, 0, 0, 0⟩) = exec.done pal) :
    256 ≤ xpal.length ∧ pal = (xpal.take 256).map bmp_of_rgb := by
  have hb : 256 ≤ xpal.length := by
    rcases save_palette_bound xpal 256 0 _ pal h with c | c
    · exact absurd c (by decide)
    · omega
  refine ⟨hb, ?_⟩
  have hl : (xpal.take 256).length = 256 := by simp; omega
  have key := save_palette_parts (xpal.take 256) [] (xpal.drop 256) [] [] rfl
  simp only [List.nil_append, List.append_nil, List.length_nil, List.take_append_drop] at key
  rw [hl, h] at key
  exact exec.done.inj key

/-- What a successful `save_bmp` has written: signature, header, the first 256 palette
entries with a zero reserved byte, and `H` rows of `stride` bytes. -/
theorem save_bmp_success (K : bmp_h) (fn : Option String) (ok : Bool)
    (src : Option memstream_buf_t) (W H : Nat) (xpal : List pal_entry_t) (file : List Nat)
    (h : save_bmp K fn ok src W H xpal = exec.done ⟨0, file⟩) :
    256 ≤ xpal.length ∧ ∃ rows, rows.length = H * stride_of W ∧
      file = le_bytes SIGSZ K.BMPFILESIG ++ header_bytes (save_header K W H) ++
        ((xpal.take 256).map bmp_of_rgb).flatMap (pal_entry_bytes K) ++ rows := by
  obtain ⟨s, data, pal, buf, _, _, hpal, hbuf, hrows⟩ := save_bmp_inv K fn ok src W H xpal file h
  obtain ⟨hb, hp⟩ := save_palette_inv xpal pal hpal
  obtain ⟨rows, r1, r2, _⟩ := save_rows_pad data W (stride_of W) H _ buf _ file (by omega) hrows
  exact ⟨hb, rows, r2, by rw [r1, hp]⟩

theorem stride_of_le (W : Nat) (hW : W ≤ 65535) : stride_of W ≤ 65536 := by
  rw [stride_of_eq W hW]; omega

theorem stride_mul_lt (W H : Nat) (hW : W ≤ 65535) (hH : H ≤ 65535) :
    stride_of W * H ≤ 4294901760 := by
  have := Nat.mul_le_mul (stride_of_le W hW) hH
  omega

/-- The header read back from a file that starts with what `save_bmp` puts there. -/
theorem file_header_saved (K : bmp_h) (W H : Nat) (rest : List Nat) (hW : W ≤ 65535)
    (hH : H ≤ 65535) :
    file_header (le_bytes SIGSZ K.BMPFILESIG ++ header_bytes (save_header K W H) ++ rest)
      = save_header K W H := by
  have hsl : (le_bytes SIGSZ K.BMPFILESIG).length = SIGSZ := le_bytes_length _ _
  have hhl : (header_bytes (save_header K W H)).length = HDRSZ := header_bytes_length _
  rw [file_header, List.append_assoc, List.drop_left' hsl, List.take_left' hhl]
  exact header_roundtrip _ (save_header_fits K W H hW hH)

theorem pal_bytes_entry (K : bmp_h) : ∀ (pal : List bmp_palette_entry_t) (rest : List Nat)
    (i : Nat) (e : bmp_palette_entry_t), pal[i]? = some e →
    ((pal.flatMap (pal_entry_bytes K) ++ rest).drop (PALENTSZ * i)).take PALENTSZ
      = pal_entry_bytes K e := by
  intro pal
  induction pal with
  | nil => intro rest i e h; simp at h
  | cons a pal ih =>
    intro rest i e h
    have hl : (pal_entry_bytes K a).length = PALENTSZ := pal_entry_bytes_length K a
    cases i with
    | zero =>
      simp only [List.getElem?_cons_zero, Option.some.injEq] at h
      subst h
      rw [Nat.mul_zero, List.drop_zero, List.flatMap_cons, List.append_assoc, List.take_left' hl]
    | succ i =>
      rw [List.getElem?_cons_succ] at h
      have e1 : PALENTSZ * (i + 1) = PALENTSZ + PALENTSZ * i := by rw [Nat.mul_succ, Nat.add_comm]
      rw [List.flatMap_cons, List.append_assoc, e1, ← List.drop_drop, List.drop_left' hl]
      exact ih rest i e h

/-- Row `k` of the pixel section of the file `save_bmp` writes for a `W` x `H` image. -/
theorem bmp_file_row (K : bmp_h) (data : List Nat) (W H : Nat) (xpal : List pal_entry_t)
    (hW : W ≤ 65535) (hd : data.length = W * H) (hx : xpal.length = 256) (k : Nat) (hk : k < H) :
    (((bmp_file K data W H 0 xpal).drop (HDRBUFSZ + PALENTSZ * 256)).drop (k * stride_of W)).take W
      = (data.drop ((H - 1 - k) * W)).take W := by
  have hS := stride_of_ge W hW
  have hc : 0 + H * W ≤ data.length := by rw [hd, Nat.mul_comm]; omega
  have hu := disk_rows_uniform data W (stride_of W) 0 H hS hc
  have hrow := flatten_uniform_row (stride_of W) _ hu k (by rw [disk_rows_length]; exact hk)
  have hk2 : 0 + (H - 1 - k) * W + W ≤ data.length := by
    have : (H - 1 - k + 1) * W ≤ H * W := Nat.mul_le_mul_right W (by omega)
    rw [Nat.succ_mul] at this
    omega
  rw [bmp_file_drop K data W H 0 xpal hx]
  have e : List.take W (List.drop (k * stride_of W) (disk_rows data W (stride_of W) 0 H).flatten)
      = List.take W (List.take (stride_of W)
          (List.drop (k * stride_of W) (disk_rows data W (stride_of W) 0 H).flatten)) := by
    rw [List.take_take, Nat.min_eq_left hS]
  have hl := mem_row_length data W (0 + (H - 1 - k) * W) hk2
  rw [e, hrow, disk_rows_getD _ _ _ _ _ _ hk, pad_row, List.take_append_of_le_length (by omega),
    mem_row, List.take_take, Nat.min_self, Nat.zero_add]

theorem bmp_file_length (K : bmp_h) (data : List Nat) (W H : Nat) (xpal : List pal_entry_t)
    (hW : W ≤ 65535) (hd : data.length = W * H) (hx : xpal.length = 256) :
    (bmp_file K data W H 0 xpal).length = HDRBUFSZ + 1024 + stride_of W * H := by
  have hS := stride_of_ge W hW
  have hc : 0 + H * W ≤ data.length := by rw [hd, Nat.mul_comm]; omega
  have hu := disk_rows_uniform data W (stride_of W) 0 H hS hc
  rw [bmp_file_eq, List.length_append, bmp_head_length K W H xpal hx,
    flatten_uniform_length _ _ hu, disk_rows_length, Nat.mul_comm H]
  rfl

/-- A file too short to hold the signature: `load_bmp` returns -3 and stores nothing. -/
theorem load_bmp_no_signature (K : bmp_h) (d : memstream_buf_t) (fn : String) (s : List Nat)
    (w h : Nat) (xpal : List pal_entry_t) (hlen : s.length < SIGSZ) :
    load_bmp K (some d) (some fn) (some s) (some w) (some h) xpal
      = exec.done ⟨-3, some d, some w, some h, xpal⟩ := by
  have hc := fread_one_short SIGSZ s (Or.inr hlen)
  unfold load_bmp
  simp only [ne_eq, Ne.symm hc, not_false_eq_true, if_true]

/-- A file whose first two bytes are not the signature: `load_bmp` returns -4. -/
theorem load_bmp_bad_signature (K : bmp_h) (d : memstream_buf_t) (fn : String) (s : List Nat)
    (w h : Nat) (xpal : List pal_entry_t) (hlen : SIGSZ ≤ s.length)
    (hsig : le_val (s.take SIGSZ) ≠ K.BMPFILESIG) :
    load_bmp K (some d) (some fn) (some s) (some w) (some h) xpal
      = exec.done ⟨-4, some d, some w, some h, xpal⟩ := by
  have n2 : SIGSZ ≠ 0 := by decide
  have c1 : (fread SIGSZ 1 s).1 = 1 := (fread_count SIGSZ 1 s n2).mpr (by omega)
  unfold load_bmp
  simp only [fread_data SIGSZ 1 s n2, c1, Nat.mul_one, ne_eq, not_true_eq_false, if_false,
    Ne.symm hsig, not_false_eq_true, if_true]

/-- A file with the signature that ends inside the header: `load_bmp` returns -3. -/
theorem load_bmp_short_header (K : bmp_h) (d : memstream_buf_t) (fn : String) (s : List Nat)
    (w h : Nat) (xpal : List pal_entry_t) (hlen : SIGSZ ≤ s.length)
    (hsig : le_val (s.take SIGSZ) = K.BMPFILESIG) (hshort : s.length < HDRBUFSZ) :
    load_bmp K (some d) (some fn) (some s) (some w) (some h) xpal
      = exec.done ⟨-3, some d, some w, some h, xpal⟩ := by
  have n2 : SIGSZ ≠ 0 := by decide
  have hb : HDRBUFSZ = SIGSZ + HDRSZ := rfl
  have c1 : (fread SIGSZ 1 s).1 = 1 := (fread_count SIGSZ 1 s n2).mpr (by omega)
  have c2 := fread_one_short HDRSZ (s.drop SIGSZ) (Or.inr (by simp only [List.length_drop]; omega))
  unfold load_bmp
  simp only [fread_data SIGSZ 1 s n2, c1, Nat.mul_one, hsig, ne_eq, not_true_eq_false, if_false,
    Ne.symm c2, not_false_eq_true, if_true]

/-- Function `load_bmp` called with a NULL pointer, or on a file that cannot be opened,
returns without reading. -/
theorem load_bmp_early (K : bmp_h) (dst : Option memstream_buf_t) (fn : Option String)
    (fopen_rb : Option (List Nat)) (width height : Option Nat) (xpal : List pal_entry_t)
    (h : fn = none ∨ dst = none ∨ width = none ∨ height = none ∨ fopen_rb = none) :
    load_bmp K dst fn fopen_rb width height xpal = exec.done ⟨-1, dst, width, height, xpal⟩ ∨
    load_bmp K dst fn fopen_rb width height xpal = exec.done ⟨-2, dst, width, height, xpal⟩ := by
  cases fn <;> cases dst <;> cases width <;> cases height <;> cases fopen_rb <;>
    simp [load_bmp] at h ⊢

theorem load_rows_rval (lw S : Nat) (flip : Bool) : ∀ (n : Nat) (fp : List Nat) (px : Int)
    (data : List Nat) (rv : Int) (d : List Nat),
    load_rows lw S flip n fp px data = exec.done (rv, d) → rv = 0 ∨ rv = -3 := by
  intro n
  induction n with
  | zero =>
    intro fp px data rv d h
    simp only [load_rows, exec.done.injEq, Prod.mk.injEq] at h
    exact Or.inl h.1.symm
  | succ n ih =>
    intro fp px data rv d h
    rw [load_rows] at h
    split at h
    · simp only [exec.done.injEq, Prod.mk.injEq] at h
      exact Or.inr h.1.symm
    · split at h
      · exact ih _ _ _ _ _ h
      · exact absurd h (by simp)
      · exact absurd h (by simp)

/-- Whatever `load_bmp_image` returns, the palette destination is the one it was given and
the return value is 0 or -3. -/
theorem load_bmp_image_xpal (bmp : bmp_header_t) (fp : List Nat) (width height : Option Nat)
    (xpal1 : List pal_entry_t) (res : load_result)
    (h : load_bmp_image bmp fp width height xpal1 = exec.done res) :
    res.xpal = xpal1 ∧ (res.rval = 0 ∨ res.rval = -3) := by
  unfold load_bmp_image at h
  split at h
  · exact absurd h (by simp)
  · simp only [] at h
    split at h
    · exact absurd h (by simp)
    · split at h
      · rename_i rv data hr
        have hrv := load_rows_rval _ _ _ _ _ _ _ _ _ hr
        split at h
        · have := exec.done.inj h
          subst this
          exact ⟨rfl, hrv⟩
        · have := exec.done.inj h
          subst this
          exact ⟨rfl, Or.inl rfl⟩
      · exact absurd h (by simp)
      · exact absurd h (by simp)

theorem load_palette_bound (pal : List bmp_palette_entry_t) : ∀ (k i : Nat)
    (xpal xpal1 : List pal_entry_t), load_palette pal k i xpal = exec.done xpal1 →
    k = 0 ∨ i + k ≤ xpal.length := by
  intro k
  induction k with
  | zero => intro i xpal xpal1 _; exact Or.inl rfl
  | succ k ih =>
    intro i xpal xpal1 h
    rw [load_palette] at h
    split at h
    · exact absurd h (by simp)
    · split at h
      · rename_i hi
        rcases ih _ _ _ h with c | c
        · right; omega
        · right; rw [List.length_set] at c; omega
      · exact absurd h (by simp)

/-- How `load_bmp_body` can return: before the palette is stored, with the palette destination
as it was, or through `load_bmp_image` after the palette loop. -/
theorem load_bmp_body_cases (K : bmp_h) (bmp : bmp_header_t) (fp : List Nat)
    (dst : Option memstream_buf_t) (width height : Option Nat) (xpal : List pal_entry_t)
    (res : load_result) (h : load_bmp_body K bmp fp dst width height xpal = exec.done res) :
    (res.xpal = xpal ∧ res.dst = dst ∧ res.width = width ∧ res.height = height ∧
      (res.rval = -6 ∨ res.rval = -7 ∨
        (res.rval = -3 ∧ fp.length < PALENTSZ * bmp.bmi.num_colors))) ∨
    (hdr_valid bmp ∧ PALENTSZ * bmp.bmi.num_colors ≤ fp.length ∧
      ∃ xpal1, load_palette (pal_of_bytes K bmp.bmi.num_colors
          (fp.take (PALENTSZ * bmp.bmi.num_colors))) bmp.bmi.num_colors 0 xpal = exec.done xpal1 ∧
        load_bmp_image bmp (fp.drop (PALENTSZ * bmp.bmi.num_colors)) width height xpal1
          = exec.done res) := by
  have n4 : PALENTSZ ≠ 0 := by decide
  by_cases g1 : 1 ≠ bmp.bmi.num_planes ∨ BMISZ ≠ bmp.bmi.header_size ∨ 0 ≠ bmp.dib.RES
  · rw [load_bmp_body, if_pos g1] at h
    have := exec.done.inj h
    subst this
    exact Or.inl ⟨rfl, rfl, rfl, rfl, Or.inl rfl⟩
  by_cases g2 : 8 ≠ bmp.bmi.bits_per_pixel ∨ 0 ≠ bmp.bmi.compression
  · rw [load_bmp_body, if_neg g1, if_pos g2] at h
    have := exec.done.inj h
    subst this
    exact Or.inl ⟨rfl, rfl, rfl, rfl, Or.inr (Or.inl rfl)⟩
  by_cases g3 : bmp.bmi.num_colors ≠ (fread PALENTSZ bmp.bmi.num_colors fp).1
  · rw [load_bmp_body, if_neg g1, if_neg g2] at h
    simp only [] at h
    rw [if_pos g3] at h
    have := exec.done.inj h
    subst this
    refine Or.inl ⟨rfl, rfl, rfl, rfl, Or.inr (Or.inr ⟨rfl, ?_⟩)⟩
    rcases Nat.lt_or_ge fp.length (PALENTSZ * bmp.bmi.num_colors) with c | c
    · exact c
    · exact absurd ((fread_count PALENTSZ _ fp n4).mpr c).symm g3
  have hv : hdr_valid bmp := by
    unfold hdr_valid
    omega
  have hp : PALENTSZ * bmp.bmi.num_colors ≤ fp.length :=
    (fread_count PALENTSZ _ fp n4).mp (by omega)
  right
  refine ⟨hv, hp, ?_⟩
  rw [load_bmp_body_unfold K bmp fp dst width height xpal hv hp] at h
  split at h
  · rename_i xpal1 e
    exact ⟨xpal1, e, h⟩
  · exact absurd h (by simp)
  · exact absurd h (by simp)

/-- How `load_bmp` can return: before the header is checked, with everything its pointer
arguments address as it was, or through `load_bmp_body`. -/
theorem load_bmp_cases (K : bmp_h) (dst : Option memstream_buf_t) (fn : Option String)
    (fopen_rb : Option (List Nat)) (width height : Option Nat) (xpal : List pal_entry_t)
    (res : load_result) (h : load_bmp K dst fn fopen_rb width height xpal = exec.done res) :
    (res.xpal = xpal ∧ res.dst = dst ∧ res.width = width ∧ res.height = height ∧
      (res.rval = -1 ∨ res.rval = -2 ∨ res.rval = -3 ∨ res.rval = -4)) ∨
    (∃ s, fopen_rb = some s ∧ HDRBUFSZ ≤ s.length ∧ le_val (s.take SIGSZ) = K.BMPFILESIG ∧
      load_bmp_body K (file_header s) (s.drop HDRBUFSZ) dst width height xpal = exec.done res) := by
  have n2 : SIGSZ ≠ 0 := by decide
  have n52 : HDRSZ ≠ 0 := by decide
  have hb : HDRBUFSZ = SIGSZ + HDRSZ := rfl
  unfold load_bmp at h
  split at h
  · split at h
    · have := exec.done.inj h
      subst this
      exact Or.inl ⟨rfl, rfl, rfl, rfl, Or.inr (Or.inl rfl)⟩
    · rename_i s
      simp only [fread_data SIGSZ 1 s n2, fread_data HDRSZ 1 _ n52, Nat.mul_one,
        List.drop_drop] at h
      split at h
      · have := exec.done.inj h
        subst this
        exact Or.inl ⟨rfl, rfl, rfl, rfl, Or.inr (Or.inr (Or.inl rfl))⟩
      rename_i g1
      split at h
      · have := exec.done.inj h
        subst this
        exact Or.inl ⟨rfl, rfl, rfl, rfl, Or.inr (Or.inr (Or.inr rfl))⟩
      rename_i g2
      split at h
      · have := exec.done.inj h
        subst this
        exact Or.inl ⟨rfl, rfl, rfl, rfl, Or.inr (Or.inr (Or.inl rfl))⟩
      rename_i g3
      have c1 : SIGSZ * 1 ≤ s.length := (fread_count SIGSZ 1 s n2).mp (by omega)
      have c2 : HDRSZ * 1 ≤ (s.drop SIGSZ).length := (fread_count HDRSZ 1 _ n52).mp (by omega)
      simp at c2
      exact Or.inr ⟨s, rfl, by omega, by omega, h⟩
  · have := exec.done.inj h
    subst this
    exact Or.inl ⟨rfl, rfl, rfl, rfl, Or.inl rfl⟩

set_option maxRecDepth 100000 in
/-- The run of `load_bmp` on `file_norows`. -/
theorem load_norows_eval :
    load_bmp bmp_h_bm (some ⟨0, 0, none⟩) (some "in.bmp") (some file_norows) (some 0) (some 0)
      pal_zero = exec.done res_norows := by rfl

theorem load_palette_outside (pal : List bmp_palette_entry_t) : ∀ (k i : Nat)
    (xpal : List pal_entry_t), i ≤ xpal.length → xpal.length < i + k → i + k ≤ pal.length →
    load_palette pal k i xpal = exec.out_of_bounds := by
  intro k
  induction k with
  | zero => intro i xpal h1 h2 _; omega
  | succ k ih =>
    intro i xpal h1 h2 h3
    rw [load_palette, List.getElem?_eq_getElem (by omega)]
    simp only []
    split
    · exact ih (i + 1) _ (by rw [List.length_set]; omega) (by rw [List.length_set]; omega)
        (by omega)
    · rfl

/-- A file with a valid header and a complete palette table of more entries than the palette
destination has: `load_bmp` stores outside the destination. -/
theorem load_bmp_palette_outside (K : bmp_h) (d : memstream_buf_t) (fn : String) (s : List Nat)
    (w h : Nat) (xpal : List pal_entry_t) (hlen : HDRBUFSZ ≤ s.length)
    (hsig : le_val (s.take SIGSZ) = K.BMPFILESIG) (hv : hdr_valid (file_header s))
    (hpal : HDRBUFSZ + PALENTSZ * (file_header s).bmi.num_colors ≤ s.length)
    (hn : xpal.length < (file_header s).bmi.num_colors) :
    load_bmp K (some d) (some fn) (some s) (some w) (some h) xpal = exec.out_of_bounds := by
  have hl := pal_of_bytes_length K (file_header s).bmi.num_colors
    (List.take (PALENTSZ * (file_header s).bmi.num_colors) (s.drop HDRBUFSZ))
  have key := load_palette_outside (pal_of_bytes K (file_header s).bmi.num_colors
    (List.take (PALENTSZ * (file_header s).bmi.num_colors) (s.drop HDRBUFSZ)))
    (file_header s).bmi.num_colors 0 xpal (by omega) (by omega) (by rw [hl]; omega)
  rw [load_bmp_unfold K d fn s w h xpal hlen hsig,
    load_bmp_body_unfold K _ _ _ _ _ xpal hv (by simp only [List.length_drop]; omega), key]


set_option maxRecDepth 100000 in
/-- The run of `load_bmp` on `file_wide`. -/
theorem load_wide_eval :
    load_bmp bmp_h_bm (some ⟨0, 0, none⟩) (some "in.bmp") (some file_wide) (some 0) (some 0)
      pal_zero = exec.done res_2x2 := by rfl

theorem slice_congr (s1 s2 : List Nat) (a n : Nat)
    (h : ∀ i, a ≤ i → i < a + n → s1[i]? = s2[i]?) :
    (s1.drop a).take n = (s2.drop a).take n := by
  apply List.ext_getElem?
  intro j
  simp only [List.getElem?_take, List.getElem?_drop]
  split
  · exact h (a + j) (by omega) (by omega)
  · rfl

theorem drop_congr (s1 s2 : List Nat) (a : Nat)
    (h : ∀ i, a ≤ i → s1[i]? = s2[i]?) : s1.drop a = s2.drop a := by
  apply List.ext_getElem?
  intro j
  simp only [List.getElem?_drop]
  exact h (a + j) (by omega)

theorem header_slice (s : List Nat) (off n : Nat) (h : off + n ≤ HDRSZ) :
    field ((s.drop SIGSZ).take HDRSZ) off n = le_val ((s.drop (SIGSZ + off)).take n) := by
  rw [field, List.drop_take, List.take_take, List.drop_drop, Nat.min_eq_left (by omega)]

theorem header_field_congr (s1 s2 : List Nat) (off n : Nat) (h : off + n ≤ HDRSZ)
    (hb : ∀ i, SIGSZ + off ≤ i → i < SIGSZ + off + n → s1[i]? = s2[i]?) :
    field ((s1.drop SIGSZ).take HDRSZ) off n = field ((s2.drop SIGSZ).take HDRSZ) off n := by
  rw [header_slice s1 off n h, header_slice s2 off n h, slice_congr s1 s2 _ n hb]

theorem file_header_same (s1 s2 : List Nat) (h : same_but_info s1 s2) :
    hdr_same (file_header s1) (file_header s2) := by
  obtain ⟨_, hb⟩ := h
  have hf : ∀ off n, off + n ≤ HDRSZ →
      (∀ i, SIGSZ + off ≤ i → i < SIGSZ + off + n → info_byte i = false) →
      field ((s1.drop SIGSZ).take HDRSZ) off n = field ((s2.drop SIGSZ).take HDRSZ) off n := by
    intro off n h1 h2
    exact header_field_congr s1 s2 off n h1 (fun i hi1 hi2 => hb i (h2 i hi1 hi2))
  have hi : ∀ (a b : Nat) (i : Nat), a ≤ i → i < b →
      ((6 ≤ a ∧ b ≤ 10) ∨ (14 ≤ a ∧ b ≤ 34) ∨ (46 ≤ a ∧ b ≤ 50)) → info_byte i = false := by
    intro a b i h1 h2 h3
    simp only [info_byte, decide_eq_false_iff_not]
    omega
  unfold hdr_same file_header header_of_bytes
  simp only
  have hs : SIGSZ = 2 := rfl
  have hh : HDRSZ = 52 := rfl
  refine ⟨?_, ?_, ?_, ?_, ?_, ?_, ?_, ?_⟩
  · exact hf 4 4 (by omega) (fun i h1 h2 => hi 6 10 i (by omega) (by omega) (by omega))
  · exact hf 12 4 (by omega) (fun i h1 h2 => hi 14 18 i (by omega) (by omega) (by omega))
  · rw [hf 16 4 (by omega) (fun i h1 h2 => hi 18 22 i (by omega) (by omega) (by omega))]
  · rw [hf 20 4 (by omega) (fun i h1 h2 => hi 22 26 i (by omega) (by omega) (by omega))]
  · exact hf 24 2 (by omega) (fun i h1 h2 => hi 26 28 i (by omega) (by omega) (by omega))
  · exact hf 26 2 (by omega) (fun i h1 h2 => hi 28 30 i (by omega) (by omega) (by omega))
  · exact hf 28 4 (by omega) (fun i h1 h2 => hi 30 34 i (by omega) (by omega) (by omega))
  · exact hf 44 4 (by omega) (fun i h1 h2 => hi 46 50 i (by omega) (by omega) (by omega))

theorem load_bmp_image_congr (b1 b2 : bmp_header_t) (fp : List Nat) (width height : Option Nat)
    (xpal1 : List pal_entry_t) (h : hdr_same b1 b2) :
    load_bmp_image b1 fp width height xpal1 = load_bmp_image b2 fp width height xpal1 := by
  obtain ⟨_, _, h3, h4, _⟩ := h
  unfold load_bmp_image
  rw [h3, h4]

theorem load_bmp_body_congr (K : bmp_h) (b1 b2 : bmp_header_t) (fp : List Nat)
    (dst : Option memstream_buf_t) (width height : Option Nat) (xpal : List pal_entry_t)
    (h : hdr_same b1 b2) :
    load_bmp_body K b1 fp dst width height xpal = load_bmp_body K b2 fp dst width height xpal := by
  have hi := fun x y => load_bmp_image_congr b1 b2 x width height y h
  obtain ⟨h1, h2, _, _, h5, h6, h7, h8⟩ := h
  unfold load_bmp_body
  simp only [h1, h2, h5, h6, h7, h8, hi]

theorem same_but_info_of_bounded (s1 s2 : List Nat) (hl : s1.length = s2.length)
    (h : ∀ i, i < s1.length → info_byte i = false → s1[i]? = s2[i]?) : same_but_info s1 s2 := by
  refine ⟨hl, fun i hi => ?_⟩
  rcases Nat.lt_or_ge i s1.length with c | c
  · exact h i c hi
  · rw [List.getElem?_eq_none c, List.getElem?_eq_none (by omega)]

/-- Function `load_bmp` does not depend on the informational header fields. -/
theorem load_bmp_congr (K : bmp_h) (dst : Option memstream_buf_t) (fn : Option String)
    (s1 s2 : List Nat) (width height : Option Nat) (xpal : List pal_entry_t)
    (h : same_but_info s1 s2) :
    load_bmp K dst fn (some s1) width height xpal
      = load_bmp K dst fn (some s2) width height xpal := by
  have hl := h.1
  have hs : SIGSZ = 2 := rfl
  have hb : HDRBUFSZ = 54 := rfl
  have hinfo : ∀ i, (i < 2 ∨ 54 ≤ i) → info_byte i = false := by
    intro i hi
    simp only [info_byte, decide_eq_false_iff_not]
    omega
  have htake : s1.take SIGSZ = s2.take SIGSZ := by
    have := slice_congr s1 s2 0 SIGSZ (fun i _ h2 => h.2 i (hinfo i (by omega)))
    simpa using this
  have hdrop : s1.drop HDRBUFSZ = s2.drop HDRBUFSZ :=
    drop_congr s1 s2 HDRBUFSZ (fun i h1 => h.2 i (hinfo i (by omega)))
  cases fn with
  | none => rfl
  | some f =>
    cases dst with
    | none => rfl
    | some d =>
      cases width with
      | none => rfl
      | some w =>
        cases height with
        | none => rfl
        | some ht =>
          by_cases c1 : s1.length < SIGSZ
          · rw [load_bmp_no_signature K d f s1 w ht xpal c1,
              load_bmp_no_signature K d f s2 w ht xpal (by omega)]
          by_cases c2 : le_val (s1.take SIGSZ) = K.BMPFILESIG
          · by_cases c3 : s1.length < HDRBUFSZ
            · rw [load_bmp_short_header K d f s1 w ht xpal (by omega) c2 c3,
                load_bmp_short_header K d f s2 w ht xpal (by omega) (by rw [← htake]; exact c2)
                  (by omega)]
            · rw [load_bmp_unfold K d f s1 w ht xpal (by omega) c2,
                load_bmp_unfold K d f s2 w ht xpal (by omega) (by rw [← htake]; exact c2),
                hdrop]
              exact load_bmp_body_congr K _ _ _ _ _ _ _ (file_header_same s1 s2 h)
          · rw [load_bmp_bad_signature K d f s1 w ht xpal (by omega) c2,
              load_bmp_bad_signature K d f s2 w ht xpal (by omega) (by rw [← htake]; exact c2)]

theorem same_info_2x2 : same_but_info file_2x2 file_2x2_info :=
  same_but_info_of_bounded file_2x2 file_2x2_info (by decide) (by decide)

theorem poke_whole (n : Nat) (bs : List Nat) (h : bs.length = n) :
    poke (List.replicate n 0) 0 bs = bs := by
  simp [poke, h]

theorem fread_whole (fp : List Nat) (n : Nat) (h : fp.length = n) (h0 : n ≠ 0) :
    fread n 1 fp = (1, fp, []) := by
  unfold fread
  rw [if_neg h0, h, Nat.div_self (by omega), Nat.mul_one, ← h]
  simp

theorem xpal_of_bytes_length (bs : List Nat) : (xpal_of_bytes bs).length = bs.length / 3 := by
  simp [xpal_of_bytes]

theorem save_bmp_cannot_open (K : bmp_h) (fn : String) (len pos : Nat) (data : List Nat)
    (W H : Nat) (xpal : List pal_entry_t) :
    save_bmp K (some fn) false (some ⟨len, pos, some data⟩) W H xpal = exec.done ⟨-2, []⟩ := rfl

theorem main_convert_eq (K : bmp_h) (ok : Bool) (fo_name : String) (fi fp : List Nat)
    (h1 : fi.length = 64000) (h2 : fp.length = 768) :
    main_convert K ok fo_name fi fp 64000 768
      = exec.done ⟨if ok then 0 else -1, convert_events fo_name fi fp,
          if ok then bmp_file K fi 320 200 0 (xpal_of_bytes fp) else []⟩ := by
  unfold main_convert
  simp only [fread_whole fi 64000 h1 (by decide), fread_whole fp 768 h2 (by decide),
    poke_whole 64000 fi h1, poke_whole 768 fp h2, IMAGE_WIDTH, IMAGE_HEIGHT]
  cases ok with
  | true =>
    rw [save_bmp_eq K fo_name 64000 0 fi 320 200 0 (xpal_of_bytes fp) (by decide) (by decide)
      (by decide) (by omega) (by rw [xpal_of_bytes_length, h2])]
    rfl
  | false =>
    rw [save_bmp_cannot_open]
    rfl


theorem main_outcome (K : bmp_h) (fopen_rb : String → Option (List Nat))
    (fopen_wb : String → Bool) (argv : List String) :
    (main K fopen_rb fopen_wb argv = exec.done ⟨-1, [], []⟩ ∧
      ¬ (∃ img pal, fopen_rb (argv.getD 1 "") = some img ∧ img.length = 64000 ∧
          fopen_rb (derived_name (argv.getD 1 "") PALEXT) = some pal ∧ pal.length = 768 ∧
          argv.length = 2)) ∨
    (∃ img pal, fopen_rb (argv.getD 1 "") = some img ∧ img.length = 64000 ∧
      fopen_rb (derived_name (argv.getD 1 "") PALEXT) = some pal ∧ pal.length = 768 ∧
      argv.length = 2 ∧
      main K fopen_rb fopen_wb argv
        = exec.done ⟨if fopen_wb (derived_name (argv.getD 1 "") OUTEXT) then 0 else -1,
            convert_events (derived_name (argv.getD 1 "") OUTEXT) img pal,
            if fopen_wb (derived_name (argv.getD 1 "") OUTEXT) then
              bmp_file K img 320 200 0 (xpal_of_bytes pal) else []⟩) := by
  unfold main
  by_cases c : argv.length < 2 ∨ argv.length > 2
  · left
    rw [if_pos c]
    refine ⟨rfl, ?_⟩
    rintro ⟨_, _, _, _, _, _, h⟩
    omega
  rw [if_neg c]
  simp only []
  cases e1 : fopen_rb (argv.getD 1 "") with
  | none =>
    left
    refine ⟨rfl, ?_⟩
    rintro ⟨_, _, h, _⟩
    exact absurd h (by simp)
  | some fi =>
    simp only [filesize, IMAGE_WIDTH, IMAGE_HEIGHT]
    by_cases c1 : 320 * 200 ≠ fi.length
    · left
      rw [if_pos c1]
      refine ⟨rfl, ?_⟩
      rintro ⟨img, _, h, h1, _⟩
      injection h with h
      subst h
      omega
    rw [if_neg c1]
    cases e2 : fopen_rb (derived_name (argv.getD 1 "") PALEXT) with
    | none =>
      left
      refine ⟨rfl, ?_⟩
      rintro ⟨_, _, _, _, h, _⟩
      exact absurd h (by simp)
    | some fp =>
      simp only []
      by_cases c2 : 768 ≠ fp.length
      · left
        rw [if_pos c2]
        refine ⟨rfl, ?_⟩
        rintro ⟨_, pal, _, _, h, h1, _⟩
        injection h with h
        subst h
        omega
      rw [if_neg c2]
      right
      have h1 : fi.length = 64000 := by omega
      have h2 : fp.length = 768 := by omega
      refine ⟨fi, fp, rfl, h1, rfl, h2, by omega, ?_⟩
      rw [h1, h2]
      exact main_convert_eq K _ _ fi fp h1 h2

theorem mem_row_segment (data : List Nat) (W H c r : Nat) (hr : r < H) :
    mem_row ((data.drop c).take (H * W)) W (0 + r * W) = mem_row data W (c + r * W) := by
  have h1 : (r + 1) * W ≤ H * W := Nat.mul_le_mul_right W hr
  rw [Nat.succ_mul] at h1
  unfold mem_row
  rw [List.drop_take, List.take_take, List.drop_drop, Nat.min_eq_left (by omega), Nat.zero_add]

theorem disk_rows_segment (data : List Nat) (W S c H : Nat) :
    disk_rows ((data.drop c).take (H * W)) W S 0 H = disk_rows data W S c H := by
  unfold disk_rows
  apply List.map_congr_left
  intro r hr
  simp only [List.mem_reverse, List.mem_range] at hr
  rw [mem_row_segment data W H c r hr]

theorem bmp_file_segment (K : bmp_h) (data : List Nat) (W H c : Nat) (xpal : List pal_entry_t) :
    bmp_file K ((data.drop c).take (H * W)) W H 0 xpal = bmp_file K data W H c xpal := by
  unfold bmp_file
  rw [disk_rows_segment]

/-- For a buffer of recorded length `len ≥ W * H`, `save_bmp` writes the file of the image
made of the last `W * H` of its first `len` bytes. -/
theorem save_bmp_tail (K : bmp_h) (fn : String) (len pos : Nat) (data : List Nat) (W H : Nat)
    (xpal : List pal_entry_t) (hW1 : 1 ≤ W) (hW : W ≤ 65535) (hlen : W * H ≤ len)
    (hd : len ≤ data.length) (hx : xpal.length = 256) :
    save_bmp K (some fn) true (some ⟨len, pos, some data⟩) W H xpal
      = exec.done ⟨0, bmp_file K ((data.drop (len - W * H)).take (W * H)) W H 0 xpal⟩ := by
  have hc : W * H = H * W := Nat.mul_comm W H
  rw [save_bmp_eq K fn len pos data W H (len - W * H) xpal hW1 hW (by omega) hd hx,
    ← bmp_file_segment, hc]

theorem segment_length (data : List Nat) (len n : Nat) (hlen : n ≤ len)
    (hd : len ≤ data.length) : ((data.drop (len - n)).take n).length = n := by
  simp only [List.length_take, List.length_drop]
  omega

theorem segment_row (data : List Nat) (W H len k : Nat) (hk : k < H) (hlen : W * H ≤ len) :
    (((data.drop (len - W * H)).take (W * H)).drop ((H - 1 - k) * W)).take W
      = (data.drop (len - (k + 1) * W)).take W := by
  have hc : W * H = H * W := Nat.mul_comm W H
  have h1 := mem_row_segment data W H (len - W * H) (H - 1 - k) (by omega)
  have h2 : (H - 1 - k) * W + (k + 1) * W = H * W := by
    rw [← Nat.add_mul]
    congr 1
    omega
  unfold mem_row at h1
  rw [Nat.zero_add, ← hc] at h1
  rw [h1]
  congr 2
  omega

theorem tail_marked_length (len : Nat) (h : 1 ≤ len) : (tail_marked len).length = len := by
  simp [tail_marked]
  omega

theorem tail_marked_byte (len : Nat) : ∀ b ∈ tail_marked len, b < 256 := by
  intro b hb
  simp only [tail_marked, List.mem_append, List.mem_replicate, List.mem_singleton] at hb
  rcases hb with ⟨_, h⟩ | h <;> omega

theorem tail_marked_rows (W H len : Nat) (hW1 : 1 ≤ W) (hH1 : 1 ≤ H) (hlen : W * H < len) :
    ((tail_marked len).drop (len - (0 + 1) * W)).take W
      ≠ ((tail_marked len).drop ((H - 1 - 0) * W)).take W := by
  intro h
  have h2 : (H - 1) * W + W = W * H := by
    rw [← Nat.succ_mul, Nat.mul_comm]
    congr 1
    omega
  have h3 := congrArg (fun l => l[W - 1]?) h
  simp only [List.getElem?_take, List.getElem?_drop, tail_marked] at h3
  rw [if_pos (by omega), if_pos (by omega),
    List.getElem?_append_right (by simp; omega),
    List.getElem?_append_left (by simp; omega)] at h3
  simp only [List.length_replicate] at h3
  have e : len - (0 + 1) * W + (W - 1) - (len - 1) = 0 := by
    have : W ≤ len := le_trans (Nat.le_mul_of_pos_right W hH1) (by omega)
    omega
  rw [e, List.getElem?_replicate] at h3
  simp at h3

theorem save_rows_rval (data : List Nat) (W S : Nat) : ∀ (n : Nat) (px : Int)
    (buf out : List Nat) (res : save_result),
    save_rows data W S n px buf out = exec.done res → res.rval = 0 ∨ res.rval = -4 := by
  intro n
  induction n with
  | zero =>
    intro px buf out res h
    simp only [save_rows, exec.done.injEq] at h
    subst h
    exact Or.inl rfl
  | succ n ih =>
    intro px buf out res h
    simp only [save_rows] at h
    split at h
    · split at h
      · simp only [exec.done.injEq] at h
        subst h
        exact Or.inr rfl
      · exact ih _ _ _ _ h
    · exact absurd h (by simp)
    · exact absurd h (by simp)

/-- The return value -1 of `save_bmp` comes from the NULL test only. -/
theorem save_bmp_invalid (K : bmp_h) (fn : Option String) (ok : Bool)
    (src : Option memstream_buf_t) (W H : Nat) (xpal : List pal_entry_t) (res : save_result)
    (h : save_bmp K fn ok src W H xpal = exec.done res) (h1 : res.rval = -1) :
    fn = none ∨ src = none ∨ ∃ len pos, src = some ⟨len, pos, none⟩ := by
  unfold save_bmp at h
  split at h
  · exact Or.inl rfl
  · exact Or.inr (Or.inl rfl)
  · rename_i fn1 s
    split at h
    · rename_i hdata
      refine Or.inr (Or.inr ⟨s.len, s.pos, ?_⟩)
      cases s
      simp only at hdata
      rw [hdata]
    · exfalso
      split at h
      · simp only [exec.done.injEq] at h
        subst h
        exact absurd h1 (by decide)
      · simp only [] at h
        split at h
        · simp only [exec.done.injEq] at h
          subst h
          simp at h1
        · split at h
          · split at h
            · simp only [exec.done.injEq] at h
              subst h
              simp at h1
            · rcases save_rows_rval _ _ _ _ _ _ _ _ h with c | c <;> omega
          · exact absurd h (by simp)
          · exact absurd h (by simp)

set_option maxRecDepth 100000 in
/-- The run of `load_bmp` on `file_tall`. -/
theorem load_tall_eval :
    load_bmp bmp_h_bm (some ⟨0, 0, none⟩) (some "in.bmp") (some file_tall) (some 0) (some 0)
      pal_zero = exec.done res_tall := by rfl

theorem load_bmp_image_heap_all (hp : calloc_ok) (bmp : bmp_header_t) (fp : List Nat)
    (dst : Option memstream_buf_t) (width height : Option Nat) (xpal1 : List pal_entry_t)
    (h1 : hp.data = true) (h2 : hp.buf = true) :
    load_bmp_image_heap hp bmp fp dst width height xpal1
      = load_bmp_image bmp fp width height xpal1 := by
  unfold load_bmp_image_heap load_bmp_image
  simp only [h1, h2, Bool.not_true, Bool.false_eq_true, if_false]

theorem load_bmp_body_heap_all (K : bmp_h) (hp : calloc_ok) (bmp : bmp_header_t)
    (fp : List Nat) (dst : Option memstream_buf_t) (width height : Option Nat)
    (xpal : List pal_entry_t) (h0 : hp.pal = true) (h1 : hp.data = true) (h2 : hp.buf = true) :
    load_bmp_body_heap K hp bmp fp dst width height xpal
      = load_bmp_body K bmp fp dst width height xpal := by
  have hi := fun x y => load_bmp_image_heap_all hp bmp x dst width height y h1 h2
  unfold load_bmp_body_heap load_bmp_body
  simp only [h0, hi, Bool.not_true, Bool.false_eq_true, if_false]

/-- On a heap where every `calloc` succeeds `load_bmp_heap` is `load_bmp`. -/
theorem load_bmp_heap_all (K : bmp_h) (dst : Option memstream_buf_t) (fn : Option String)
    (fopen_rb : Option (List Nat)) (width height : Option Nat) (xpal : List pal_entry_t) :
    load_bmp_heap K ⟨true, true, true, true⟩ dst fn fopen_rb width height xpal
      = load_bmp K dst fn fopen_rb width height xpal := by
  have hb := fun b x => load_bmp_body_heap_all K ⟨true, true, true, true⟩ b x dst width height
    xpal rfl rfl rfl
  unfold load_bmp_heap load_bmp
  simp only [hb, Bool.not_true, Bool.false_eq_true, if_false]

theorem load_bmp_image_heap_cases (hp : calloc_ok) (bmp : bmp_header_t) (fp : List Nat)
    (dst : Option memstream_buf_t) (width height : Option Nat) (xpal1 : List pal_entry_t)
    (res : load_result)
    (h : load_bmp_image_heap hp bmp fp dst width height xpal1 = exec.done res) :
    res.xpal = xpal1 ∧ (res.rval = 0 ∨ res.rval = -3 ∨ res.rval = -5) ∧
    (res.rval = -5 ↔ (hp.data = false ∨ hp.buf = false)) := by
  by_cases h1 : hp.data = true
  · by_cases h2 : hp.buf = true
    · rw [load_bmp_image_heap_all hp bmp fp dst width height xpal1 h1 h2] at h
      obtain ⟨e, r⟩ := load_bmp_image_xpal bmp fp width height xpal1 res h
      refine ⟨e, by omega, ?_⟩
      simp only [h1, h2, Bool.true_eq_false, or_self, iff_false]
      omega
    · unfold load_bmp_image_heap at h
      simp only [h1, h2, Bool.not_true, Bool.false_eq_true, if_false, Bool.not_false,
        if_true] at h
      split at h
      · exact absurd h (by simp)
      · split at h
        · exact absurd h (by simp)
        · have := exec.done.inj h
          subst this
          simp at h2
          simp [h2]
  · simp only [Bool.not_eq_true] at h1
    unfold load_bmp_image_heap at h
    simp only [h1, Bool.not_false, if_true] at h
    split at h
    · exact absurd h (by simp)
    · split at h
      · exact absurd h (by simp)
      · have := exec.done.inj h
        subst this
        simp [h1]

theorem load_bmp_body_heap_unfold (K : bmp_h) (hp : calloc_ok) (bmp : bmp_header_t)
    (fp : List Nat) (dst : Option memstream_buf_t) (width height : Option Nat)
    (xpal : List pal_entry_t) (hv : hdr_valid bmp) (hpal : hp.pal = true)
    (hlen : PALENTSZ * bmp.bmi.num_colors ≤ fp.length) :
    load_bmp_body_heap K hp bmp fp dst width height xpal =
      match load_palette (pal_of_bytes K bmp.bmi.num_colors
          (fp.take (PALENTSZ * bmp.bmi.num_colors))) bmp.bmi.num_colors 0 xpal with
      | exec.done xpal1 =>
        load_bmp_image_heap hp bmp (fp.drop (PALENTSZ * bmp.bmi.num_colors)) dst width height
          xpal1
      | exec.out_of_bounds => exec.out_of_bounds
      | exec.int_overflow => exec.int_overflow := by
  obtain ⟨v1, v2, v3, v4, v5⟩ := hv
  have n4 : PALENTSZ ≠ 0 := by decide
  have c : (fread PALENTSZ bmp.bmi.num_colors fp).1 = bmp.bmi.num_colors :=
    (fread_count PALENTSZ _ fp n4).mpr hlen
  have g1 : ¬ (1 ≠ bmp.bmi.num_planes ∨ BMISZ ≠ bmp.bmi.header_size ∨ 0 ≠ bmp.dib.RES) := by
    simp [v1, v2, v3]
  have g2 : ¬ (8 ≠ bmp.bmi.bits_per_pixel ∨ 0 ≠ bmp.bmi.compression) := by simp [v4, v5]
  have g3 : ¬ (bmp.bmi.num_colors ≠ (fread PALENTSZ bmp.bmi.num_colors fp).1) := by
    rw [c]; simp
  unfold load_bmp_body_heap
  rw [if_neg g1, if_neg g2]
  simp only [hpal, Bool.not_true, Bool.false_eq_true, if_false]
  rw [if_neg g3, fread_data PALENTSZ _ fp n4]

/-- How `load_bmp_body_heap` can return: before the palette is stored, or through
`load_bmp_image_heap`. -/
theorem load_bmp_body_heap_cases (K : bmp_h) (hp : calloc_ok) (bmp : bmp_header_t)
    (fp : List Nat) (dst : Option memstream_buf_t) (width height : Option Nat)
    (xpal : List pal_entry_t) (res : load_result)
    (h : load_bmp_body_heap K hp bmp fp dst width height xpal = exec.done res) :
    (res.xpal = xpal ∧ res.rval ≠ 0 ∧
      ¬ (hdr_valid bmp ∧ hp.pal = true ∧ PALENTSZ * bmp.bmi.num_colors ≤ fp.length)) ∨
    (hdr_valid bmp ∧ hp.pal = true ∧ PALENTSZ * bmp.bmi.num_colors ≤ fp.length ∧
      ∃ xpal1, load_palette (pal_of_bytes K bmp.bmi.num_colors
          (fp.take (PALENTSZ * bmp.bmi.num_colors))) bmp.bmi.num_colors 0 xpal = exec.done xpal1 ∧
        load_bmp_image_heap hp bmp (fp.drop (PALENTSZ * bmp.bmi.num_colors)) dst width height
          xpal1 = exec.done res) := by
  have n4 : PALENTSZ ≠ 0 := by decide
  by_cases g1 : 1 ≠ bmp.bmi.num_planes ∨ BMISZ ≠ bmp.bmi.header_size ∨ 0 ≠ bmp.dib.RES
  · rw [load_bmp_body_heap, if_pos g1] at h
    have := exec.done.inj h
    subst this
    refine Or.inl ⟨rfl, by simp, ?_⟩
    rintro ⟨hv, _⟩
    unfold hdr_valid at hv
    omega
  by_cases g2 : 8 ≠ bmp.bmi.bits_per_pixel ∨ 0 ≠ bmp.bmi.compression
  · rw [load_bmp_body_heap, if_neg g1, if_pos g2] at h
    have := exec.done.inj h
    subst this
    refine Or.inl ⟨rfl, by simp, ?_⟩
    rintro ⟨hv, _⟩
    unfold hdr_valid at hv
    omega
  have hv : hdr_valid bmp := by
    unfold hdr_valid
    omega
  by_cases gp : hp.pal = true
  · by_cases g3 : bmp.bmi.num_colors ≠ (fread PALENTSZ bmp.bmi.num_colors fp).1
    · rw [load_bmp_body_heap, if_neg g1, if_neg g2] at h
      simp only [gp, Bool.not_true, Bool.false_eq_true, if_false] at h
      rw [if_pos g3] at h
      have := exec.done.inj h
      subst this
      refine Or.inl ⟨rfl, by simp, ?_⟩
      rintro ⟨_, _, c⟩
      exact absurd ((fread_count PALENTSZ _ fp n4).mpr c).symm g3
    · have hlen : PALENTSZ * bmp.bmi.num_colors ≤ fp.length :=
        (fread_count PALENTSZ _ fp n4).mp (by omega)
      right
      refine ⟨hv, gp, hlen, ?_⟩
      rw [load_bmp_body_heap_unfold K hp bmp fp dst width height xpal hv gp hlen] at h
      split at h
      · rename_i xpal1 e
        exact ⟨xpal1, e, h⟩
      · exact absurd h (by simp)
      · exact absurd h (by simp)
  · rw [load_bmp_body_heap, if_neg g1, if_neg g2] at h
    simp only [Bool.not_eq_true] at gp
    simp only [gp, Bool.not_false, if_true] at h
    have := exec.done.inj h
    subst this
    refine Or.inl ⟨rfl, by simp, ?_⟩
    rintro ⟨_, c, _⟩
    rw [gp] at c
    exact absurd c (by decide)

theorem load_bmp_heap_null (K : bmp_h) (hp : calloc_ok) (dst : Option memstream_buf_t)
    (fn : Option String) (fopen_rb : Option (List Nat)) (width height : Option Nat)
    (xpal : List pal_entry_t) (h : fn = none ∨ dst = none ∨ width = none ∨ height = none) :
    load_bmp_heap K hp dst fn fopen_rb width height xpal
      = exec.done ⟨-1, dst, width, height, xpal⟩ := by
  cases fn <;> cases dst <;> cases width <;> cases height <;> simp [load_bmp_heap] at h ⊢

theorem load_bmp_heap_some (K : bmp_h) (hp : calloc_ok) (d : memstream_buf_t)
    (fn : String) (fopen_rb : Option (List Nat)) (w ht : Nat)
    (xpal : List pal_entry_t) (res : load_result)
    (h : load_bmp_heap K hp (some d) (some fn) fopen_rb (some w) (some ht) xpal
      = exec.done res) :
    (res.xpal = xpal ∧ res.rval ≠ 0 ∧
      ¬ past_palette K hp (some d) (some fn) fopen_rb (some w) (some ht)) ∨
    (past_palette K hp (some d) (some fn) fopen_rb (some w) (some ht) ∧
      ∃ s xpal1, fopen_rb = some s ∧
        load_palette (pal_of_bytes K (file_header s).bmi.num_colors (file_pal s))
          (file_header s).bmi.num_colors 0 xpal = exec.done xpal1 ∧
        load_bmp_image_heap hp (file_header s) (file_pixels s) (some d) (some w) (some ht) xpal1
          = exec.done res) := by
  have n2 : SIGSZ ≠ 0 := by decide
  have n52 : HDRSZ ≠ 0 := by decide
  have hb : HDRBUFSZ = SIGSZ + HDRSZ := rfl
  cases fopen_rb with
  | none =>
    simp only [load_bmp_heap] at h
    have := exec.done.inj h
    subst this
    refine Or.inl ⟨rfl, by simp, ?_⟩
    rintro ⟨_, _, _, _, _, _, c⟩
    exact c
  | some s =>
    simp only [load_bmp_heap, fread_data SIGSZ 1 s n2, fread_data HDRSZ 1 _ n52, Nat.mul_one,
      List.drop_drop] at h
    split at h
    · rename_i g1
      have := exec.done.inj h
      subst this
      refine Or.inl ⟨rfl, by simp, ?_⟩
      rintro ⟨_, _, _, _, _, _, c, _⟩
      have c1 : (fread SIGSZ 1 s).1 = 1 := (fread_count SIGSZ 1 s n2).mpr (by omega)
      omega
    rename_i g1
    split at h
    · rename_i g2
      have := exec.done.inj h
      subst this
      refine Or.inl ⟨rfl, by simp, ?_⟩
      rintro ⟨_, _, _, _, _, _, _, c, _⟩
      exact g2 c.symm
    rename_i g2
    split at h
    · rename_i g3
      have := exec.done.inj h
      subst this
      refine Or.inl ⟨rfl, by simp, ?_⟩
      rintro ⟨_, _, _, _, c, _⟩
      rw [c] at g3
      exact absurd g3 (by decide)
    rename_i g3
    split at h
    · rename_i g4
      have := exec.done.inj h
      subst this
      refine Or.inl ⟨rfl, by simp, ?_⟩
      rintro ⟨_, _, _, _, _, _, c, _⟩
      have c2 : (fread HDRSZ 1 (s.drop SIGSZ)).1 = 1 :=
        (fread_count HDRSZ 1 _ n52).mpr (by simp; omega)
      exact g4 (by omega)
    rename_i g4
    have c1 : SIGSZ * 1 ≤ s.length := (fread_count SIGSZ 1 s n2).mp (by omega)
    have c2 : HDRSZ * 1 ≤ (s.drop SIGSZ).length := (fread_count HDRSZ 1 _ n52).mp (by omega)
    simp at c2
    have hlen : HDRBUFSZ ≤ s.length := by omega
    have hsig : le_val (s.take SIGSZ) = K.BMPFILESIG := by omega
    have hbmp : hp.bmp = true := by simpa using g3
    have h' : load_bmp_body_heap K hp (file_header s) (s.drop HDRBUFSZ) (some d) (some w)
        (some ht) xpal = exec.done res := h
    rcases load_bmp_body_heap_cases K hp _ _ _ _ _ xpal res h' with
      ⟨e, r, hn⟩ | ⟨hv, hpal, hl, xpal1, e1, e2⟩
    · refine Or.inl ⟨e, r, ?_⟩
      rintro ⟨_, _, _, _, _, c5, _, _, c8, c9⟩
      apply hn
      refine ⟨c8, c5, ?_⟩
      rw [List.length_drop]
      omega
    · rw [List.length_drop] at hl
      right
      refine ⟨⟨by simp, by simp, by simp, by simp, hbmp, hpal, hlen, hsig, hv, by omega⟩,
        s, xpal1, rfl, e1, ?_⟩
      rw [List.drop_drop] at e2
      exact e2

/-- How `load_bmp_heap` can return: before the palette is stored, with the palette destination
as it was, or after it, through `load_bmp_image_heap`. -/
theorem load_bmp_heap_cases (K : bmp_h) (hp : calloc_ok) (dst : Option memstream_buf_t)
    (fn : Option String) (fopen_rb : Option (List Nat)) (width height : Option Nat)
    (xpal : List pal_entry_t) (res : load_result)
    (h : load_bmp_heap K hp dst fn fopen_rb width height xpal = exec.done res) :
    (res.xpal = xpal ∧ res.rval ≠ 0 ∧ ¬ past_palette K hp dst fn fopen_rb width height) ∨
    (past_palette K hp dst fn fopen_rb width height ∧
      ∃ s xpal1, fopen_rb = some s ∧
        load_palette (pal_of_bytes K (file_header s).bmi.num_colors (file_pal s))
          (file_header s).bmi.num_colors 0 xpal = exec.done xpal1 ∧
        load_bmp_image_heap hp (file_header s) (file_pixels s) dst width height xpal1
          = exec.done res) := by
  by_cases hnull : fn = none ∨ dst = none ∨ width = none ∨ height = none
  · rw [load_bmp_heap_null K hp dst fn fopen_rb width height xpal hnull] at h
    have := exec.done.inj h
    subst this
    refine Or.inl ⟨rfl, by simp, ?_⟩
    rintro ⟨c1, c2, c3, c4, _⟩
    rcases hnull with c | c | c | c
    · exact c1 c
    · exact c2 c
    · exact c3 c
    · exact c4 c
  · cases fn with
    | none => exact absurd (Or.inl rfl) hnull
    | some f =>
      cases dst with
      | none => exact absurd (Or.inr (Or.inl rfl)) hnull
      | some d =>
        cases width with
        | none => exact absurd (Or.inr (Or.inr (Or.inl rfl))) hnull
        | some w =>
          cases height with
          | none => exact absurd (Or.inr (Or.inr (Or.inr rfl))) hnull
          | some ht => exact load_bmp_heap_some K hp d f fopen_rb w ht xpal res h

/-- Outcome of a failing run of `load_bmp_heap` for the palette destination. -/
theorem load_bmp_heap_palette (K : bmp_h) (hp : calloc_ok) (dst : Option memstream_buf_t)
    (fn : Option String) (fopen_rb : Option (List Nat)) (width height : Option Nat)
    (xpal : List pal_entry_t) (res : load_result)
    (hrun : load_bmp_heap K hp dst fn fopen_rb width height xpal = exec.done res)
    (hfail : res.rval ≠ 0) :
    (¬ past_palette K hp dst fn fopen_rb width height ∧ res.xpal = xpal) ∨
    (past_palette K hp dst fn fopen_rb width height ∧ ∃ s, fopen_rb = some s ∧
      (file_header s).bmi.num_colors ≤ xpal.length ∧
      res.xpal = stored_palette K s xpal ∧ (res.rval = -3 ∨ res.rval = -5) ∧
      (res.rval = -5 ↔ (hp.data = false ∨ hp.buf = false))) := by
  rcases load_bmp_heap_cases K hp dst fn fopen_rb width height xpal res hrun with
    ⟨e, _, hn⟩ | ⟨hpast, s, xpal1, hs, hpal, himg⟩
  · exact Or.inl ⟨hn, e⟩
  · right
    obtain ⟨hx, hr, h5⟩ := load_bmp_image_heap_cases _ _ _ _ _ _ _ _ himg
    have hl := pal_of_bytes_length K (file_header s).bmi.num_colors (file_pal s)
    have hn : (file_header s).bmi.num_colors ≤ xpal.length := by
      rcases load_palette_bound _ _ _ _ _ hpal with c | c
      · omega
      · omega
    have e := load_palette_eq (pal_of_bytes K (file_header s).bmi.num_colors (file_pal s))
      xpal (by rw [hl]; exact hn)
    rw [hl] at e
    have hpal2 : load_palette (pal_of_bytes K (file_header s).bmi.num_colors (file_pal s))
        (file_header s).bmi.num_colors 0 xpal = exec.done xpal1 := hpal
    rw [e] at hpal2
    refine ⟨hpast, s, hs, hn, ?_, by omega, h5⟩
    rw [hx, ← exec.done.inj hpal2, stored_palette]

end EaPak

/-! ## Claims -/

namespace EaPak

set_option maxRecDepth 100000 in
/-- C1 (failing input). Round trip: for the 46341 x 46341 image of zero bytes and a 256-entry
palette, inside the range `1 ≤ W, H ≤ 65535` of the claim, `save_bmp` writes the file, but
`load_bmp` run on that file does not return 0 with the pixels: it multiplies `lw * lh` in
`int`, and 46341 * 46341 = 2147488281 exceeds `INT_MAX`. Below `INT_MAX` the round trip holds
(`roundtrip_below_int_max`). -/
theorem roundtrip_overflow_46341 :
    ∃ file, save_bmp bmp_h_bm (some "out.bmp") true
        (some ⟨46341 * 46341, 0, some (List.replicate (46341 * 46341) 0)⟩) 46341 46341 pal_ramp
        = exec.done ⟨0, file⟩ ∧
      load_bmp bmp_h_bm (some ⟨0, 0, none⟩) (some "out.bmp") (some file) (some 0) (some 0)
        pal_zero = exec.int_overflow :=
  roundtrip_above_int_max bmp_h_bm "out.bmp" "out.bmp" 0 (List.replicate (46341 * 46341) 0)
    46341 46341 pal_ramp pal_zero ⟨0, 0, none⟩ 0 0 (by decide) (by decide) (by decide)
    (by decide) (by decide) (List.length_replicate _ _) (by decide) (by decide)

/-- C2 (amended). Reader row order: for every file `s` that `load_bmp` accepts, with `W` the
declared width reduced modulo 65536, `H` the absolute value of the declared height reduced
modulo 65536 (the declared width and the true height whenever these are below 65536) and `S`
the stride of `W`, the returned buffer has exactly `W * H` bytes; if the declared height is
positive, output row `r` is the first `W` bytes of on-disk row `H - 1 - r`, if it is negative,
the first `W` bytes of on-disk row `r`, the on-disk rows being `S` bytes apart; and the buffer
is the concatenation of these `W`-byte rows, so no padding byte of the file appears in it. -/
theorem reader_row_order (K : bmp_h) (dst : Option memstream_buf_t) (fn : Option String)
    (s : List Nat) (width height : Option Nat) (xpal : List pal_entry_t) (res : load_result)
    (h : load_bmp K dst fn (some s) width height xpal = exec.done res) (h0 : res.rval = 0) :
    ∃ data W H S, W = hdr_lw (file_header s) ∧ H = hdr_lh (file_header s) ∧ S = stride_of W ∧
      (W : Int) = (file_header s).bmi.image_width % 65536 ∧
      H = (file_header s).bmi.image_height.natAbs % 65536 ∧
      (0 ≤ (file_header s).bmi.image_width → (file_header s).bmi.image_width < 65536 →
        (W : Int) = (file_header s).bmi.image_width) ∧
      ((file_header s).bmi.image_height.natAbs < 65536 →
        H = (file_header s).bmi.image_height.natAbs) ∧
      res.dst = some ⟨W * H, 0, some data⟩ ∧ res.width = some W ∧ res.height = some H ∧
      data.length = W * H ∧ H * S ≤ (file_pixels s).length ∧
      (0 < (file_header s).bmi.image_height → ∀ r, r < H →
        (data.drop (r * W)).take W = ((file_pixels s).drop ((H - 1 - r) * S)).take W) ∧
      ((file_header s).bmi.image_height < 0 → ∀ r, r < H →
        (data.drop (r * W)).take W = ((file_pixels s).drop (r * S)).take W) ∧
      data = (List.range H).flatMap (fun r => ((file_pixels s).drop
        ((if (file_header s).bmi.image_height < 0 then r else H - 1 - r) * S)).take W) := by
  obtain ⟨_, _, _, _, _, _, hrows, _, xpal1, _, hres⟩ :=
    load_bmp_accept K dst fn s width height xpal res h h0
  have hS := stride_of_ge _ (hdr_lw_le (file_header s))
  refine ⟨_, hdr_lw (file_header s), hdr_lh (file_header s), _, rfl, rfl, rfl, ?_, rfl, ?_, ?_,
    ?_, ?_, ?_,
    image_of_rows_length _ _ _ _ (hdr_flip (file_header s)) hS hrows, hrows, ?_, ?_, ?_⟩
  · rw [hdr_lw]; omega
  · intro h1 h2
    rw [hdr_lw]; omega
  · intro h1
    rw [hdr_lh]; omega
  · rw [hres]
  · rw [hres]
  · rw [hres]
  · intro hpos r hr
    have hf : hdr_flip (file_header s) = false := by
      simp only [hdr_flip, decide_eq_false_iff_not]; omega
    have := image_of_rows_row (file_pixels s) _ _ _ (hdr_flip (file_header s)) hS hrows r hr
    rw [hf] at this ⊢
    simpa [mem_row] using this
  · intro hneg r hr
    have hf : hdr_flip (file_header s) = true := by
      simp only [hdr_flip, decide_eq_true_eq]; exact hneg
    have := image_of_rows_row (file_pixels s) _ _ _ (hdr_flip (file_header s)) hS hrows r hr
    rw [hf] at this ⊢
    simpa [mem_row] using this
  · rw [image_of_rows_eq]
    congr 1
    funext r
    simp only [mem_row, hdr_flip, decide_eq_true_eq]

set_option maxRecDepth 100000 in
theorem reader_row_order_witness :
    load_bmp bmp_h_bm (some ⟨0, 0, none⟩) (some "in.bmp") (some file_2x2) (some 0) (some 0)
      pal_zero = exec.done res_2x2 ∧ res_2x2.rval = 0 ∧
    (∃ data W H S, W = hdr_lw (file_header file_2x2) ∧ H = hdr_lh (file_header file_2x2) ∧
      S = stride_of W ∧
      (W : Int) = (file_header file_2x2).bmi.image_width % 65536 ∧
      H = (file_header file_2x2).bmi.image_height.natAbs % 65536 ∧
      (0 ≤ (file_header file_2x2).bmi.image_width →
        (file_header file_2x2).bmi.image_width < 65536 →
        (W : Int) = (file_header file_2x2).bmi.image_width) ∧
      ((file_header file_2x2).bmi.image_height.natAbs < 65536 →
        H = (file_header file_2x2).bmi.image_height.natAbs) ∧
      res_2x2.dst = some ⟨W * H, 0, some data⟩ ∧ res_2x2.width = some W ∧
      res_2x2.height = some H ∧
      data.length = W * H ∧ H * S ≤ (file_pixels file_2x2).length ∧
      (0 < (file_header file_2x2).bmi.image_height → ∀ r, r < H →
        (data.drop (r * W)).take W = ((file_pixels file_2x2).drop ((H - 1 - r) * S)).take W) ∧
      ((file_header file_2x2).bmi.image_height < 0 → ∀ r, r < H →
        (data.drop (r * W)).take W = ((file_pixels file_2x2).drop (r * S)).take W) ∧
      data = (List.range H).flatMap (fun r => ((file_pixels file_2x2).drop
        ((if (file_header file_2x2).bmi.image_height < 0 then r else H - 1 - r) * S)).take W)) ∧
    load_bmp bmp_h_bm (some ⟨0, 0, none⟩) (some "in.bmp") (some file_2x2_flip) (some 0) (some 0)
      pal_zero = exec.done res_2x2 :=
  ⟨by rfl, rfl,
    reader_row_order bmp_h_bm (some ⟨0, 0, none⟩) (some "in.bmp") file_2x2 (some 0) (some 0)
      pal_zero res_2x2 (by rfl) rfl,
    by rfl⟩

set_option maxRecDepth 100000 in
/-- C2 (counterexample). The file `file_wide` declares width 65538 and height 2 and is
accepted, and the file `file_tall` declares width 2 and height 65537 and is accepted, but the
buffers `load_bmp` returns do not have declared width times true height bytes: they have 4 and
2 bytes. The rows of `file_wide` are read 4 bytes apart, not at the stride 65540 of its
declared width. -/
theorem reader_row_order_counterexample :
    (file_header file_wide).bmi.image_width = 65538 ∧
    (file_header file_wide).bmi.image_height = 2 ∧
    ¬ (∀ res, load_bmp bmp_h_bm (some ⟨0, 0, none⟩) (some "in.bmp") (some file_wide) (some 0)
        (some 0) pal_zero = exec.done res → res.rval = 0 →
        ∃ data, res.dst = some ⟨65538 * 2, 0, some data⟩ ∧ data.length = 65538 * 2) ∧
    (file_header file_tall).bmi.image_width = 2 ∧
    (file_header file_tall).bmi.image_height = 65537 ∧
    ¬ (∀ res, load_bmp bmp_h_bm (some ⟨0, 0, none⟩) (some "in.bmp") (some file_tall) (some 0)
        (some 0) pal_zero = exec.done res → res.rval = 0 →
        ∃ data, res.dst = some ⟨2 * 65537, 0, some data⟩ ∧ data.length = 2 * 65537) := by
  refine ⟨by decide, by decide, ?_, by decide, by decide, ?_⟩
  · intro hall
    obtain ⟨data, h1, _⟩ := hall res_2x2 load_wide_eval rfl
    simp [res_2x2] at h1
  · intro hall
    obtain ⟨data, h1, _⟩ := hall res_tall load_tall_eval rfl
    simp [res_tall] at h1

/-- C3. Writer row order: for every width `W ≥ 1` (a `uint16_t`), every height `H` and every
pixel buffer of exactly `W * H` bytes, `save_bmp` succeeds and what it writes after header and
palette is `H` rows of `stride` bytes each, the first `W` bytes of on-disk row `k` being
in-memory row `H - 1 - k`. -/
theorem writer_row_order (K : bmp_h) (fn : String) (pos : Nat) (data : List Nat) (W H : Nat)
    (xpal : List pal_entry_t) (hW1 : 1 ≤ W) (hW : W ≤ 65535) (hd : data.length = W * H)
    (hx : xpal.length = 256) :
    ∃ file, save_bmp K (some fn) true (some ⟨W * H, pos, some data⟩) W H xpal
        = exec.done ⟨0, file⟩ ∧
      (file.drop (HDRBUFSZ + PALENTSZ * 256)).length = H * stride_of W ∧
      ∀ k, k < H →
        ((file.drop (HDRBUFSZ + PALENTSZ * 256)).drop (k * stride_of W)).take W
          = (data.drop ((H - 1 - k) * W)).take W := by
  have hS := stride_of_ge W hW
  have hc : 0 + H * W ≤ data.length := by rw [hd, Nat.mul_comm]; omega
  have hu := disk_rows_uniform data W (stride_of W) 0 H hS hc
  refine ⟨bmp_file K data W H 0 xpal,
    save_bmp_eq K fn (W * H) pos data W H 0 xpal hW1 hW (by rw [Nat.mul_comm]; omega)
      (by omega) hx, ?_, ?_⟩
  · rw [bmp_file_drop K data W H 0 xpal hx, flatten_uniform_length _ _ hu, disk_rows_length]
  · intro k hk
    have hrow := flatten_uniform_row (stride_of W) _ hu k (by rw [disk_rows_length]; exact hk)
    have hk2 : 0 + (H - 1 - k) * W + W ≤ data.length := by
      have : (H - 1 - k + 1) * W ≤ H * W := Nat.mul_le_mul_right W (by omega)
      rw [Nat.succ_mul] at this
      omega
    have hl := mem_row_length data W (0 + (H - 1 - k) * W) hk2
    rw [bmp_file_drop K data W H 0 xpal hx]
    have e : List.take W (List.drop (k * stride_of W) (disk_rows data W (stride_of W) 0 H).flatten)
        = List.take W (List.take (stride_of W)
            (List.drop (k * stride_of W) (disk_rows data W (stride_of W) 0 H).flatten)) := by
      rw [List.take_take, Nat.min_eq_left hS]
    rw [e, hrow, disk_rows_getD _ _ _ _ _ _ hk, pad_row, List.take_append_of_le_length (by omega),
      mem_row, List.take_take, Nat.min_self, Nat.zero_add]

set_option maxRecDepth 100000 in
theorem writer_row_order_witness :
    1 ≤ 2 ∧ 2 ≤ 65535 ∧ [1, 2, 3, 4].length = 2 * 2 ∧ pal_ramp.length = 256 ∧
    (∃ file, save_bmp bmp_h_bm (some "out.bmp") true (some ⟨2 * 2, 0, some [1, 2, 3, 4]⟩) 2 2
        pal_ramp = exec.done ⟨0, file⟩ ∧
      (file.drop (HDRBUFSZ + PALENTSZ * 256)).length = 2 * stride_of 2 ∧
      ∀ k, k < 2 →
        ((file.drop (HDRBUFSZ + PALENTSZ * 256)).drop (k * stride_of 2)).take 2
          = ([1, 2, 3, 4].drop ((2 - 1 - k) * 2)).take 2) ∧
    save_bmp bmp_h_bm (some "out.bmp") true (some ⟨4, 0, some [1, 2, 3, 4]⟩) 2 2 pal_ramp
      = exec.done ⟨0, file_out_2x2⟩ ∧
    file_out_2x2.drop (HDRBUFSZ + PALENTSZ * 256) = [3, 4, 0, 0] ++ [1, 2, 0, 0] :=
  ⟨by decide, by decide, by decide, by decide,
    writer_row_order bmp_h_bm "out.bmp" 0 [1, 2, 3, 4] 2 2 pal_ramp (by decide) (by decide)
      (by decide) (by decide),
    save_2x2_eval,
    (bmp_file_drop bmp_h_bm [1, 2, 3, 4] 2 2 0 pal_ramp (by decide)).trans (by decide)⟩

/-- C4. Zero padding: for every width, height, pixel buffer and palette on which
`save_bmp` succeeds, the file consists of signature, header, 1024 palette bytes and `H` pixel
rows of `stride` bytes, and in every pixel row the bytes at positions `W .. stride - 1` are
zero; the scanline loop establishes this for every content of its scratch buffer
(`save_rows_pad`), so neither pixels nor palette nor header bytes leak into the padding. -/
theorem zero_padding (K : bmp_h) (fn : Option String) (ok : Bool) (src : Option memstream_buf_t)
    (W H : Nat) (xpal : List pal_entry_t) (file : List Nat)
    (h : save_bmp K fn ok src W H xpal = exec.done ⟨0, file⟩) :
    file.length = HDRBUFSZ + PALENTSZ * 256 + H * stride_of W ∧
    ∀ k, k < H → ∀ j, W ≤ j → j < stride_of W →
      file[HDRBUFSZ + PALENTSZ * 256 + k * stride_of W + j]? = some 0 := by
  obtain ⟨s, data, pal, buf, _, _, hpal, hbuf, hrows⟩ := save_bmp_inv K fn ok src W H xpal file h
  have hl := save_palette_length xpal 256 0 _ pal hpal
  obtain ⟨rows, r1, r2, r3⟩ := save_rows_pad data W (stride_of W) H _ buf _ file (by omega) hrows
  have hlen : (le_bytes SIGSZ K.BMPFILESIG ++ header_bytes (save_header K W H) ++
      pal.flatMap (pal_entry_bytes K)).length = HDRBUFSZ + PALENTSZ * 256 := by
    simp only [List.length_append, le_bytes_length, header_bytes_length, pal_bytes_length, hl,
      List.length_replicate]
    rfl
  refine ⟨by rw [r1, List.length_append, hlen, r2], ?_⟩
  intro k hk j hj1 hj2
  rw [r1, List.getElem?_append_right (by rw [hlen]; omega), hlen]
  have e : HDRBUFSZ + PALENTSZ * 256 + k * stride_of W + j - (HDRBUFSZ + PALENTSZ * 256)
      = k * stride_of W + j := by omega
  rw [e]
  exact r3 k hk j hj1 hj2

theorem zero_padding_witness :
    save_bmp bmp_h_bm (some "out.bmp") true (some ⟨4, 0, some [1, 2, 3, 4]⟩) 2 2 pal_ramp
      = exec.done ⟨0, file_out_2x2⟩ ∧
    file_out_2x2.length = HDRBUFSZ + PALENTSZ * 256 + 2 * stride_of 2 ∧
    ∀ k, k < 2 → ∀ j, 2 ≤ j → j < stride_of 2 →
      file_out_2x2[HDRBUFSZ + PALENTSZ * 256 + k * stride_of 2 + j]? = some 0 :=
  ⟨save_2x2_eval,
    zero_padding bmp_h_bm (some "out.bmp") true (some ⟨4, 0, some [1, 2, 3, 4]⟩) 2 2 pal_ramp
      file_out_2x2 save_2x2_eval⟩

/-- C5. Stride invariant: for every 16-bit unsigned width `W`, the stride `(W + 3) & ~3` of
`save_bmp` and `load_bmp` is at least `W`, is a multiple of 4, exceeds `W` by less than 4, is
the least multiple of 4 that is at least `W`, and the masked `int` value is stored in the
`uint32_t` without wraparound. -/
theorem stride_invariant (W : Nat) (hW : W ≤ 65535) :
    W ≤ stride_of W ∧ stride_of W % 4 = 0 ∧ stride_of W - W < 4 ∧
    (∀ m, m % 4 = 0 → W ≤ m → stride_of W ≤ m) ∧
    (W + 3) &&& 0xFFFFFFFC < 4294967296 ∧ stride_of W = (W + 3) &&& 0xFFFFFFFC := by
  have e := stride_of_eq W hW
  have m := land_mask (W + 3) (by omega)
  refine ⟨by omega, by omega, by omega, ?_, by omega, ?_⟩
  · intro k hk hle; omega
  · rw [e, m]

theorem stride_invariant_witness :
    (65535 : Nat) ≤ 65535 ∧ 65535 ≤ stride_of 65535 ∧ stride_of 65535 % 4 = 0 ∧
    stride_of 65535 - 65535 < 4 ∧ stride_of 65535 = 65536 ∧ stride_of 0 = 0 :=
  ⟨by decide, (stride_invariant 65535 (by decide)).1, (stride_invariant 65535 (by decide)).2.1,
   (stride_invariant 65535 (by decide)).2.2.1, by decide, by decide⟩

/-- C6. Palette truncation: for every file that `load_bmp` accepts and that declares
`num_colors = n` with `n ≤ 256`, the 256-entry palette destination keeps 256 entries; entry
`i < n` holds the three colour channels of the `i`-th 4-byte palette entry of the file, whose
fourth byte is not used; every entry `i ≥ n` is what it was before the call. -/
theorem palette_truncation (K : bmp_h) (dst : Option memstream_buf_t) (fn : Option String)
    (s : List Nat) (width height : Option Nat) (xpal : List pal_entry_t) (res : load_result)
    (h : load_bmp K dst fn (some s) width height xpal = exec.done res) (h0 : res.rval = 0)
    (hn : (file_header s).bmi.num_colors ≤ 256) (hx : xpal.length = 256) :
    res.xpal.length = 256 ∧
    (∀ i, i < (file_header s).bmi.num_colors → ∃ b0 b1 b2 b3,
      (s.drop (HDRBUFSZ + PALENTSZ * i)).take PALENTSZ = [b0, b1, b2, b3] ∧
      res.xpal[i]? = some (if K.rgb_order then ⟨b0, b1, b2⟩ else ⟨b2, b1, b0⟩)) ∧
    (∀ i, (file_header s).bmi.num_colors ≤ i → res.xpal[i]? = xpal[i]?) := by
  obtain ⟨_, _, _, hlen, _, _, _, _, xpal1, hpal, hres⟩ :=
    load_bmp_accept K dst fn s width height xpal res h h0
  have hl := pal_of_bytes_length K (file_header s).bmi.num_colors (file_pal s)
  have key := load_palette_eq (pal_of_bytes K (file_header s).bmi.num_colors (file_pal s)) xpal
    (by rw [hl, hx]; exact hn)
  rw [hl, hpal] at key
  have hx1 : res.xpal = xpal1 := by rw [hres]
  rw [hx1, exec.done.inj key]
  refine ⟨by simp [hl, hx]; omega, ?_, ?_⟩
  · intro i hi
    have hsl : ((s.drop (HDRBUFSZ + PALENTSZ * i)).take PALENTSZ).length = 4 := by
      simp only [List.length_take, List.length_drop]
      simp only [PALENTSZ, HDRBUFSZ, SIGSZ, HDRSZ, BMISZ] at hlen ⊢
      omega
    obtain ⟨b0, b1, b2, b3, hb⟩ := four_bytes _ hsl
    refine ⟨b0, b1, b2, b3, hb, ?_⟩
    have hfp : ((file_pal s).drop (PALENTSZ * i)).take PALENTSZ
        = (s.drop (HDRBUFSZ + PALENTSZ * i)).take PALENTSZ := by
      rw [file_pal, List.drop_take, List.take_take, List.drop_drop]
      simp only [PALENTSZ, HDRBUFSZ, SIGSZ, HDRSZ, BMISZ] at hlen ⊢
      congr 1
      omega
    rw [List.getElem?_append_left (by simp [hl]; exact hi), List.getElem?_map,
      pal_of_bytes_get K _ _ i hi, hfp, hb]
    simp only [Option.map_some', pal_entry_of_bytes, rgb_of_bmp]
    cases K.rgb_order <;> simp
  · intro i hi
    rw [List.getElem?_append_right (by simp [hl]; exact hi)]
    simp only [List.length_map, hl, List.getElem?_drop]
    congr 1
    omega

set_option maxRecDepth 100000 in
theorem palette_truncation_witness :
    load_bmp bmp_h_bm (some ⟨0, 0, none⟩) (some "in.bmp") (some file_16) (some 0) (some 0)
      pal_zero = exec.done res_16 ∧ res_16.rval = 0 ∧
    (file_header file_16).bmi.num_colors ≤ 256 ∧ pal_zero.length = 256 ∧
    res_16.xpal.length = 256 ∧
    (∀ i, i < (file_header file_16).bmi.num_colors → ∃ b0 b1 b2 b3,
      (file_16.drop (HDRBUFSZ + PALENTSZ * i)).take PALENTSZ = [b0, b1, b2, b3] ∧
      res_16.xpal[i]? = some (if bmp_h_bm.rgb_order then ⟨b0, b1, b2⟩ else ⟨b2, b1, b0⟩)) ∧
    (∀ i, (file_header file_16).bmi.num_colors ≤ i → res_16.xpal[i]? = pal_zero[i]?) :=
  ⟨by rfl, rfl, by decide, by decide,
    palette_truncation bmp_h_bm (some ⟨0, 0, none⟩) (some "in.bmp") file_16 (some 0) (some 0)
      pal_zero res_16 (by rfl) rfl (by decide) (by decide)⟩

/-- C7. Wrong magic is rejected: for every file of at least 2 bytes whose first two bytes are
not the magic signature, `load_bmp` returns -4 whatever the remaining bytes are, and the
palette destination, `*width`, `*height` and `*dst` are what they were before the call. -/
theorem wrong_magic_rejected (K : bmp_h) (d : memstream_buf_t) (fn : String) (s : List Nat)
    (w h : Nat) (xpal : List pal_entry_t) (hlen : SIGSZ ≤ s.length)
    (hsig : le_val (s.take SIGSZ) ≠ K.BMPFILESIG) :
    load_bmp K (some d) (some fn) (some s) (some w) (some h) xpal
      = exec.done ⟨-4, some d, some w, some h, xpal⟩ := by
  have n2 : SIGSZ ≠ 0 := by decide
  have c1 : (fread SIGSZ 1 s).1 = 1 := (fread_count SIGSZ 1 s n2).mpr (by omega)
  unfold load_bmp
  simp only [fread_data SIGSZ 1 s n2, c1, Nat.mul_one, ne_eq, not_true_eq_false, if_false,
    Ne.symm hsig, not_false_eq_true, if_true]

set_option maxRecDepth 100000 in
theorem wrong_magic_rejected_witness :
    SIGSZ ≤ (0x42 :: 0x4E :: file_2x2.drop 2).length ∧
    le_val ((0x42 :: 0x4E :: file_2x2.drop 2).take SIGSZ) ≠ bmp_h_bm.BMPFILESIG ∧
    load_bmp bmp_h_bm (some ⟨7, 1, some [5]⟩) (some "in.bmp")
      (some (0x42 :: 0x4E :: file_2x2.drop 2)) (some 11) (some 12) pal_zero
      = exec.done ⟨-4, some ⟨7, 1, some [5]⟩, some 11, some 12, pal_zero⟩ :=
  ⟨by decide, by decide,
    wrong_magic_rejected bmp_h_bm ⟨7, 1, some [5]⟩ "in.bmp" (0x42 :: 0x4E :: file_2x2.drop 2)
      11 12 pal_zero (by decide) (by decide)⟩

/-- C8. Unsupported encoding is rejected: for every file with the magic signature and a
complete header that passes the malformed-header checks, if `bits_per_pixel` is not 8 or
`compression` is not 0, `load_bmp` returns -7, which is not the malformed-header code -6, and
nothing is stored through the pointer arguments, the palette destination included. -/
theorem unsupported_encoding_rejected (K : bmp_h) (d : memstream_buf_t) (fn : String)
    (s : List Nat) (w h : Nat) (xpal : List pal_entry_t) (hlen : HDRBUFSZ ≤ s.length)
    (hsig : le_val (s.take SIGSZ) = K.BMPFILESIG)
    (hplanes : (file_header s).bmi.num_planes = 1)
    (hsize : (file_header s).bmi.header_size = BMISZ) (hres : (file_header s).dib.RES = 0)
    (hbad : (file_header s).bmi.bits_per_pixel ≠ 8 ∨ (file_header s).bmi.compression ≠ 0) :
    load_bmp K (some d) (some fn) (some s) (some w) (some h) xpal
      = exec.done ⟨-7, some d, some w, some h, xpal⟩ ∧ (-7 : Int) ≠ -6 := by
  refine ⟨?_, by decide⟩
  rw [load_bmp_unfold K d fn s w h xpal hlen hsig, load_bmp_body]
  have g1 : ¬ (1 ≠ (file_header s).bmi.num_planes ∨ BMISZ ≠ (file_header s).bmi.header_size ∨
      0 ≠ (file_header s).dib.RES) := by omega
  have g2 : 8 ≠ (file_header s).bmi.bits_per_pixel ∨ 0 ≠ (file_header s).bmi.compression := by
    omega
  rw [if_neg g1, if_pos g2]

set_option maxRecDepth 100000 in
theorem unsupported_encoding_rejected_witness :
    (HDRBUFSZ ≤ file_bpp4.length ∧ le_val (file_bpp4.take SIGSZ) = bmp_h_bm.BMPFILESIG ∧
      (file_header file_bpp4).bmi.num_planes = 1 ∧
      (file_header file_bpp4).bmi.header_size = BMISZ ∧ (file_header file_bpp4).dib.RES = 0 ∧
      (file_header file_bpp4).bmi.bits_per_pixel = 4 ∧
      load_bmp bmp_h_bm (some ⟨7, 1, some [5]⟩) (some "in.bmp") (some file_bpp4) (some 11)
        (some 12) pal_zero = exec.done ⟨-7, some ⟨7, 1, some [5]⟩, some 11, some 12, pal_zero⟩) ∧
    (HDRBUFSZ ≤ file_rle.length ∧ le_val (file_rle.take SIGSZ) = bmp_h_bm.BMPFILESIG ∧
      (file_header file_rle).bmi.num_planes = 1 ∧
      (file_header file_rle).bmi.header_size = BMISZ ∧ (file_header file_rle).dib.RES = 0 ∧
      (file_header file_rle).bmi.compression = 1 ∧
      load_bmp bmp_h_bm (some ⟨7, 1, some [5]⟩) (some "in.bmp") (some file_rle) (some 11)
        (some 12) pal_zero = exec.done ⟨-7, some ⟨7, 1, some [5]⟩, some 11, some 12, pal_zero⟩) :=
  ⟨⟨by decide, by decide, by decide, by decide, by decide, by decide,
      (unsupported_encoding_rejected bmp_h_bm ⟨7, 1, some [5]⟩ "in.bmp" file_bpp4 11 12 pal_zero
        (by decide) (by decide) (by decide) (by decide) (by decide) (by decide)).1⟩,
    ⟨by decide, by decide, by decide, by decide, by decide, by decide,
      (unsupported_encoding_rejected bmp_h_bm ⟨7, 1, some [5]⟩ "in.bmp" file_rle 11 12 pal_zero
        (by decide) (by decide) (by decide) (by decide) (by decide) (by decide)).1⟩⟩

/-- C9. Malformed header is rejected, and first: for every file with the magic signature and
a complete header, if the plane count is not 1 or the declared info block size is not the
supported constant or the reserved field is not 0, `load_bmp` returns -6, whatever
`bits_per_pixel` and `compression` are; nothing is stored through the pointer arguments. -/
theorem malformed_header_rejected (K : bmp_h) (d : memstream_buf_t) (fn : String) (s : List Nat)
    (w h : Nat) (xpal : List pal_entry_t) (hlen : HDRBUFSZ ≤ s.length)
    (hsig : le_val (s.take SIGSZ) = K.BMPFILESIG)
    (hbad : (file_header s).bmi.num_planes ≠ 1 ∨ (file_header s).bmi.header_size ≠ BMISZ ∨
      (file_header s).dib.RES ≠ 0) :
    load_bmp K (some d) (some fn) (some s) (some w) (some h) xpal
      = exec.done ⟨-6, some d, some w, some h, xpal⟩ := by
  rw [load_bmp_unfold K d fn s w h xpal hlen hsig, load_bmp_body]
  have g : 1 ≠ (file_header s).bmi.num_planes ∨ BMISZ ≠ (file_header s).bmi.header_size ∨
      0 ≠ (file_header s).dib.RES := by omega
  rw [if_pos g]

set_option maxRecDepth 100000 in
theorem malformed_header_rejected_witness :
    HDRBUFSZ ≤ file_planes2.length ∧ le_val (file_planes2.take SIGSZ) = bmp_h_bm.BMPFILESIG ∧
    ((file_header file_planes2).bmi.num_planes ≠ 1 ∨
      (file_header file_planes2).bmi.header_size ≠ BMISZ ∨
      (file_header file_planes2).dib.RES ≠ 0) ∧
    (file_header file_planes2).bmi.bits_per_pixel ≠ 8 ∧
    (file_header file_planes2).bmi.compression ≠ 0 ∧
    load_bmp bmp_h_bm (some ⟨7, 1, some [5]⟩) (some "in.bmp") (some file_planes2) (some 11)
      (some 12) pal_zero = exec.done ⟨-6, some ⟨7, 1, some [5]⟩, some 11, some 12, pal_zero⟩ :=
  ⟨by decide, by decide, by decide, by decide, by decide,
    malformed_header_rejected bmp_h_bm ⟨7, 1, some [5]⟩ "in.bmp" file_planes2 11 12 pal_zero
      (by decide) (by decide) (by decide)⟩

set_option maxRecDepth 100000 in
/-- C10 (failing inputs). Truncated input: `file_huge` has the magic signature and a header
that passes all checks and ends before its pixel rows, yet `load_bmp` does not return -3: it
overflows `int` computing `lw * lh` = 65535 * 65535. `file_pal257` is truncated in the same way
and declares 257 palette entries: `load_bmp` stores the 257th outside the 256-entry palette
destination before it reads any pixel row. Without these two defects a truncated file yields
-3 (`truncated_palette`, `truncated_rows`). -/
theorem truncated_input_undefined :
    (HDRBUFSZ ≤ file_huge.length ∧ le_val (file_huge.take SIGSZ) = bmp_h_bm.BMPFILESIG ∧
      hdr_valid (file_header file_huge) ∧
      (file_pixels file_huge).length
        < hdr_lh (file_header file_huge) * stride_of (hdr_lw (file_header file_huge)) ∧
      load_bmp bmp_h_bm (some ⟨0, 0, none⟩) (some "in.bmp") (some file_huge) (some 0) (some 0)
        pal_zero = exec.int_overflow) ∧
    (HDRBUFSZ ≤ file_pal257.length ∧ le_val (file_pal257.take SIGSZ) = bmp_h_bm.BMPFILESIG ∧
      hdr_valid (file_header file_pal257) ∧
      (file_pixels file_pal257).length
        < hdr_lh (file_header file_pal257) * stride_of (hdr_lw (file_header file_pal257)) ∧
      load_bmp bmp_h_bm (some ⟨0, 0, none⟩) (some "in.bmp") (some file_pal257) (some 0)
        (some 0) pal_zero = exec.out_of_bounds) :=
  ⟨⟨by decide, by decide, ⟨by decide, by decide, by decide, by decide, by decide⟩, by decide,
      by rfl⟩,
    ⟨by decide, by decide, ⟨by decide, by decide, by decide, by decide, by decide⟩, by decide,
      by rfl⟩⟩

/-- C11. Writer header fields: for every `uint16_t` width `W` and height `H`, pixel buffer and
palette on which `save_bmp` succeeds, the file starts with the 2 bytes of the magic signature,
followed by a header with reserved = 0, pixel offset = `HDRBUFSZ` + 1024, info block size =
`BMISZ`, width = `W`, declared height = `H` (not negative), planes = 1, bits per pixel = 8,
compression = 0, bitmap size = stride * `H`, both resolutions = `BMP96DPI`, 256 colours
and 0 important colours. -/
theorem writer_header_fields (K : bmp_h) (fn : Option String) (ok : Bool)
    (src : Option memstream_buf_t) (W H : Nat) (xpal : List pal_entry_t) (file : List Nat)
    (hsig : K.BMPFILESIG < 65536) (hdpi : K.BMP96DPI < 4294967296) (hW : W ≤ 65535)
    (hH : H ≤ 65535) (h : save_bmp K fn ok src W H xpal = exec.done ⟨0, file⟩) :
    le_val (file.take SIGSZ) = K.BMPFILESIG ∧
    (file_header file).dib.RES = 0 ∧
    (file_header file).dib.image_offset = HDRBUFSZ + 1024 ∧
    (file_header file).bmi.header_size = BMISZ ∧
    (file_header file).bmi.image_width = W ∧
    (file_header file).bmi.image_height = H ∧ 0 ≤ (file_header file).bmi.image_height ∧
    (file_header file).bmi.num_planes = 1 ∧
    (file_header file).bmi.bits_per_pixel = 8 ∧
    (file_header file).bmi.compression = 0 ∧
    (file_header file).bmi.bitmap_size = stride_of W * H ∧
    (file_header file).bmi.horiz_res = K.BMP96DPI ∧
    (file_header file).bmi.vert_res = K.BMP96DPI ∧
    (file_header file).bmi.num_colors = 256 ∧
    (file_header file).bmi.important_colors = 0 := by
  obtain ⟨_, rows, _, hf⟩ := save_bmp_success K fn ok src W H xpal file h
  have hsl : (le_bytes SIGSZ K.BMPFILESIG).length = SIGSZ := le_bytes_length _ _
  have hhdr : file_header file = save_header K W H := by
    rw [hf, List.append_assoc]
    exact file_header_saved K W H _ hW hH
  have hm := stride_mul_lt W H hW hH
  have htake : file.take SIGSZ = le_bytes SIGSZ K.BMPFILESIG := by
    rw [hf, List.append_assoc, List.append_assoc, List.take_left' hsl]
  rw [hhdr, htake]
  refine ⟨le_val_2 _ hsig, rfl, rfl, rfl, rfl, rfl, ?_, rfl, rfl, rfl, ?_, ?_, ?_, rfl, rfl⟩
  · simp only [save_header]; omega
  · simp only [save_header]; omega
  · simp only [save_header]; omega
  · simp only [save_header]; omega

theorem writer_header_fields_witness :
    bmp_h_bm.BMPFILESIG < 65536 ∧ bmp_h_bm.BMP96DPI < 4294967296 ∧ 2 ≤ 65535 ∧
    save_bmp bmp_h_bm (some "out.bmp") true (some ⟨4, 0, some [1, 2, 3, 4]⟩) 2 2 pal_ramp
      = exec.done ⟨0, file_out_2x2⟩ ∧
    (le_val (file_out_2x2.take SIGSZ) = bmp_h_bm.BMPFILESIG ∧
      (file_header file_out_2x2).dib.RES = 0 ∧
      (file_header file_out_2x2).dib.image_offset = HDRBUFSZ + 1024 ∧
      (file_header file_out_2x2).bmi.header_size = BMISZ ∧
      (file_header file_out_2x2).bmi.image_width = (2 : Nat) ∧
      (file_header file_out_2x2).bmi.image_height = (2 : Nat) ∧
      0 ≤ (file_header file_out_2x2).bmi.image_height ∧
      (file_header file_out_2x2).bmi.num_planes = 1 ∧
      (file_header file_out_2x2).bmi.bits_per_pixel = 8 ∧
      (file_header file_out_2x2).bmi.compression = 0 ∧
      (file_header file_out_2x2).bmi.bitmap_size = stride_of 2 * 2 ∧
      (file_header file_out_2x2).bmi.horiz_res = bmp_h_bm.BMP96DPI ∧
      (file_header file_out_2x2).bmi.vert_res = bmp_h_bm.BMP96DPI ∧
      (file_header file_out_2x2).bmi.num_colors = 256 ∧
      (file_header file_out_2x2).bmi.important_colors = 0) :=
  ⟨by decide, by decide, by decide, save_2x2_eval,
    writer_header_fields bmp_h_bm (some "out.bmp") true (some ⟨4, 0, some [1, 2, 3, 4]⟩) 2 2
      pal_ramp file_out_2x2 (by decide) (by decide) (by decide) (by decide) save_2x2_eval⟩

/-- C18. Writer palette table: for every palette and every successful `save_bmp` call, the
palette has at least 256 entries and the 1024 bytes that follow signature and header are 256
four-byte entries in index order: entry `i` holds the red, green and blue values of `xpal[i]`
(in the channel order of `bmp_palette_entry_t`) and a fourth byte equal to 0. -/
theorem writer_palette_table (K : bmp_h) (fn : Option String) (ok : Bool)
    (src : Option memstream_buf_t) (W H : Nat) (xpal : List pal_entry_t) (file : List Nat)
    (h : save_bmp K fn ok src W H xpal = exec.done ⟨0, file⟩) :
    HDRBUFSZ + PALENTSZ * 256 ≤ file.length ∧
    ∀ i, i < 256 → ∃ e, xpal[i]? = some e ∧
      (file.drop (HDRBUFSZ + PALENTSZ * i)).take PALENTSZ
        = (if K.rgb_order then [e.r, e.g, e.b, 0] else [e.b, e.g, e.r, 0]) := by
  obtain ⟨hb, rows, _, hf⟩ := save_bmp_success K fn ok src W H xpal file h
  have hhl : (le_bytes SIGSZ K.BMPFILESIG ++ header_bytes (save_header K W H)).length
      = HDRBUFSZ := by
    rw [List.length_append, le_bytes_length, header_bytes_length]; rfl
  have hpl : (((xpal.take 256).map bmp_of_rgb).flatMap (pal_entry_bytes K)).length
      = PALENTSZ * 256 := by
    rw [pal_bytes_length, List.length_map, List.length_take, Nat.min_eq_left hb]; rfl
  refine ⟨by rw [hf]; simp only [List.length_append, hpl] at hhl ⊢; omega, ?_⟩
  intro i hi
  have hlt : i < xpal.length := by omega
  refine ⟨xpal[i], List.getElem?_eq_getElem hlt, ?_⟩
  have hget : ((xpal.take 256).map bmp_of_rgb)[i]? = some (bmp_of_rgb xpal[i]) := by
    rw [List.getElem?_map, List.getElem?_take_of_lt hi, List.getElem?_eq_getElem hlt]
    rfl
  rw [hf, List.append_assoc, ← List.drop_drop, List.drop_left' hhl,
    pal_bytes_entry K _ rows i _ hget]
  rfl

theorem writer_palette_table_witness :
    save_bmp bmp_h_bm (some "out.bmp") true (some ⟨4, 0, some [1, 2, 3, 4]⟩) 2 2 pal_ramp
      = exec.done ⟨0, file_out_2x2⟩ ∧
    HDRBUFSZ + PALENTSZ * 256 ≤ file_out_2x2.length ∧
    ∀ i, i < 256 → ∃ e, pal_ramp[i]? = some e ∧
      (file_out_2x2.drop (HDRBUFSZ + PALENTSZ * i)).take PALENTSZ
        = (if bmp_h_bm.rgb_order then [e.r, e.g, e.b, 0] else [e.b, e.g, e.r, 0]) :=
  ⟨save_2x2_eval,
    writer_palette_table bmp_h_bm (some "out.bmp") true (some ⟨4, 0, some [1, 2, 3, 4]⟩) 2 2
      pal_ramp file_out_2x2 save_2x2_eval⟩

/-- C12. Declared size equals actual size: for every `uint16_t` width `W ≥ 1` and height `H`,
every pixel buffer of `W * H` bytes and every 256-entry palette, `save_bmp` succeeds, writes
exactly `HDRBUFSZ + 1024 + stride * H` bytes, the `file_size` field holds that number, the
32-bit computations `stride * H` and offset + `stride * H` do not wrap, and the pixel offset
field is the position in the file at which the pixel rows start. -/
theorem declared_size_is_actual (K : bmp_h) (fn : String) (pos : Nat) (data : List Nat)
    (W H : Nat) (xpal : List pal_entry_t) (hW1 : 1 ≤ W) (hW : W ≤ 65535) (hH : H ≤ 65535)
    (hd : data.length = W * H) (hx : xpal.length = 256) :
    ∃ file, save_bmp K (some fn) true (some ⟨W * H, pos, some data⟩) W H xpal
        = exec.done ⟨0, file⟩ ∧
      file.length = HDRBUFSZ + 1024 + stride_of W * H ∧
      (file_header file).dib.file_size = file.length ∧
      stride_of W * H < 4294967296 ∧ HDRBUFSZ + 1024 + stride_of W * H < 4294967296 ∧
      (file_header file).dib.image_offset = HDRBUFSZ + 1024 ∧
      (file.drop (file_header file).dib.image_offset).length = H * stride_of W ∧
      ∀ k, k < H →
        ((file.drop (file_header file).dib.image_offset).drop (k * stride_of W)).take W
          = (data.drop ((H - 1 - k) * W)).take W := by
  have hm := stride_mul_lt W H hW hH
  have hb : HDRBUFSZ = 54 := rfl
  have hlen := bmp_file_length K data W H xpal hW hd hx
  have hhdr : file_header (bmp_file K data W H 0 xpal) = save_header K W H := by
    rw [bmp_file, List.append_assoc]
    exact file_header_saved K W H _ hW hH
  have hoff : (save_header K W H).dib.image_offset = HDRBUFSZ + PALENTSZ * 256 := rfl
  refine ⟨bmp_file K data W H 0 xpal,
    save_bmp_eq K fn (W * H) pos data W H 0 xpal hW1 hW (by rw [Nat.mul_comm]; omega)
      (by omega) hx, hlen, ?_, by omega, by omega, by rw [hhdr]; rfl, ?_, ?_⟩
  · rw [hhdr, hlen]
    simp only [save_header, HDRBUFSZ, SIGSZ, HDRSZ, BMISZ, PALENTSZ]
    omega
  · rw [hhdr, hoff, List.length_drop, hlen, Nat.mul_comm H]
    have : PALENTSZ * 256 = 1024 := rfl
    omega
  · intro k hk
    rw [hhdr, hoff]
    exact bmp_file_row K data W H xpal hW hd hx k hk

set_option maxRecDepth 100000 in
theorem declared_size_is_actual_witness :
    1 ≤ 2 ∧ 2 ≤ 65535 ∧ [1, 2, 3, 4].length = 2 * 2 ∧ pal_ramp.length = 256 ∧
    ∃ file, save_bmp bmp_h_bm (some "out.bmp") true (some ⟨2 * 2, 0, some [1, 2, 3, 4]⟩) 2 2
        pal_ramp = exec.done ⟨0, file⟩ ∧
      file.length = HDRBUFSZ + 1024 + stride_of 2 * 2 ∧
      (file_header file).dib.file_size = file.length ∧
      stride_of 2 * 2 < 4294967296 ∧ HDRBUFSZ + 1024 + stride_of 2 * 2 < 4294967296 ∧
      (file_header file).dib.image_offset = HDRBUFSZ + 1024 ∧
      (file.drop (file_header file).dib.image_offset).length = 2 * stride_of 2 ∧
      ∀ k, k < 2 →
        ((file.drop (file_header file).dib.image_offset).drop (k * stride_of 2)).take 2
          = ([1, 2, 3, 4].drop ((2 - 1 - k) * 2)).take 2 :=
  ⟨by decide, by decide, by decide, by decide,
    declared_size_is_actual bmp_h_bm "out.bmp" 0 [1, 2, 3, 4] 2 2 pal_ramp (by decide)
      (by decide) (by decide) (by decide) (by decide)⟩

/-- C16 (amended). Writer input validation: for every width, height and palette, `save_bmp`
returns -1 exactly when the file name, the buffer structure or its pixel pointer is NULL, and
then nothing is written. The recorded length of the buffer is not examined: with a non-NULL
pixel pointer and `src->len = 0`, height 0 gives the return value 0 with the
`HDRBUFSZ` + 1024 bytes of header and palette written, and width and height of at least 1
make `save_bmp` read `src->data[len - width]`, before the start of the buffer. -/
theorem writer_input_validation (K : bmp_h) (fn : Option String) (ok : Bool)
    (src : Option memstream_buf_t) (W H : Nat) (xpal : List pal_entry_t) :
    ((fn = none ∨ src = none ∨ ∃ len pos, src = some ⟨len, pos, none⟩) →
      save_bmp K fn ok src W H xpal = exec.done ⟨-1, []⟩) ∧
    (∀ res, save_bmp K fn ok src W H xpal = exec.done res → res.rval = -1 →
      fn = none ∨ src = none ∨ ∃ len pos, src = some ⟨len, pos, none⟩) ∧
    (∀ name pos data, xpal.length = 256 →
      save_bmp K (some name) true (some ⟨0, pos, some data⟩) W 0 xpal
        = exec.done ⟨0, bmp_head K W 0 xpal⟩ ∧
      (bmp_head K W 0 xpal).length = HDRBUFSZ + 1024) ∧
    (∀ name pos data, xpal.length = 256 → 1 ≤ W → 1 ≤ H →
      save_bmp K (some name) true (some ⟨0, pos, some data⟩) W H xpal = exec.out_of_bounds) :=
  ⟨save_bmp_null K fn ok src W H xpal,
    fun res h h1 => save_bmp_invalid K fn ok src W H xpal res h h1,
    fun name pos data hx => ⟨save_bmp_height_zero K name 0 pos data W xpal hx,
      bmp_head_length K W 0 xpal hx⟩,
    fun name pos data hx hW hH => save_bmp_short_buffer K name 0 pos data W H xpal hx hW hH
      (by omega)⟩

set_option maxRecDepth 100000 in
theorem writer_input_validation_witness :
    save_bmp bmp_h_bm (some "OUT.BMP") true (some ⟨64000, 0, none⟩) 320 200 pal_ramp
      = exec.done ⟨-1, []⟩ ∧
    save_bmp bmp_h_bm (some "OUT.BMP") true (some ⟨0, 0, some []⟩) 320 200 pal_ramp
      = exec.out_of_bounds ∧
    save_bmp bmp_h_bm (some "OUT.BMP") true (some ⟨0, 0, some []⟩) 320 0 pal_ramp
      = exec.done ⟨0, bmp_head bmp_h_bm 320 0 pal_ramp⟩ ∧
    (bmp_head bmp_h_bm 320 0 pal_ramp).length = HDRBUFSZ + 1024 :=
  ⟨(writer_input_validation bmp_h_bm (some "OUT.BMP") true (some ⟨64000, 0, none⟩) 320 200
      pal_ramp).1 (Or.inr (Or.inr ⟨64000, 0, rfl⟩)),
    (writer_input_validation bmp_h_bm (some "OUT.BMP") true (some ⟨0, 0, some []⟩) 320 200
      pal_ramp).2.2.2 "OUT.BMP" 0 [] (by decide) (by decide) (by decide),
    (writer_input_validation bmp_h_bm (some "OUT.BMP") true (some ⟨0, 0, some []⟩) 320 0
      pal_ramp).2.2.1 "OUT.BMP" 0 [] (by decide)⟩

set_option maxRecDepth 100000 in
/-- C16 (counterexample). An empty buffer is not rejected for every width and height: with
width 320 and height 0 `save_bmp` returns 0 and writes header and palette. -/
theorem writer_input_validation_counterexample :
    ¬ (∀ W H, save_bmp bmp_h_bm (some "OUT.BMP") true (some ⟨0, 0, some []⟩) W H pal_ramp
        = exec.done ⟨-1, []⟩) := by
  intro hall
  have h := hall 320 0
  rw [save_bmp_height_zero bmp_h_bm "OUT.BMP" 0 0 [] 320 pal_ramp (by decide)] at h
  have h2 := congrArg save_result.rval (exec.done.inj h)
  exact absurd h2 (by decide)

/-- C13 (amended). Failure and the palette: for every outcome of the four `calloc` calls of
`load_bmp`, every input and every palette destination, when `load_bmp` fails
(1) before it has read the whole palette table (a NULL pointer, a file that cannot be opened,
a short or wrong signature, a short or invalid header, a short palette table, or no memory for
the header or palette buffer), the palette destination holds what it held before the call; in
particular this is so for every code other than -3 and -5;
(2) after that, the code is -3 (a scanline cannot be read) or -5 (no memory for the pixel or
line buffer), and the palette destination has been overwritten: it holds the palette of the
file in its entries `0 .. num_colors - 1` and its former content from `num_colors` on. -/
theorem failure_palette (K : bmp_h) (hp : calloc_ok) (dst : Option memstream_buf_t)
    (fn : Option String) (fopen_rb : Option (List Nat)) (width height : Option Nat)
    (xpal : List pal_entry_t) (res : load_result)
    (hrun : load_bmp_heap K hp dst fn fopen_rb width height xpal = exec.done res)
    (hfail : res.rval ≠ 0) :
    (¬ past_palette K hp dst fn fopen_rb width height → res.xpal = xpal) ∧
    (res.rval ≠ -3 → res.rval ≠ -5 → res.xpal = xpal) ∧
    (past_palette K hp dst fn fopen_rb width height → ∃ s, fopen_rb = some s ∧
      (file_header s).bmi.num_colors ≤ xpal.length ∧
      res.xpal = stored_palette K s xpal ∧ (res.rval = -3 ∨ res.rval = -5) ∧
      (res.rval = -5 ↔ (hp.data = false ∨ hp.buf = false))) := by
  rcases load_bmp_heap_palette K hp dst fn fopen_rb width height xpal res hrun hfail with
    ⟨hn, e⟩ | ⟨hpast, s, hs, h1, h2, h3, h4⟩
  · exact ⟨fun _ => e, fun _ _ => e, fun c => absurd c hn⟩
  · refine ⟨fun c => absurd hpast c, fun c3 c5 => ?_, fun _ => ⟨s, hs, h1, h2, h3, h4⟩⟩
    rcases h3 with c | c
    · exact absurd c c3
    · exact absurd c c5

set_option maxRecDepth 100000 in
theorem failure_palette_witness :
    load_bmp_heap bmp_h_bm ⟨true, true, true, true⟩ (some ⟨0, 0, none⟩) (some "in.bmp")
      (some file_norows) (some 0) (some 0) pal_zero = exec.done res_norows ∧
    res_norows.rval = -3 ∧ res_norows.xpal ≠ pal_zero ∧
    (∃ s, some file_norows = some s ∧ (file_header s).bmi.num_colors ≤ pal_zero.length ∧
      res_norows.xpal = stored_palette bmp_h_bm s pal_zero ∧
      (res_norows.rval = -3 ∨ res_norows.rval = -5) ∧
      (res_norows.rval = -5 ↔ ((true : Bool) = false ∨ (true : Bool) = false))) ∧
    load_bmp_heap bmp_h_bm ⟨true, true, false, true⟩ (some ⟨0, 0, none⟩) (some "in.bmp")
      (some file_2x2) (some 0) (some 0) pal_zero = exec.done res_nomem ∧
    res_nomem.rval = -5 ∧ res_nomem.xpal ≠ pal_zero ∧
    (∃ s, some file_2x2 = some s ∧ (file_header s).bmi.num_colors ≤ pal_zero.length ∧
      res_nomem.xpal = stored_palette bmp_h_bm s pal_zero ∧
      (res_nomem.rval = -3 ∨ res_nomem.rval = -5) ∧
      (res_nomem.rval = -5 ↔ ((false : Bool) = false ∨ (true : Bool) = false))) :=
  have e1 : load_bmp_heap bmp_h_bm ⟨true, true, true, true⟩ (some ⟨0, 0, none⟩) (some "in.bmp")
      (some file_norows) (some 0) (some 0) pal_zero = exec.done res_norows := by rfl
  have e2 : load_bmp_heap bmp_h_bm ⟨true, true, false, true⟩ (some ⟨0, 0, none⟩)
      (some "in.bmp") (some file_2x2) (some 0) (some 0) pal_zero = exec.done res_nomem := by rfl
  ⟨e1, rfl, by decide,
    (failure_palette bmp_h_bm ⟨true, true, true, true⟩ (some ⟨0, 0, none⟩) (some "in.bmp")
      (some file_norows) (some 0) (some 0) pal_zero res_norows e1 (by decide)).2.2 (by decide),
    e2, rfl, by decide,
    (failure_palette bmp_h_bm ⟨true, true, false, true⟩ (some ⟨0, 0, none⟩) (some "in.bmp")
      (some file_2x2) (some 0) (some 0) pal_zero res_nomem e2 (by decide)).2.2 (by decide)⟩

set_option maxRecDepth 100000 in
/-- C13 (counterexample). The file `file_norows` has a valid header and a complete palette but
no pixel rows: `load_bmp` fails with -3 and the palette destination, zero before the call,
holds the two palette entries of the file afterwards. -/
theorem failure_palette_counterexample :
    ¬ (∀ res, load_bmp bmp_h_bm (some ⟨0, 0, none⟩) (some "in.bmp") (some file_norows) (some 0)
        (some 0) pal_zero = exec.done res → res.rval ≠ 0 → res.xpal = pal_zero) := by
  intro hall
  have := hall res_norows load_norows_eval (by decide)
  exact absurd this (by decide)

set_option maxRecDepth 100000 in
/-- C14 (failing input). Palette stays 256 entries: `file_257` is a complete 2x2 bitmap whose
header declares 257 palette entries, all present in the file. `load_bmp`, given a 256-entry
palette destination, stores entry 256 outside it. -/
theorem palette_store_outside :
    HDRBUFSZ + PALENTSZ * (file_header file_257).bmi.num_colors
      + hdr_lh (file_header file_257) * stride_of (hdr_lw (file_header file_257))
      = file_257.length ∧
    pal_zero.length = 256 ∧ (file_header file_257).bmi.num_colors = 257 ∧
    load_bmp bmp_h_bm (some ⟨0, 0, none⟩) (some "in.bmp") (some file_257) (some 0) (some 0)
      pal_zero = exec.out_of_bounds :=
  ⟨by decide, by decide, by decide,
    load_bmp_palette_outside bmp_h_bm ⟨0, 0, none⟩ "in.bmp" file_257 0 0 pal_zero (by decide)
      (by decide) (by decide) (by decide) (by decide)⟩

/-- C15 (amended). Reported dimensions: for every file that `load_bmp` accepts, the width
reported is the declared width reduced modulo 65536 and the height reported is the absolute
value of the declared height reduced modulo 65536, the values the `uint16_t` variables `lw`
and `lh` hold; they are the declared width and the absolute declared height whenever these lie
in `0 .. 65535`. -/
theorem reported_dimensions (K : bmp_h) (dst : Option memstream_buf_t) (fn : Option String)
    (s : List Nat) (width height : Option Nat) (xpal : List pal_entry_t) (res : load_result)
    (h : load_bmp K dst fn (some s) width height xpal = exec.done res) (h0 : res.rval = 0) :
    res.width = some (((file_header s).bmi.image_width % 65536).toNat) ∧
    res.height = some ((file_header s).bmi.image_height.natAbs % 65536) ∧
    (0 ≤ (file_header s).bmi.image_width → (file_header s).bmi.image_width < 65536 →
      res.width = some (file_header s).bmi.image_width.toNat) ∧
    ((file_header s).bmi.image_height.natAbs < 65536 →
      res.height = some (file_header s).bmi.image_height.natAbs) := by
  obtain ⟨_, _, _, _, _, _, _, _, xpal1, _, hres⟩ :=
    load_bmp_accept K dst fn s width height xpal res h h0
  have hw : res.width = some (hdr_lw (file_header s)) := by rw [hres]
  have hh : res.height = some (hdr_lh (file_header s)) := by rw [hres]
  refine ⟨hw, hh, ?_, ?_⟩
  · intro h1 h2
    rw [hw, hdr_lw]
    congr 1
    omega
  · intro h1
    rw [hh, hdr_lh]
    congr 1
    omega

set_option maxRecDepth 100000 in
theorem reported_dimensions_witness :
    load_bmp bmp_h_bm (some ⟨0, 0, none⟩) (some "in.bmp") (some file_wide) (some 0) (some 0)
      pal_zero = exec.done res_2x2 ∧ res_2x2.rval = 0 ∧
    (res_2x2.width = some (((file_header file_wide).bmi.image_width % 65536).toNat) ∧
    res_2x2.height = some ((file_header file_wide).bmi.image_height.natAbs % 65536) ∧
    (0 ≤ (file_header file_wide).bmi.image_width →
      (file_header file_wide).bmi.image_width < 65536 →
      res_2x2.width = some (file_header file_wide).bmi.image_width.toNat) ∧
    ((file_header file_wide).bmi.image_height.natAbs < 65536 →
      res_2x2.height = some (file_header file_wide).bmi.image_height.natAbs)) :=
  ⟨load_wide_eval, rfl,
    reported_dimensions bmp_h_bm (some ⟨0, 0, none⟩) (some "in.bmp") file_wide (some 0) (some 0)
      pal_zero res_2x2 load_wide_eval rfl⟩

set_option maxRecDepth 100000 in
/-- C15 (counterexample). The file `file_wide` declares width 65538 and is accepted, and the
width `load_bmp` reports is 2, not 65538. -/
theorem reported_dimensions_counterexample :
    (file_header file_wide).bmi.image_width = 65538 ∧
    ¬ (∀ res, load_bmp bmp_h_bm (some ⟨0, 0, none⟩) (some "in.bmp") (some file_wide) (some 0)
        (some 0) pal_zero = exec.done res → res.rval = 0 →
        res.width = some (file_header file_wide).bmi.image_width.toNat) := by
  refine ⟨by decide, ?_⟩
  intro hall
  have := hall res_2x2 load_wide_eval rfl
  exact absurd this (by decide)

/-- C20 (amended). Absent signature: for every file shorter than 2 bytes, the empty file
included, `load_bmp` returns the I/O failure code -3, which is not the format mismatch code
-4 of a wrong signature, and stores nothing through its pointer arguments. -/
theorem absent_signature_io_failure (K : bmp_h) (d : memstream_buf_t) (fn : String)
    (s : List Nat) (w h : Nat) (xpal : List pal_entry_t) (hlen : s.length < 2) :
    load_bmp K (some d) (some fn) (some s) (some w) (some h) xpal
      = exec.done ⟨-3, some d, some w, some h, xpal⟩ ∧ (-3 : Int) ≠ -4 :=
  ⟨load_bmp_no_signature K d fn s w h xpal hlen, by decide⟩

theorem absent_signature_io_failure_witness :
    [0x42].length < 2 ∧
    load_bmp bmp_h_bm (some ⟨0, 0, none⟩) (some "in.bmp") (some [0x42]) (some 0) (some 0)
      pal_zero = exec.done ⟨-3, some ⟨0, 0, none⟩, some 0, some 0, pal_zero⟩ ∧ (-3 : Int) ≠ -4 :=
  ⟨by decide,
    absent_signature_io_failure bmp_h_bm ⟨0, 0, none⟩ "in.bmp" [0x42] 0 0 pal_zero (by decide)⟩

/-- C20 (counterexample). On the empty file `load_bmp` does not return -4. -/
theorem absent_signature_counterexample :
    ¬ (∀ res, load_bmp bmp_h_bm (some ⟨0, 0, none⟩) (some "in.bmp") (some []) (some 0) (some 0)
        pal_zero = exec.done res → res.rval = -4) := by
  intro hall
  have := hall _ (load_bmp_no_signature bmp_h_bm ⟨0, 0, none⟩ "in.bmp" [] 0 0 pal_zero
    (by decide))
  exact absurd this (by decide)

/-- C19. Informational fields are not trusted: for any two files of the same length that are
identical outside the bytes of the header fields `file_size`, `image_offset`, `bitmap_size`,
`horiz_res`, `vert_res` and `important_colors`, `load_bmp` yields the same outcome: the same
return value and the same pixel buffer, palette, width and height. On success the pixel rows
are those that start at byte `HDRBUFSZ + 4 * num_colors` of the file, right after the palette;
the `image_offset` field plays no part. -/
theorem info_fields_not_trusted (K : bmp_h) (dst : Option memstream_buf_t) (fn : Option String)
    (s1 s2 : List Nat) (width height : Option Nat) (xpal : List pal_entry_t)
    (h : same_but_info s1 s2) :
    load_bmp K dst fn (some s1) width height xpal
      = load_bmp K dst fn (some s2) width height xpal ∧
    ∀ res, load_bmp K dst fn (some s1) width height xpal = exec.done res → res.rval = 0 →
      load_bmp K dst fn (some s2) width height xpal = exec.done res ∧
      res.dst = some ⟨hdr_lw (file_header s1) * hdr_lh (file_header s1), 0,
        some (image_of_rows (s1.drop (HDRBUFSZ + PALENTSZ * (file_header s1).bmi.num_colors))
          (hdr_lw (file_header s1)) (stride_of (hdr_lw (file_header s1)))
          (hdr_lh (file_header s1)) (hdr_flip (file_header s1)))⟩ := by
  have e := load_bmp_congr K dst fn s1 s2 width height xpal h
  refine ⟨e, fun res hr h0 => ⟨by rw [← e]; exact hr, ?_⟩⟩
  obtain ⟨_, _, _, _, _, _, _, _, xpal1, _, hres⟩ :=
    load_bmp_accept K dst fn s1 width height xpal res hr h0
  rw [hres]
  rfl

set_option maxRecDepth 100000 in
theorem info_fields_not_trusted_witness :
    same_but_info file_2x2 file_2x2_info ∧ file_2x2 ≠ file_2x2_info ∧
    (file_header file_2x2_info).dib.image_offset = 5 ∧
    load_bmp bmp_h_bm (some ⟨0, 0, none⟩) (some "in.bmp") (some file_2x2) (some 0) (some 0)
      pal_zero = exec.done res_2x2 ∧
    load_bmp bmp_h_bm (some ⟨0, 0, none⟩) (some "in.bmp") (some file_2x2_info) (some 0) (some 0)
      pal_zero = exec.done res_2x2 :=
  have e : load_bmp bmp_h_bm (some ⟨0, 0, none⟩) (some "in.bmp") (some file_2x2) (some 0)
      (some 0) pal_zero = exec.done res_2x2 := by rfl
  ⟨same_info_2x2, by decide, by decide, e,
    ((info_fields_not_trusted bmp_h_bm (some ⟨0, 0, none⟩) (some "in.bmp") file_2x2
      file_2x2_info (some 0) (some 0) pal_zero same_info_2x2).2 res_2x2 e rfl).1⟩

/-- C17. Fixed-resolution guard of `main` in `pak2bmp.c`: every run returns, and
(1) when the image file that was opened does not have 320*200 = 64000 bytes, the exit status
is not 0 and no statement that allocates or reads the image or palette buffer or calls
`save_bmp` has been executed;
(2) the same when the palette file that was opened does not have 768 bytes;
(3) every call of `save_bmp` has width 320, height 200, a buffer of recorded and actual
length 64000 and a palette of 256 entries;
(4) with one argument, a 64000-byte image file and a 768-byte palette file, `save_bmp` is
called once, on the content of the image file and the entries of the palette file, and the
exit status is 0 exactly when the output file can be created. -/
theorem fixed_resolution_guard (K : bmp_h) (fopen_rb : String → Option (List Nat))
    (fopen_wb : String → Bool) (argv : List String) :
    ∃ r, main K fopen_rb fopen_wb argv = exec.done r ∧
      (∀ img, fopen_rb (argv.getD 1 "") = some img → img.length ≠ 320 * 200 →
        r.rval ≠ 0 ∧ r.events = []) ∧
      (∀ pal, fopen_rb (derived_name (argv.getD 1 "") PALEXT) = some pal → pal.length ≠ 768 →
        r.rval ≠ 0 ∧ r.events = []) ∧
      (∀ fn src w h xpal, event.call_save_bmp fn src w h xpal ∈ r.events →
        w = 320 ∧ h = 200 ∧ src.len = 64000 ∧ (∃ d, src.data = some d ∧ d.length = 64000) ∧
        xpal.length = 256) ∧
      (∀ img pal, argv.length = 2 → fopen_rb (argv.getD 1 "") = some img →
        img.length = 64000 → fopen_rb (derived_name (argv.getD 1 "") PALEXT) = some pal →
        pal.length = 768 →
        r.events = convert_events (derived_name (argv.getD 1 "") OUTEXT) img pal ∧
        (r.rval = 0 ↔ fopen_wb (derived_name (argv.getD 1 "") OUTEXT) = true)) := by
  rcases main_outcome K fopen_rb fopen_wb argv with ⟨hm, hn⟩ | ⟨img, pal, e1, h1, e2, h2, ha, hm⟩
  · refine ⟨_, hm, fun _ _ _ => ⟨by decide, rfl⟩, fun _ _ _ => ⟨by decide, rfl⟩, ?_, ?_⟩
    · intro fn src w h xpal hmem
      exact absurd hmem (by simp)
    · intro img pal ha e1 h1 e2 h2
      exact absurd ⟨img, pal, e1, h1, e2, h2, ha⟩ hn
  · refine ⟨_, hm, ?_, ?_, ?_, ?_⟩
    · intro img1 e h
      rw [e1] at e
      injection e with e
      subst e
      omega
    · intro pal1 e h
      rw [e2] at e
      injection e with e
      subst e
      omega
    · intro fn src w h xpal hmem
      simp only [convert_events, List.mem_cons, List.mem_singleton, List.not_mem_nil,
        reduceCtorEq, false_or, or_false, event.call_save_bmp.injEq] at hmem
      obtain ⟨_, hs, hw, hh, hx⟩ := hmem
      subst hs hw hh hx
      exact ⟨rfl, rfl, rfl, ⟨img, rfl, h1⟩, by rw [xpal_of_bytes_length, h2]⟩
    · intro img1 pal1 _ e1a _ e2a _
      rw [e1] at e1a
      rw [e2] at e2a
      injection e1a with e1a
      injection e2a with e2a
      subst e1a e2a
      refine ⟨rfl, ?_⟩
      cases fopen_wb (derived_name (argv.getD 1 "") OUTEXT) <;> simp

theorem fixed_resolution_guard_witness :
    (∃ r, main bmp_h_bm fs_example (fun _ => true) ["pak2bmp", "SHORT.PAK"] = exec.done r ∧
      r.rval ≠ 0 ∧ r.events = []) ∧
    (∃ r, main bmp_h_bm fs_example (fun _ => true) ["pak2bmp", "A.PAK"] = exec.done r ∧
      r.rval = 0 ∧
      r.events = convert_events "A.BMP" img_example pal_example) := by
  constructor
  · obtain ⟨r, hr, h1, _⟩ :=
      fixed_resolution_guard bmp_h_bm fs_example (fun _ => true) ["pak2bmp", "SHORT.PAK"]
    exact ⟨r, hr, h1 [1, 2, 3] (by decide) (by decide)⟩
  · obtain ⟨r, hr, _, _, _, h4⟩ :=
      fixed_resolution_guard bmp_h_bm fs_example (fun _ => true) ["pak2bmp", "A.PAK"]
    have h := h4 img_example pal_example rfl (by simp [fs_example])
      (List.length_replicate _ _) (by simp [fs_example, derived_name, PALEXT, drop_extension,
        strrchr]) (List.length_replicate _ _)
    have hn : derived_name "A.PAK" OUTEXT = "A.BMP" := by decide
    exact ⟨r, hr, h.2.2 rfl, by rw [← hn]; exact h.1⟩

/-- C21. Writer rows are addressed from the end of the buffer: for every `uint16_t` width
`W ≥ 1`, every height `H ≥ 1`, every buffer of recorded length `len ≥ W * H` (with `len`
bytes present) and every 256-entry palette, `save_bmp` returns 0 and
(1) the first `W` bytes of on-disk row `k` are the bytes `[len - (k+1)*W, len - k*W)` of the
buffer, so that row 0 is taken from offset `len - W`;
(2) any other buffer whose last `W * H` bytes are the same gives the same file;
(3) the offset `len - (k+1)*W` is the offset `(H-1-k)*W` of image row `H - 1 - k`
exactly when `len = W * H`; when `len = W * H` on-disk row `k` is image row `H - 1 - k`, and
when `len ≠ W * H` there is a buffer of `len` bytes for which on-disk row 0 is not image row
`H - 1`. -/
theorem rows_from_buffer_end (K : bmp_h) (fn : String) (len pos : Nat) (data : List Nat)
    (W H : Nat) (xpal : List pal_entry_t) (hW1 : 1 ≤ W) (hW : W ≤ 65535) (hH1 : 1 ≤ H)
    (hlen : W * H ≤ len) (hd : len ≤ data.length) (hx : xpal.length = 256) :
    ∃ file, save_bmp K (some fn) true (some ⟨len, pos, some data⟩) W H xpal
        = exec.done ⟨0, file⟩ ∧
      (∀ k, k < H →
        ((file.drop (HDRBUFSZ + PALENTSZ * 256)).drop (k * stride_of W)).take W
          = (data.drop (len - (k + 1) * W)).take W) ∧
      (∀ fn2 pos2 len2 data2, W * H ≤ len2 → len2 ≤ data2.length →
        (data2.drop (len2 - W * H)).take (W * H) = (data.drop (len - W * H)).take (W * H) →
        save_bmp K (some fn2) true (some ⟨len2, pos2, some data2⟩) W H xpal
          = exec.done ⟨0, file⟩) ∧
      (∀ k, k < H → (len - (k + 1) * W = (H - 1 - k) * W ↔ len = W * H)) ∧
      (len = W * H → ∀ k, k < H →
        ((file.drop (HDRBUFSZ + PALENTSZ * 256)).drop (k * stride_of W)).take W
          = (data.drop ((H - 1 - k) * W)).take W) ∧
      (len ≠ W * H → ∃ data2 file2, data2.length = len ∧ (∀ b ∈ data2, b < 256) ∧
        save_bmp K (some fn) true (some ⟨len, pos, some data2⟩) W H xpal
          = exec.done ⟨0, file2⟩ ∧
        ((file2.drop (HDRBUFSZ + PALENTSZ * 256)).drop (0 * stride_of W)).take W
          ≠ (data2.drop ((H - 1 - 0) * W)).take W) := by
  have hpos : 1 ≤ W * H := Nat.mul_pos hW1 hH1
  have hsum : ∀ k, k < H → (H - 1 - k) * W + (k + 1) * W = W * H := by
    intro k hk
    rw [← Nat.add_mul, Nat.mul_comm]
    congr 1
    omega
  have hrow : ∀ (d : List Nat), len ≤ d.length → ∀ k, k < H →
      (((bmp_file K ((d.drop (len - W * H)).take (W * H)) W H 0 xpal).drop
        (HDRBUFSZ + PALENTSZ * 256)).drop (k * stride_of W)).take W
        = (d.drop (len - (k + 1) * W)).take W := by
    intro d hd1 k hk
    rw [bmp_file_row K _ W H xpal hW (segment_length d len (W * H) hlen hd1) hx k hk,
      segment_row d W H len k hk hlen]
  have hoff : ∀ k, k < H → (len - (k + 1) * W = (H - 1 - k) * W ↔ len = W * H) := by
    intro k hk
    have := hsum k hk
    omega
  refine ⟨_, save_bmp_tail K fn len pos data W H xpal hW1 hW hlen hd hx, hrow data hd, ?_,
    hoff, ?_, ?_⟩
  · intro fn2 pos2 len2 data2 h1 h2 h3
    rw [save_bmp_tail K fn2 len2 pos2 data2 W H xpal hW1 hW h1 h2 hx, h3]
  · intro he k hk
    rw [hrow data hd k hk, (hoff k hk).2 he]
  · intro hne
    have hl := tail_marked_length len (by omega)
    refine ⟨tail_marked len, _, hl, tail_marked_byte len,
      save_bmp_tail K fn len pos (tail_marked len) W H xpal hW1 hW hlen (by omega) hx, ?_⟩
    rw [hrow (tail_marked len) (by omega) 0 (by omega)]
    exact tail_marked_rows W H len hW1 hH1 (by omega)

set_option maxRecDepth 100000 in
theorem rows_from_buffer_end_witness :
    save_bmp bmp_h_bm (some "out.bmp") true (some ⟨6, 0, some [7, 8, 1, 2, 3, 4]⟩) 2 2 pal_ramp
      = exec.done ⟨0, file_out_2x2⟩ ∧
    save_bmp bmp_h_bm (some "out.bmp") true (some ⟨4, 0, some [1, 2, 3, 4]⟩) 2 2 pal_ramp
      = exec.done ⟨0, file_out_2x2⟩ ∧
    ((file_out_2x2.drop (HDRBUFSZ + PALENTSZ * 256)).drop (0 * stride_of 2)).take 2 = [3, 4] ∧
    ((file_out_2x2.drop (HDRBUFSZ + PALENTSZ * 256)).drop (1 * stride_of 2)).take 2 = [1, 2] := by
  obtain ⟨file, h1, h2, h3, _⟩ := rows_from_buffer_end bmp_h_bm "out.bmp" 6 0
    [7, 8, 1, 2, 3, 4] 2 2 pal_ramp (by decide) (by decide) (by decide) (by decide) (by decide)
    (by decide)
  have e := h3 "out.bmp" 0 4 [1, 2, 3, 4] (by decide) (by decide) (by decide)
  have hf : file = file_out_2x2 :=
    (save_result.mk.inj (exec.done.inj (e.symm.trans save_2x2_eval))).2
  subst hf
  exact ⟨h1, e, h2 0 (by decide), h2 1 (by decide)⟩

end EaPak
